import Mathlib

/-!
# Voxel grid editor (`src/GrauB/GB.cpp`): shallow embedding

The global variables of `GB.cpp` that the editor logic reads and writes
(`TAM`, `grid`, `selecaoX`, `selecaoY`, `selecaoZ`) become the fields of `Estado`;
the file `minecraft.txt` that `salvarGradeVoxel` / `carregarGradeVoxel` write and
read is part of the same record.  Functions that can run into undefined behaviour
(an index outside the allocated grid) or end the program by an uncaught exception
(`new T[n]` with `n < 0`) return `Option`, with `none` for those outcomes.

Conventions
* `int` values are `Int`; the C expression `-TAM / 2` is `Int.tdiv (-TAM) 2`.
  The cursor arithmetic of `key_callback` stays within one unit of `[0, TAM)`, so
  it never leaves the range of `int`.  Memory is not bounded.
* `float` values are the rationals they denote.  `roundF32` is rounding to the
  nearest binary32 value (ties to even); NaN, the infinities and the sign of zero
  have no counterpart.
* A stream is the list of characters still to be read plus its `failbit`.
  `operator<<` and `operator>>` are those of the C++ standard library (C++11 and
  later) for a stream in its default state: decimal integers, `bool` as `0`/`1`,
  `float` through `%g` with precision 6, white space skipped before each field.
-/

namespace GB

/-! ## Key codes (constants of `GLFW/glfw3.h`, which is not part of the repository) -/

abbrev GLFW_PRESS : Int := 1
abbrev GLFW_KEY_0 : Int := 48
abbrev GLFW_KEY_1 : Int := 49
abbrev GLFW_KEY_9 : Int := 57
abbrev GLFW_KEY_E : Int := 69
abbrev GLFW_KEY_Q : Int := 81
abbrev GLFW_KEY_V : Int := 86
abbrev GLFW_KEY_DELETE : Int := 261
abbrev GLFW_KEY_RIGHT : Int := 262
abbrev GLFW_KEY_LEFT : Int := 263
abbrev GLFW_KEY_DOWN : Int := 264
abbrev GLFW_KEY_UP : Int := 265
abbrev GLFW_KEY_F1 : Int := 290
abbrev GLFW_KEY_F2 : Int := 291

/-! ## binary32 values -/

/-- Quotient `p / q` rounded to the nearest natural number, ties to the even one. -/
def arredPar (p q : Nat) : Nat :=
  let k := p / q
  let r := p % q
  if 2 * r < q then k else if q < 2 * r then k + 1 else if k % 2 = 0 then k else k + 1

/-- Floor of the base `b` logarithm of `n` (for `1 ≤ n`), by repeated division;
the first argument bounds the number of divisions. -/
def logPiso (b : Nat) : Nat → Nat → Nat
  | 0, _ => 0
  | f + 1, n => if n < b then 0 else logPiso b f (n / b) + 1

/-- Least `k ≥ 1` with `q ≤ p * b ^ k` (for `0 < p < q`); the first argument bounds
the number of multiplications. -/
def logTeto (b : Nat) : Nat → Nat → Nat → Nat
  | 0, _, _ => 1
  | f + 1, p, q => if q ≤ p * b then 1 else logTeto b f (p * b) q + 1

/-- Exponent `e` with `b ^ e ≤ p / q < b ^ (e + 1)`, for positive `p` and `q`. -/
def expoente (b p q : Nat) : Int :=
  if q ≤ p then (logPiso b p (p / q) : Int) else -(logTeto b q p q : Int)

/-- Nearest binary32 value to the positive rational `p / q`: 24 significant bits,
least exponent `-126` (below it the spacing stays `2 ^ (-149)`), ties to even.
No upper clamp: a result above `FLT_MAX` stands for an overflow. -/
def arredF32Pos (p q : Nat) : ℚ :=
  let j : Int := max (expoente 2 p q) (-126) - 23
  if 0 ≤ j then ((arredPar p (q * 2 ^ j.toNat) * 2 ^ j.toNat : Nat) : ℚ)
  else ((arredPar (p * 2 ^ (-j).toNat) q : Nat) : ℚ) / ((2 ^ (-j).toNat : Nat) : ℚ)

/-- Rounding of a rational to binary32 (round to nearest, ties to even). -/
def roundF32 (v : ℚ) : ℚ :=
  if v = 0 then 0
  else if v < 0 then -arredF32Pos v.num.natAbs v.den
  else arredF32Pos v.num.natAbs v.den

/-- Largest finite binary32 value. -/
def FLT_MAX : ℚ := (((2 ^ 24 - 1) * 2 ^ 104 : Nat) : ℚ)

/-- The literal `0.98f` of `inicializarGradeVoxel`. -/
def escalaPadrao : ℚ := roundF32 (98 / 100)

/-! ## Data model -/

/-- The `glm::vec3` of a voxel position. -/
structure Vec3 where
  x : ℚ
  y : ℚ
  z : ℚ
deriving DecidableEq

/-- `struct Voxel`. -/
structure Voxel where
  pos : Vec3
  fatorEscala : ℚ
  visivel : Bool
  selecionado : Bool
  corPos : Int
deriving DecidableEq

/-- The heap object behind `Voxel ***grid`: an array of arrays of arrays. -/
abbrev Grade := List (List (List Voxel))

/-- Global state of the editor together with the file the editor saves to. -/
structure Estado where
  /-- `int TAM` -/
  TAM : Int
  /-- `Voxel ***grid` -/
  grid : Grade
  selecaoX : Int
  selecaoY : Int
  selecaoZ : Int
  /-- Contents of `minecraft.txt`; `none` when it cannot be opened for reading. -/
  arquivoTxt : Option (List Char)
  /-- Whether `minecraft.txt` can be opened for writing. -/
  gravavel : Bool
deriving DecidableEq

/-- Element `l[i]` for a C `int` index; `none` outside the array. -/
def idx {α : Type} (l : List α) (i : Int) : Option α :=
  if 0 ≤ i then l[i.toNat]? else none

/-- The cell `grid[a][b][c]`; `none` when an index is outside its array. -/
def celula (g : Grade) (a b c : Int) : Option Voxel :=
  (idx g a).bind fun plano => (idx plano b).bind fun linha => idx linha c

/-- Assignment through `grid[a][b][c]`: the cell is replaced by `f` of itself;
`none` when an index is outside its array. -/
def alterar (g : Grade) (a b c : Int) (f : Voxel → Voxel) : Option Grade :=
  (idx g a).bind fun plano => (idx plano b).bind fun linha => (idx linha c).map fun v =>
    g.set a.toNat (plano.set b.toNat (linha.set c.toNat (f v)))

/-- Every array of the grid has `n` elements. -/
def Cubica (g : Grade) (n : Nat) : Prop :=
  g.length = n ∧ ∀ plano ∈ g, plano.length = n ∧ ∀ linha ∈ plano, linha.length = n

/-- All the cells of a grid, in raw index order. -/
def todasCelulas (g : Grade) : List Voxel := g.flatten.flatten

/-! ## `inicializarGradeVoxel` -/

/-- A `for` loop of `n` iterations that carries a position variable starting at
`p` and incremented by one after each iteration, collecting what the body builds. -/
def lacoPos {α : Type} (corpo : Int → α) : Nat → Int → List α
  | 0, _ => []
  | n + 1, p => corpo p :: lacoPos corpo n (p + 1)

/-- Grid built by the two loop nests of `inicializarGradeVoxel` for `TAM = tam`:
`grid[y][x][z]` gets the position `(xPos, yPos, zPos)` and the default fields.
The loop variables `xPos`, `yPos`, `zPos` are `int`s incremented through
`+= 1.0f` and converted to `float` for `glm::vec3`; both steps are exact below
`2 ^ 24`, beyond any grid that fits in memory. -/
def gradeInicial (tam : Int) : Grade :=
  let n := tam.toNat
  let ini := Int.tdiv (-tam) 2
  lacoPos (fun yPos => lacoPos (fun xPos => lacoPos (fun zPos =>
    ({ pos := ⟨(xPos : ℚ), (yPos : ℚ), (zPos : ℚ)⟩, corPos := 0, fatorEscala := escalaPadrao,
       visivel := false, selecionado := false } : Voxel)) n ini) n ini) n ini

/-- `inicializarGradeVoxel(tamanho)`.  A negative array length makes `new` throw
`std::bad_array_new_length`, which nothing catches: `none`. -/
def inicializarGradeVoxel (tamanho : Int) (s : Estado) : Option Estado :=
  if tamanho < 0 then none
  else some { s with TAM := tamanho, grid := gradeInicial tamanho }

/-! ## Text output: `operator<<` of `std::ofstream` in its default state -/

/-- The decimal digit character of `d < 10`. -/
def digChar (d : Nat) : Char := Char.ofNat (48 + d)

/-- The last `k` decimal digits of `n`, most significant first, zero padded. -/
def digitosFixos : Nat → Nat → List Char
  | 0, _ => []
  | k + 1, n => digitosFixos k (n / 10) ++ [digChar (n % 10)]

/-- Decimal digits of a natural number, without leading zeros (`0` for zero). -/
def digitosNat (n : Nat) : List Char := digitosFixos (logPiso 10 n n + 1) n

/-- What `<<` writes for an `int`. -/
def escreverInt (n : Int) : List Char :=
  if n < 0 then '-' :: digitosNat n.natAbs else digitosNat n.natAbs

/-- What `<<` writes for a `bool` (no `boolalpha`): `1` or `0`. -/
def escreverBool (b : Bool) : List Char := if b then ['1'] else ['0']

/-- Six significant decimal digits of the positive rational `p / q`: the pair
`(M, X)` with `10 ^ 5 ≤ M < 10 ^ 6` such that `M * 10 ^ (X - 5)` is `p / q` rounded
(ties to even) at its sixth significant digit. -/
def arred6 (p q : Nat) : Nat × Int :=
  let X := expoente 10 p q
  let k : Int := 5 - X
  let M := if 0 ≤ k then arredPar (p * 10 ^ k.toNat) q else arredPar p (q * 10 ^ (-k).toNat)
  if M = 10 ^ 6 then (10 ^ 5, X + 1) else (M, X)

/-- A digit string without its trailing zeros. -/
def semZerosFinais (ds : List Char) : List Char :=
  (ds.reverse.dropWhile fun c => c = '0').reverse

/-- The pieces of a floating-point field: sign, digits before the point, digits
after it, and the exponent (its sign and digits) when there is one. -/
structure Decimal where
  neg : Bool
  inteira : List Char
  fracao : List Char
  expo : Option (Bool × List Char)
deriving DecidableEq

/-- The field `printf("%.6g")` produces for a `float`.  With `(M, X)` the six
significant digits of the value: for `X < -4` or `X ≥ 6` the exponent style (one
digit, five fraction digits, exponent of at least two digits), otherwise the fixed
style with `5 - X` fraction digits; in both the trailing zeros of the fraction
are dropped. -/
def decimalG6 (v : ℚ) : Decimal :=
  if v = 0 then ⟨false, ['0'], [], none⟩
  else
    let MX := arred6 v.num.natAbs v.den
    if MX.2 < -4 ∨ 6 ≤ MX.2 then
      ⟨decide (v < 0), digitosNat (MX.1 / 10 ^ 5),
        semZerosFinais (digitosFixos 5 (MX.1 % 10 ^ 5)),
        some (decide (MX.2 < 0),
          if MX.2.natAbs < 10 then '0' :: digitosNat MX.2.natAbs else digitosNat MX.2.natAbs)⟩
    else
      ⟨decide (v < 0), digitosNat (MX.1 / 10 ^ (5 - MX.2).toNat),
        semZerosFinais (digitosFixos (5 - MX.2).toNat (MX.1 % 10 ^ (5 - MX.2).toNat)), none⟩

/-- The characters of an exponent: `e`, its sign and its digits. -/
def textoExpoente : Option (Bool × List Char) → List Char
  | none => []
  | some (en, ds) => 'e' :: (if en then '-' else '+') :: ds

/-- The characters of a floating-point field: the sign when negative, the digits,
the point when fraction digits follow, and the exponent. -/
def textoDecimal (d : Decimal) : List Char :=
  (if d.neg then ['-'] else []) ++ d.inteira ++
    (if d.fracao = [] then [] else '.' :: d.fracao) ++ textoExpoente d.expo

/-- What `<<` writes for a `float`: the value goes through `printf("%.6g")`
(precision 6, the default of a stream, and no `floatfield` flag). -/
def fmtG6 (v : ℚ) : List Char := textoDecimal (decimalG6 v)

/-- One line of the file: the statement
`arquivo << v.pos.x << " " << ... << v.corPos << "\n"`. -/
def escreverVoxel (v : Voxel) : List Char :=
  fmtG6 v.pos.x ++ [' '] ++ fmtG6 v.pos.y ++ [' '] ++ fmtG6 v.pos.z ++ [' '] ++
    fmtG6 v.fatorEscala ++ [' '] ++ escreverBool v.visivel ++ [' '] ++
    escreverBool v.selecionado ++ [' '] ++ escreverInt v.corPos ++ ['\n']

/-- The last `n` iterations, from index `i` on, of a `for` loop with `++i` whose
body writes text; `none` as soon as one iteration is undefined. -/
def lacoDe (corpo : Nat → Option (List Char)) : Nat → Nat → Option (List Char)
  | 0, _ => some []
  | n + 1, i => (corpo i).bind fun a => (lacoDe corpo n (i + 1)).map fun b => a ++ b

/-- A `for (int i = 0; i < n; ++i)` loop whose body writes text. -/
def laco (n : Nat) (corpo : Nat → Option (List Char)) : Option (List Char) :=
  lacoDe corpo n 0

/-- Everything `salvarGradeVoxel` streams into the file: `TAM`, a newline, and the
record of `grid[x][y][z]` for `x` (outer), `y`, `z` (inner) from `0` to `TAM - 1`. -/
def textoGrade (TAM : Int) (grid : Grade) : Option (List Char) :=
  (laco TAM.toNat fun x => laco TAM.toNat fun y => laco TAM.toNat fun z =>
      (celula grid x y z).map escreverVoxel).map
    fun corpo => escreverInt TAM ++ ['\n'] ++ corpo

/-- `salvarGradeVoxel("minecraft.txt")`: nothing happens when the file cannot be
opened; otherwise the file holds the text of the grid. -/
def salvarGradeVoxel (s : Estado) : Option Estado :=
  if s.gravavel = false then some s
  else (textoGrade s.TAM s.grid).map fun t => { s with arquivoTxt := some t }

/-! ## Text input: `operator>>` of `std::ifstream` in its default state -/

/-- Input stream: the characters not yet read and the `failbit`. -/
structure Fluxo where
  resto : List Char
  falhou : Bool
deriving DecidableEq

/-- White space of the classic locale (`isspace`). -/
def ehEspaco (c : Char) : Bool :=
  c = ' ' ∨ c = '\n' ∨ c = '\t' ∨ c = '\r' ∨ c.toNat = 11 ∨ c.toNat = 12

/-- Decimal digit. -/
def ehDigito (c : Char) : Bool := 48 ≤ c.toNat ∧ c.toNat ≤ 57

/-- Value of a string of decimal digits. -/
def valorDigitos (ds : List Char) : Nat :=
  ds.foldl (fun a c => 10 * a + (c.toNat - 48)) 0

/-- An optional sign: whether it was `-`, and the input after it. -/
def lerSinal : List Char → Bool × List Char
  | [] => (false, [])
  | c :: r => if c = '-' then (true, r) else if c = '+' then (false, r) else (false, c :: r)

/-- The integer field at the head of the input (sign, then digits) and the input
after it; no value when there is no digit. -/
def extrairInteiro (cs : List Char) : Option Int × List Char :=
  let sr := lerSinal cs
  let ds := sr.2.takeWhile ehDigito
  let r := sr.2.dropWhile ehDigito
  if ds = [] then (none, r)
  else (some (if sr.1 then -(valorDigitos ds : Int) else (valorDigitos ds : Int)), r)

/-- `arquivo >> n` for an `int`.  On a stream that has already failed, or that
holds nothing but white space, the target keeps its value; a field that is not a
number stores `0`, one outside the range of `int` stores the nearest bound; all
three set `failbit`. -/
def lerInt (f : Fluxo) (atual : Int) : Fluxo × Int :=
  if f.falhou then (f, atual)
  else
    let cs := f.resto.dropWhile ehEspaco
    if cs = [] then (⟨[], true⟩, atual)
    else
      match extrairInteiro cs with
      | (none, r) => (⟨r, true⟩, 0)
      | (some n, r) =>
        if 2 ^ 31 - 1 < n then (⟨r, true⟩, 2 ^ 31 - 1)
        else if n < -(2 ^ 31) then (⟨r, true⟩, -(2 ^ 31))
        else (⟨r, false⟩, n)

/-- `arquivo >> b` for a `bool` (no `boolalpha`): an integer is read; `0` gives
`false`, `1` gives `true`, anything else gives `true` and sets `failbit`. -/
def lerBool (f : Fluxo) (atual : Bool) : Fluxo × Bool :=
  if f.falhou then (f, atual)
  else
    let cs := f.resto.dropWhile ehEspaco
    if cs = [] then (⟨[], true⟩, atual)
    else
      match extrairInteiro cs with
      | (none, r) => (⟨r, true⟩, false)
      | (some n, r) =>
        if n = 0 then (⟨r, false⟩, false)
        else if n = 1 then (⟨r, false⟩, true)
        else (⟨r, true⟩, true)

/-- The fraction of a floating-point field: when the input starts with a point,
the digits after it; the second component is the input after the fraction. -/
def lerFracao : List Char → List Char × List Char
  | [] => ([], [])
  | c :: r => if c = '.' then (r.takeWhile ehDigito, r.dropWhile ehDigito) else ([], c :: r)

/-- The exponent of a floating-point field: when the input starts with `e` or `E`,
an optional sign and the digits after it; the second component is the input after
the exponent. -/
def lerExpoente : List Char → Option (Bool × List Char) × List Char
  | [] => (none, [])
  | c :: r =>
    if c = 'e' ∨ c = 'E' then
      (some ((lerSinal r).1, (lerSinal r).2.takeWhile ehDigito),
        (lerSinal r).2.dropWhile ehDigito)
    else (none, c :: r)

/-- The floating-point field at the head of the input: sign, digits, a point and
digits, and, once a digit has been seen, `e` or `E` with an optional sign and
digits.  Returns the pieces and the input after the field. -/
def extrairDecimal (cs : List Char) : Decimal × List Char :=
  let sr := lerSinal cs
  let ip := sr.2.takeWhile ehDigito
  let fr := lerFracao (sr.2.dropWhile ehDigito)
  if ip = [] ∧ fr.1 = [] then (⟨sr.1, ip, fr.1, none⟩, fr.2)
  else (⟨sr.1, ip, fr.1, (lerExpoente fr.2).1⟩, (lerExpoente fr.2).2)

/-- The number a floating-point field denotes; none when it has no mantissa digit
or an `e` without exponent digits. -/
def valorDecimal (d : Decimal) : Option ℚ :=
  if d.inteira = [] ∧ d.fracao = [] then none
  else
    let m : ℚ := ((valorDigitos (d.inteira ++ d.fracao) : Nat) : ℚ) /
      ((10 ^ d.fracao.length : Nat) : ℚ)
    let a : Option ℚ :=
      match d.expo with
      | none => some m
      | some (eneg, ds) =>
        if ds = [] then none
        else if eneg then some (m / ((10 ^ valorDigitos ds : Nat) : ℚ))
        else some (m * ((10 ^ valorDigitos ds : Nat) : ℚ))
    a.map fun q => if d.neg then -q else q

/-- `arquivo >> x` for a `float`: as `lerInt`, with the field converted to the
nearest binary32 value and an overflow storing `FLT_MAX` with its sign. -/
def lerFloat (f : Fluxo) (atual : ℚ) : Fluxo × ℚ :=
  if f.falhou then (f, atual)
  else
    let cs := f.resto.dropWhile ehEspaco
    if cs = [] then (⟨[], true⟩, atual)
    else
      let dr := extrairDecimal cs
      match valorDecimal dr.1 with
      | none => (⟨dr.2, true⟩, 0)
      | some q =>
        if FLT_MAX < roundF32 q then (⟨dr.2, true⟩, FLT_MAX)
        else if roundF32 q < -FLT_MAX then (⟨dr.2, true⟩, -FLT_MAX)
        else (⟨dr.2, false⟩, roundF32 q)

/-- The statement `arquivo >> v.pos.x >> v.pos.y >> v.pos.z >> v.fatorEscala >>
v.visivel >> v.selecionado >> v.corPos` on the cell `v`. -/
def lerVoxel (v : Voxel) (f : Fluxo) : Voxel × Fluxo :=
  let a := lerFloat f v.pos.x
  let b := lerFloat a.1 v.pos.y
  let c := lerFloat b.1 v.pos.z
  let d := lerFloat c.1 v.fatorEscala
  let e := lerBool d.1 v.visivel
  let g := lerBool e.1 v.selecionado
  let h := lerInt g.1 v.corPos
  ({ pos := ⟨a.2, b.2, c.2⟩, fatorEscala := d.2, visivel := e.2, selecionado := g.2,
     corPos := h.2 }, h.1)

/-- A `for (int i = 0; i < n; ++i)` loop whose body reads from the stream and
builds element `i` of an array; the second argument is the current `i`. -/
def repetir {α : Type} (passo : Nat → Fluxo → α × Fluxo) : Nat → Nat → Fluxo → List α × Fluxo
  | 0, _, f => ([], f)
  | n + 1, i, f =>
    let a := passo i f
    let r := repetir passo n (i + 1) a.2
    (a.1 :: r.1, r.2)

/-- A cell as `new Voxel[TAM]` leaves it: the default member initialisers set
`visivel = true` and `selecionado = false`; the other fields keep whatever the
memory held, here `lixo`. -/
def voxelNovo (lixo : Voxel) : Voxel := { lixo with visivel := true, selecionado := false }

/-- The grid `carregarGradeVoxel` allocates and fills from the stream for
`TAM = n`.  Each cell is allocated (`voxelNovo`) and then visited exactly once by
the read loop, in the order `x`, `y`, `z`, so both steps are done cell by cell.
`lixo x y z` is the previous content of the memory given to `grid[x][y][z]`. -/
def lerGrade (lixo : Nat → Nat → Nat → Voxel) (n : Nat) (f : Fluxo) : Grade × Fluxo :=
  repetir (fun x => repetir (fun y => repetir (fun z => lerVoxel (voxelNovo (lixo x y z)))
    n 0) n 0) n 0 f

/-- `carregarGradeVoxel("minecraft.txt")`.  Without the file nothing happens.
Otherwise `TAM` is read, a grid of that size is allocated (a negative `TAM` makes
`new` throw: `none`) and filled from the stream; the stream state is never tested. -/
def carregarGradeVoxel (lixo : Nat → Nat → Nat → Voxel) (s : Estado) : Option Estado :=
  match s.arquivoTxt with
  | none => some s
  | some txt =>
    let t := lerInt ⟨txt, false⟩ s.TAM
    if t.2 < 0 then none
    else some { s with TAM := t.2, grid := (lerGrade lixo t.2.toNat t.1).1 }

/-! ## `key_callback` -/

/-- An assignment to a field of `grid[selecaoY][selecaoX][selecaoZ]`. -/
def naSelecao (s : Estado) (f : Voxel → Voxel) : Option Estado :=
  (alterar s.grid s.selecaoY s.selecaoX s.selecaoZ f).map fun g => { s with grid := g }

/-- The body shared by the six navigation branches: the current cell is
deselected, the cursor is moved, the new current cell is selected. -/
def moverSelecao (s : Estado) (mover : Estado → Estado) : Option Estado :=
  (naSelecao s fun v => { v with selecionado := false }).bind fun s1 =>
    naSelecao (mover s1) fun v => { v with selecionado := true }

/-- `key_callback(window, key, scancode, action, mode)`: the `if` statements of the
function in their order.  `window`, `scancode` and `mode` are not used by it.
`lixo` is the content of the memory a load would allocate. -/
def key_callback (lixo : Nat → Nat → Nat → Voxel) (s : Estado) (key action : Int) :
    Option Estado := do
  let s ← if key = GLFW_KEY_F1 ∧ action = GLFW_PRESS then salvarGradeVoxel s else some s
  let s ← if key = GLFW_KEY_F2 ∧ action = GLFW_PRESS then carregarGradeVoxel lixo s else some s
  let s ← if key = GLFW_KEY_DELETE ∧ action = GLFW_PRESS then
      naSelecao s fun v => { v with visivel := false } else some s
  let s ← if key = GLFW_KEY_V ∧ action = GLFW_PRESS then
      naSelecao s fun v => { v with visivel := true } else some s
  let s ← if key = GLFW_KEY_RIGHT ∧ action = GLFW_PRESS then
      (if s.selecaoX + 1 < s.TAM then
        moverSelecao s fun t => { t with selecaoX := t.selecaoX + 1 } else some s) else some s
  let s ← if key = GLFW_KEY_LEFT ∧ action = GLFW_PRESS then
      (if s.selecaoX - 1 ≥ 0 then
        moverSelecao s fun t => { t with selecaoX := t.selecaoX - 1 } else some s) else some s
  let s ← if key = GLFW_KEY_UP ∧ action = GLFW_PRESS then
      (if s.selecaoY + 1 < s.TAM then
        moverSelecao s fun t => { t with selecaoY := t.selecaoY + 1 } else some s) else some s
  let s ← if key = GLFW_KEY_DOWN ∧ action = GLFW_PRESS then
      (if s.selecaoY - 1 ≥ 0 then
        moverSelecao s fun t => { t with selecaoY := t.selecaoY - 1 } else some s) else some s
  let s ← if key = GLFW_KEY_Q ∧ action = GLFW_PRESS then
      (if s.selecaoZ + 1 < s.TAM then
        moverSelecao s fun t => { t with selecaoZ := t.selecaoZ + 1 } else some s) else some s
  let s ← if key = GLFW_KEY_E ∧ action = GLFW_PRESS then
      (if s.selecaoZ - 1 ≥ 0 then
        moverSelecao s fun t => { t with selecaoZ := t.selecaoZ - 1 } else some s) else some s
  if action = GLFW_PRESS then
    let corEscolhida : Int :=
      if key ≥ GLFW_KEY_1 ∧ key ≤ GLFW_KEY_9 then key - GLFW_KEY_1 + 1
      else if key = GLFW_KEY_0 then 0 else -1
    if corEscolhida ≥ 0 ∧ corEscolhida < 10 then
      (naSelecao s fun v => { v with corPos := corEscolhida }).bind fun s1 =>
        naSelecao s1 fun v => { v with visivel := true }
    else some s
  else some s

/-- A sequence of key events `(key, action)` handled one after the other. -/
def executar (lixo : Nat → Nat → Nat → Voxel) (s : Estado) (evs : List (Int × Int)) :
    Option Estado :=
  evs.foldlM (fun t e => key_callback lixo t e.1 e.2) s

/-- The state `main` sets up before its render loop: `inicializarGradeVoxel(25)`,
the cursor at `(0, 0, TAM - 1)` and that cell selected. -/
def estadoDePartida (s : Estado) : Option Estado :=
  (inicializarGradeVoxel 25 s).bind fun s1 =>
    naSelecao { s1 with selecaoX := 0, selecaoY := 0, selecaoZ := s1.TAM - 1 }
      fun v => { v with selecionado := true }

/-! ## Vocabulary of the statements -/

/-- The cursor is inside `[0, TAM)` on the three axes. -/
def Dentro (s : Estado) : Prop :=
  (0 ≤ s.selecaoX ∧ s.selecaoX < s.TAM) ∧ (0 ≤ s.selecaoY ∧ s.selecaoY < s.TAM) ∧
    (0 ≤ s.selecaoZ ∧ s.selecaoZ < s.TAM)

/-- The cell `grid[selecaoY][selecaoX][selecaoZ]` is the only selected one. -/
def SelecaoUnica (s : Estado) : Prop :=
  ∀ a b c v, celula s.grid a b c = some v →
    (v.selecionado = true ↔ a = s.selecaoY ∧ b = s.selecaoX ∧ c = s.selecaoZ)

/-- The six navigation keys with the step each one asks for, as `(dx, dy, dz)`. -/
def passoDaTecla (key : Int) : Option (Int × Int × Int) :=
  if key = GLFW_KEY_RIGHT then some (1, 0, 0)
  else if key = GLFW_KEY_LEFT then some (-1, 0, 0)
  else if key = GLFW_KEY_UP then some (0, 1, 0)
  else if key = GLFW_KEY_DOWN then some (0, -1, 0)
  else if key = GLFW_KEY_Q then some (0, 0, 1)
  else if key = GLFW_KEY_E then some (0, 0, -1)
  else none

/-- The keys that move the cursor. -/
def teclasNavegacao : List Int :=
  [GLFW_KEY_RIGHT, GLFW_KEY_LEFT, GLFW_KEY_UP, GLFW_KEY_DOWN, GLFW_KEY_Q, GLFW_KEY_E]

/-- The globals before `main` runs: zero-initialised, no grid; `minecraft.txt`
absent and writable. -/
def estadoZero : Estado :=
  { TAM := 0, grid := [], selecaoX := 0, selecaoY := 0, selecaoZ := 0, arquivoTxt := none,
    gravavel := true }

/-- A grid of edge 2 as `inicializarGradeVoxel(2)` builds it, with the cursor at
`(x, y, z) = (0, 0, 1)` and that cell selected. -/
def estadoDois : Estado :=
  { TAM := 2,
    grid := (alterar (gradeInicial 2) 0 0 1 fun v => { v with selecionado := true }).getD [],
    selecaoX := 0, selecaoY := 0, selecaoZ := 1, arquivoTxt := none, gravavel := true }

/-- Memory that holds zeros everywhere. -/
def lixoZero : Nat → Nat → Nat → Voxel :=
  fun _ _ _ => { pos := ⟨0, 0, 0⟩, fatorEscala := 0, visivel := false, selecionado := false,
                 corPos := 0 }

/-- The number `printf("%.6g")` prints for `v`: `v` rounded (ties to even) at its
sixth significant decimal digit, that is `± M * 10 ^ (X - 5)` for the digits
`(M, X)` of `|v|`. -/
def valor6 (v : ℚ) : ℚ :=
  if v = 0 then 0
  else
    let MX := arred6 v.num.natAbs v.den
    let a : ℚ :=
      if 5 ≤ MX.2 then ((MX.1 * 10 ^ (MX.2 - 5).toNat : Nat) : ℚ)
      else ((MX.1 : Nat) : ℚ) / ((10 ^ (5 - MX.2).toNat : Nat) : ℚ)
    if v < 0 then -a else a

/-- A `float` value that survives the text form: it is finite and it is the
binary32 value nearest to its own six-digit decimal. -/
def Estavel (v : ℚ) : Prop :=
  roundF32 (valor6 v) = v ∧ -FLT_MAX ≤ v ∧ v ≤ FLT_MAX

instance (v : ℚ) : Decidable (Estavel v) := by
  unfold Estavel
  infer_instance

/-- Range of the type `int`. -/
def EhInt32 (n : Int) : Prop := -(2 ^ 31) ≤ n ∧ n ≤ 2 ^ 31 - 1

instance (n : Int) : Decidable (EhInt32 n) := by
  unfold EhInt32
  infer_instance

/-- A cell whose fields are written and read back without change. -/
def VoxelEstavel (v : Voxel) : Prop :=
  Estavel v.pos.x ∧ Estavel v.pos.y ∧ Estavel v.pos.z ∧ Estavel v.fatorEscala ∧
    EhInt32 v.corPos

instance (v : Voxel) : Decidable (VoxelEstavel v) := by
  unfold VoxelEstavel
  infer_instance

/-- A floating-point field as `<<` produces them: at least one digit before the
point, only digits in the digit strings, and an exponent with at least one digit. -/
def DecimalBem (d : Decimal) : Prop :=
  d.inteira ≠ [] ∧ (∀ c ∈ d.inteira, ehDigito c = true) ∧ (∀ c ∈ d.fracao, ehDigito c = true) ∧
    ∀ e, d.expo = some e → e.2 ≠ [] ∧ ∀ c ∈ e.2, ehDigito c = true

/-- The records of a grid one after the other, in raw index order. -/
def corpoTexto (g : Grade) : List Char :=
  (g.map fun plano => (plano.map fun linha => (linha.map escreverVoxel).flatten).flatten).flatten

/-- A text cut at every occurrence of the separator. -/
def separar (sep : Char) : List Char → List (List Char)
  | [] => [[]]
  | c :: cs =>
    if c = sep then [] :: separar sep cs
    else
      match separar sep cs with
      | [] => [[c]]
      | p :: ps => (c :: p) :: ps

/-- The seven fields of the record of a cell, in the order of the file. -/
def camposDoVoxel (v : Voxel) : List (List Char) :=
  [fmtG6 v.pos.x, fmtG6 v.pos.y, fmtG6 v.pos.z, fmtG6 v.fatorEscala,
    [if v.visivel then '1' else '0'], [if v.selecionado then '1' else '0'],
    escreverInt v.corPos]

/-- The record of a cell without the newline that ends it. -/
def linhaDoVoxel (v : Voxel) : List Char :=
  fmtG6 v.pos.x ++ ' ' :: (fmtG6 v.pos.y ++ ' ' :: (fmtG6 v.pos.z ++ ' ' ::
    (fmtG6 v.fatorEscala ++ ' ' :: (escreverBool v.visivel ++ ' ' ::
      (escreverBool v.selecionado ++ ' ' :: escreverInt v.corPos)))))

/-- The cell of the example: at the origin, scale `0.98f`, visible, not selected,
colour 3. -/
def voxelExemplo : Voxel :=
  { pos := ⟨0, 0, 0⟩, fatorEscala := roundF32 (98 / 100), visivel := true,
    selecionado := false, corPos := 3 }

/-- A grid of edge 1 whose cell has an `x` position with more than six significant
digits, `100000.25f`. -/
def estadoFino : Estado :=
  { TAM := 1,
    grid := [[[{ pos := ⟨100000.25, 0, 0⟩, fatorEscala := escalaPadrao, visivel := true,
                 selecionado := false, corPos := 0 }]]],
    selecaoX := 0, selecaoY := 0, selecaoZ := 0, arquivoTxt := none, gravavel := true }

/-- The state `estadoDois` with a file that announces a grid of edge 2 and ends
after the first of its eight records. -/
def estadoTruncado : Estado :=
  { estadoDois with arquivoTxt := some "2\n5 5 5 1 1 0 7\n".toList }

/-- Every cell of the grid has a colour index inside the palette `colorList`, which
has ten entries. -/
def CoresValidas (g : Grade) : Prop :=
  ∀ a b c v, celula g a b c = some v → 0 ≤ v.corPos ∧ v.corPos < 10

/-- The globals before `main` runs, with a file `minecraft.txt` that holds a grid
of edge 1 (the text `salvarGradeVoxel` writes for the cell `voxelExemplo`). -/
def estadoArquivoUm : Estado :=
  { estadoZero with arquivoTxt := some "1\n0 0 0 0.98 1 0 3\n".toList }

/-- The grid as the allocation loops of `carregarGradeVoxel` leave it for `TAM = n`,
before anything is read: `grid[x][y][z]` is `voxelNovo` of the memory it was given. -/
def gradeAlocada (lixo : Nat → Nat → Nat → Voxel) (n : Nat) : Grade :=
  (List.range n).map fun x => (List.range n).map fun y => (List.range n).map fun z =>
    voxelNovo (lixo x y z)

/-- Reads from the stream one after the other, each read building one element. -/
def lerLista {α : Type} : List (Fluxo → α × Fluxo) → Fluxo → List α × Fluxo
  | [], f => ([], f)
  | p :: ps, f => ((p f).1 :: (lerLista ps (p f).2).1, (lerLista ps (p f).2).2)

/-- The text `salvarGradeVoxel` writes for the grid `g` with `TAM = tam`, cut after
the first `k` records. -/
def textoCortado (tam : Int) (g : Grade) (k : Nat) : List Char :=
  escreverInt tam ++ '\n' :: (((todasCelulas g).take k).map escreverVoxel).flatten

/-- The state `estadoDois` with a file that holds the text of its own grid cut after
the first three of the eight records. -/
def estadoCortado : Estado :=
  { estadoDois with arquivoTxt := some (textoCortado 2 estadoDois.grid 3) }

/-- The state `estadoDois` with a file that holds the first three records of its own
grid followed by a record that breaks off at a field that is not a number. -/
def estadoRuido : Estado :=
  { estadoDois with arquivoTxt := some (textoCortado 2 estadoDois.grid 3 ++ "0 x".toList) }

/-- The state after `main` has started and a file that holds a grid of edge 1 has
been loaded: `TAM = 1` with the cursor still at `(0, 0, 24)`. -/
def estadoForaUm : Estado :=
  { estadoArquivoUm with TAM := 1, grid := [[[voxelExemplo]]], selecaoX := 0, selecaoY := 0,
                         selecaoZ := 24 }

end GB

/-!
# Endless runner (`src/GrauA/Game.cpp`): collision test

The components of a `glm::vec2` are `float`s.  Every operation of `Rect::intersects`
is an IEEE 754 binary32 operation rounded to nearest, ties to even (the evaluation
format of `float` expressions is `float` itself).  The sign of a zero and the payload
of a NaN are not kept: no operation of the function depends on them.
-/

namespace Game

/-- A `float`: a finite value (the rational it denotes), an infinity with its sign,
or a NaN. -/
inductive F32 where
  | fin (q : ℚ)
  | inf (negativo : Bool)
  | nan
deriving DecidableEq

/-- A rational that is a finite binary32 value. -/
def EhF32 (v : ℚ) : Prop := GB.roundF32 v = v ∧ -GB.FLT_MAX ≤ v ∧ v ≤ GB.FLT_MAX

instance (v : ℚ) : Decidable (EhF32 v) := by
  unfold EhF32
  infer_instance

/-- The `float` an operation delivers when its exact result is `v`: the nearest
binary32 value, an infinity when that lies beyond `FLT_MAX`. -/
def F32.arred (v : ℚ) : F32 :=
  if GB.FLT_MAX < GB.roundF32 v then F32.inf false
  else if GB.roundF32 v < -GB.FLT_MAX then F32.inf true
  else F32.fin (GB.roundF32 v)

/-- The `float` subtraction `a - b`. -/
def F32.sub : F32 → F32 → F32
  | F32.fin p, F32.fin q => F32.arred (p - q)
  | F32.fin _, F32.inf n => F32.inf (!n)
  | F32.inf n, F32.fin _ => F32.inf n
  | F32.inf n, F32.inf m => if n = m then F32.nan else F32.inf n
  | F32.nan, _ => F32.nan
  | _, F32.nan => F32.nan

/-- The `float` addition `a + b`. -/
def F32.add : F32 → F32 → F32
  | F32.fin p, F32.fin q => F32.arred (p + q)
  | F32.fin _, F32.inf n => F32.inf n
  | F32.inf n, F32.fin _ => F32.inf n
  | F32.inf n, F32.inf m => if n = m then F32.inf n else F32.nan
  | F32.nan, _ => F32.nan
  | _, F32.nan => F32.nan

/-- The `float` division `a / 2.0f`. -/
def F32.metade : F32 → F32
  | F32.fin q => F32.arred (q / 2)
  | F32.inf n => F32.inf n
  | F32.nan => F32.nan

/-- The call `abs(a)` on a `float`. -/
def F32.abs : F32 → F32
  | F32.fin q => F32.fin |q|
  | F32.inf _ => F32.inf false
  | F32.nan => F32.nan

/-- The comparison `a < b` of two `float`s; false when one of them is a NaN. -/
def F32.lt : F32 → F32 → Bool
  | F32.fin p, F32.fin q => decide (p < q)
  | F32.fin _, F32.inf n => !n
  | F32.inf n, F32.fin _ => n
  | F32.inf n, F32.inf m => n && !m
  | F32.nan, _ => false
  | _, F32.nan => false

/-- The `glm::vec2` of a centre or of a size. -/
structure Vec2 where
  x : F32
  y : F32
deriving DecidableEq

/-- `struct Rect`: `pos` is the centre, `size` the full width and height. -/
structure Rect where
  pos : Vec2
  size : Vec2
deriving DecidableEq

/-- `Rect::intersects`. -/
def Rect.intersects (r other : Rect) : Bool :=
  F32.lt (F32.abs (F32.sub r.pos.x other.pos.x)) (F32.metade (F32.add r.size.x other.size.x)) &&
    F32.lt (F32.abs (F32.sub r.pos.y other.pos.y)) (F32.metade (F32.add r.size.y other.size.y))

/-- The rectangle with finite fields: centre `(cx, cy)`, width `w`, height `h`. -/
def retangulo (cx cy w h : ℚ) : Rect :=
  { pos := ⟨F32.fin cx, F32.fin cy⟩, size := ⟨F32.fin w, F32.fin h⟩ }

/-- On one axis nothing is rounded: the difference of the centres `d`, the sum of
the sizes `s` and half of it are finite binary32 values. -/
def SemArredondar (d s : ℚ) : Prop := EhF32 d ∧ EhF32 s ∧ EhF32 (s / 2)

instance (d s : ℚ) : Decidable (SemArredondar d s) := by
  unfold SemArredondar
  infer_instance

end Game

namespace GB

/-! ## Arrays and grids -/

theorem idx_eq_some {α : Type} {l : List α} {i : Int} {x : α} (h : idx l i = some x) :
    0 ≤ i ∧ i.toNat < l.length ∧ l[i.toNat]? = some x := by
  unfold idx at h
  split at h
  · rename_i h0
    exact ⟨h0, (List.getElem?_eq_some.mp h).1, h⟩
  · cases h

theorem idx_of_lt {α : Type} (l : List α) (i : Int) (h0 : 0 ≤ i) (h1 : i < l.length) :
    ∃ x, idx l i = some x := by
  have hlt : i.toNat < l.length := by omega
  exact ⟨l[i.toNat], by simp [idx, h0, List.getElem?_eq_getElem hlt]⟩

theorem idx_mem {α : Type} {l : List α} {i : Int} {x : α} (h : idx l i = some x) : x ∈ l := by
  obtain ⟨_, _, h2⟩ := idx_eq_some h
  exact (List.getElem?_eq_some.mp h2).2 ▸ List.getElem_mem _

theorem idx_set {α : Type} {l : List α} {i : Int} {x : α} (h : idx l i = some x) (y : α)
    (j : Int) : idx (l.set i.toNat y) j = if j = i then some y else idx l j := by
  obtain ⟨h0, h1, _⟩ := idx_eq_some h
  by_cases hj : j = i
  · subst hj
    simp [idx, h0, h1]
  · simp only [hj, if_false]
    unfold idx
    split
    · rename_i hj0
      have : i.toNat ≠ j.toNat := by omega
      rw [List.getElem?_set_ne this]
    · rfl

theorem celula_eq_some {g : Grade} {a b c : Int} {v : Voxel} (h : celula g a b c = some v) :
    ∃ plano linha, idx g a = some plano ∧ idx plano b = some linha ∧ idx linha c = some v := by
  unfold celula at h
  cases hp : idx g a with
  | none => simp [hp] at h
  | some plano =>
    cases hl : idx plano b with
    | none => simp [hp, hl] at h
    | some linha => exact ⟨plano, linha, rfl, hl, by simpa [hp, hl] using h⟩

theorem celula_of_idx {g : Grade} {a b c : Int} {plano : List (List Voxel)}
    {linha : List Voxel} (hp : idx g a = some plano) (hl : idx plano b = some linha) :
    celula g a b c = idx linha c := by
  simp [celula, hp, hl]

/-- An assignment through `grid[a][b][c]` changes that cell and no other. -/
theorem celula_alterar {g g1 : Grade} {a b c : Int} {f : Voxel → Voxel}
    (h : alterar g a b c f = some g1) (i j k : Int) :
    celula g1 i j k =
      if i = a ∧ j = b ∧ k = c then (celula g a b c).map f else celula g i j k := by
  unfold alterar at h
  cases hp : idx g a with
  | none => simp [hp] at h
  | some plano =>
    cases hl : idx plano b with
    | none => simp [hp, hl] at h
    | some linha =>
      cases hv : idx linha c with
      | none => simp [hp, hl, hv] at h
      | some v =>
        simp only [hp, hl, hv, Option.some_bind, Option.map_some', Option.some.injEq] at h
        subst h
        have hc : celula g a b c = some v := by simp [celula, hp, hl, hv]
        unfold celula
        rw [idx_set hp]
        by_cases hi : i = a
        · subst hi
          simp only [if_true, Option.some_bind, true_and, hp]
          rw [idx_set hl]
          by_cases hj : j = b
          · subst hj
            simp only [if_true, Option.some_bind, true_and, hl]
            rw [idx_set hv]
            by_cases hk : k = c
            · subst hk
              have hc2 : ((some plano).bind fun plano =>
                  (idx plano j).bind fun linha => idx linha k) = some v := by
                simp [hl, hv]
              simp [hc2, hv]
            · simp [hk]
          · simp [hj]
        · simp [hi]

/-- An assignment through an existing cell is defined. -/
theorem alterar_of_celula {g : Grade} {a b c : Int} {v : Voxel} (h : celula g a b c = some v)
    (f : Voxel → Voxel) : ∃ g1, alterar g a b c f = some g1 := by
  obtain ⟨plano, linha, hp, hl, hv⟩ := celula_eq_some h
  exact ⟨g.set a.toNat (plano.set b.toNat (linha.set c.toNat (f v))),
    by simp [alterar, hp, hl, hv]⟩

/-- An assignment through `grid[a][b][c]` keeps the shape of the grid. -/
theorem cubica_alterar {g g1 : Grade} {a b c : Int} {f : Voxel → Voxel} {n : Nat}
    (h : alterar g a b c f = some g1) (hc : Cubica g n) : Cubica g1 n := by
  unfold alterar at h
  cases hp : idx g a with
  | none => simp [hp] at h
  | some plano =>
    cases hl : idx plano b with
    | none => simp [hp, hl] at h
    | some linha =>
      cases hv : idx linha c with
      | none => simp [hp, hl, hv] at h
      | some v =>
        simp only [hp, hl, hv, Option.some_bind, Option.map_some', Option.some.injEq] at h
        subst h
        obtain ⟨hlen, hall⟩ := hc
        have hpl := hall plano (idx_mem hp)
        have hli := hpl.2 linha (idx_mem hl)
        refine ⟨by simpa using hlen, ?_⟩
        intro p hpmem
        rcases List.mem_or_eq_of_mem_set hpmem with hpm | rfl
        · exact hall p hpm
        · refine ⟨by simpa using hpl.1, ?_⟩
          intro l hlmem
          rcases List.mem_or_eq_of_mem_set hlmem with hlm | rfl
          · exact hpl.2 l hlm
          · simpa using hli

/-- In a grid of edge `n` every index triple below `n` addresses a cell. -/
theorem celula_of_cubica {g : Grade} {n : Nat} (hc : Cubica g n) {a b c : Int}
    (ha : 0 ≤ a ∧ a < n) (hb : 0 ≤ b ∧ b < n) (hcc : 0 ≤ c ∧ c < n) :
    ∃ v, celula g a b c = some v := by
  obtain ⟨hlen, hall⟩ := hc
  obtain ⟨plano, hp⟩ := idx_of_lt g a ha.1 (by rw [hlen]; exact ha.2)
  have hpl := hall plano (idx_mem hp)
  obtain ⟨linha, hl⟩ := idx_of_lt plano b hb.1 (by rw [hpl.1]; exact hb.2)
  have hli := hpl.2 linha (idx_mem hl)
  obtain ⟨v, hv⟩ := idx_of_lt linha c hcc.1 (by rw [hli]; exact hcc.2)
  exact ⟨v, by simp [celula, hp, hl, hv]⟩

/-- A cell of a grid is one of `todasCelulas`. -/
theorem celula_mem {g : Grade} {a b c : Int} {v : Voxel} (h : celula g a b c = some v) :
    v ∈ todasCelulas g := by
  obtain ⟨plano, linha, hp, hl, hv⟩ := celula_eq_some h
  unfold todasCelulas
  simp only [List.mem_flatten]
  exact ⟨linha, ⟨plano, idx_mem hp, idx_mem hl⟩, idx_mem hv⟩

theorem soma_const {α : Type} (l : List α) (f : α → Nat) (c : Nat) (h : ∀ x ∈ l, f x = c) :
    (l.map f).sum = l.length * c := by
  induction l with
  | nil => simp
  | cons x xs ih =>
    simp only [List.map_cons, List.sum_cons, List.length_cons]
    rw [ih (fun y hy => h y (List.mem_cons_of_mem _ hy)), h x (List.mem_cons_self _ _)]
    ring

/-- A grid of edge `n` has `n ^ 3` cells. -/
theorem cubica_total {g : Grade} {n : Nat} (hc : Cubica g n) :
    (todasCelulas g).length = n ^ 3 := by
  obtain ⟨hlen, hall⟩ := hc
  unfold todasCelulas
  rw [List.length_flatten, soma_const g.flatten List.length n, List.length_flatten,
    soma_const g List.length n (fun p hp => (hall p hp).1), hlen]
  · ring
  · intro l hl
    obtain ⟨p, hp, hlp⟩ := List.mem_flatten.mp hl
    exact (hall p hp).2 l hlp

/-! ## `inicializarGradeVoxel` -/

theorem lacoPos_length {α : Type} (f : Int → α) (n : Nat) (p : Int) :
    (lacoPos f n p).length = n := by
  induction n generalizing p with
  | zero => rfl
  | succ n ih => simp [lacoPos, ih]

theorem mem_lacoPos {α : Type} {f : Int → α} {n : Nat} {p : Int} {x : α}
    (h : x ∈ lacoPos f n p) : ∃ q, x = f q := by
  induction n generalizing p with
  | zero => simp [lacoPos] at h
  | succ n ih =>
    simp only [lacoPos, List.mem_cons] at h
    rcases h with rfl | h
    · exact ⟨p, rfl⟩
    · exact ih h

theorem idx_lacoPos {α : Type} (f : Int → α) (n : Nat) (p i : Int) (h0 : 0 ≤ i) (h1 : i < n) :
    idx (lacoPos f n p) i = some (f (p + i)) := by
  induction n generalizing p i with
  | zero => omega
  | succ n ih =>
    by_cases hi : i = 0
    · subst hi
      simp [idx, lacoPos]
    · have h := ih (p + 1) (i - 1) (by omega) (by omega)
      have e : i.toNat = (i - 1).toNat + 1 := by omega
      have e2 : p + 1 + (i - 1) = p + i := by ring
      unfold idx at h ⊢
      simp only [h0, if_true, lacoPos, e, List.getElem?_cons_succ]
      simpa [show (0 : Int) ≤ i - 1 by omega, e2] using h

theorem cubica_gradeInicial (tam : Int) : Cubica (gradeInicial tam) tam.toNat := by
  unfold gradeInicial
  refine ⟨lacoPos_length _ _ _, ?_⟩
  intro plano hp
  obtain ⟨y, rfl⟩ := mem_lacoPos hp
  refine ⟨lacoPos_length _ _ _, ?_⟩
  intro linha hl
  obtain ⟨x, rfl⟩ := mem_lacoPos hl
  exact lacoPos_length _ _ _

theorem celula_gradeInicial (tam a b c : Int) (ha : 0 ≤ a ∧ a < tam) (hb : 0 ≤ b ∧ b < tam)
    (hc : 0 ≤ c ∧ c < tam) :
    celula (gradeInicial tam) a b c =
      some { pos := ⟨((Int.tdiv (-tam) 2 + b : Int) : ℚ), ((Int.tdiv (-tam) 2 + a : Int) : ℚ),
                     ((Int.tdiv (-tam) 2 + c : Int) : ℚ)⟩,
             corPos := 0, fatorEscala := escalaPadrao, visivel := false,
             selecionado := false } := by
  have hn : ((tam.toNat : Nat) : Int) = tam := Int.toNat_of_nonneg (by omega)
  unfold gradeInicial celula
  rw [idx_lacoPos _ _ _ a ha.1 (by omega)]
  simp only [Option.some_bind]
  rw [idx_lacoPos _ _ _ b hb.1 (by omega)]
  simp only [Option.some_bind]
  rw [idx_lacoPos _ _ _ c hc.1 (by omega)]

theorem mem_gradeInicial {tam : Int} {v : Voxel} (h : v ∈ todasCelulas (gradeInicial tam)) :
    v.visivel = false ∧ v.selecionado = false ∧ v.corPos = 0 ∧ v.fatorEscala = escalaPadrao := by
  unfold todasCelulas gradeInicial at h
  simp only [List.mem_flatten] at h
  obtain ⟨linha, ⟨plano, hp, hl⟩, hv⟩ := h
  obtain ⟨y, rfl⟩ := mem_lacoPos hp
  obtain ⟨x, rfl⟩ := mem_lacoPos hl
  obtain ⟨z, rfl⟩ := mem_lacoPos hv
  exact ⟨rfl, rfl, rfl, rfl⟩

/-! ## `key_callback` -/

theorem naSelecao_spec {s : Estado} {v : Voxel}
    (h : celula s.grid s.selecaoY s.selecaoX s.selecaoZ = some v) (f : Voxel → Voxel) :
    ∃ g1, naSelecao s f = some { s with grid := g1 } ∧
      alterar s.grid s.selecaoY s.selecaoX s.selecaoZ f = some g1 := by
  obtain ⟨g1, hg⟩ := alterar_of_celula h f
  exact ⟨g1, by simp [naSelecao, hg], hg⟩

/-- Effect of the body of a navigation branch that moves the cursor to `(x, y, z)`. -/
theorem moverSelecao_spec {s : Estado} {n : Nat} (hc : Cubica s.grid n) {v w : Voxel}
    (hv : celula s.grid s.selecaoY s.selecaoX s.selecaoZ = some v) (x y z : Int)
    (hw : celula s.grid y x z = some w) (mover : Estado → Estado)
    (hm : ∀ g, mover { s with grid := g } =
      { s with grid := g, selecaoX := x, selecaoY := y, selecaoZ := z }) :
    ∃ g2, moverSelecao s mover =
        some { s with grid := g2, selecaoX := x, selecaoY := y, selecaoZ := z } ∧
      Cubica g2 n ∧
      ∀ a b c, celula g2 a b c = (celula s.grid a b c).map fun u =>
        { u with selecionado :=
            if a = y ∧ b = x ∧ c = z then true
            else if a = s.selecaoY ∧ b = s.selecaoX ∧ c = s.selecaoZ then false
            else u.selecionado } := by
  obtain ⟨g1, hn1, ha1⟩ := naSelecao_spec hv fun u => { u with selecionado := false }
  have hw1 : ∃ w1, celula g1 y x z = some w1 := by
    rw [celula_alterar ha1]
    split
    · exact ⟨_, by rw [hv]; rfl⟩
    · exact ⟨w, hw⟩
  obtain ⟨w1, hw1⟩ := hw1
  obtain ⟨g2, hn2, ha2⟩ := naSelecao_spec
    (s := { s with grid := g1, selecaoX := x, selecaoY := y, selecaoZ := z }) hw1
    fun u => { u with selecionado := true }
  refine ⟨g2, ?_, cubica_alterar ha2 (cubica_alterar ha1 hc), ?_⟩
  · unfold moverSelecao
    rw [hn1, Option.some_bind, hm g1, hn2]
  · intro a b c
    rw [celula_alterar ha2 a b c]
    by_cases h1 : a = y ∧ b = x ∧ c = z
    · obtain ⟨rfl, rfl, rfl⟩ := h1
      simp only [and_self, if_true]
      rw [celula_alterar ha1 a b c]
      by_cases h2 : a = s.selecaoY ∧ b = s.selecaoX ∧ c = s.selecaoZ
      · obtain ⟨rfl, rfl, rfl⟩ := h2
        simp [hv]
      · simp only [h2, if_false, hw, Option.map_some']
    · simp only [h1, if_false]
      rw [celula_alterar ha1 a b c]
      by_cases h2 : a = s.selecaoY ∧ b = s.selecaoX ∧ c = s.selecaoZ
      · simp only [h2, and_self, if_true]
      · simp only [h2, if_false]
        cases celula s.grid a b c <;> rfl

theorem key_callback_direita (lixo : Nat → Nat → Nat → Voxel) (s : Estado) :
    key_callback lixo s GLFW_KEY_RIGHT GLFW_PRESS =
      if s.selecaoX + 1 < s.TAM then
        moverSelecao s fun t => { t with selecaoX := t.selecaoX + 1 } else some s := by
  simp [key_callback, GLFW_KEY_RIGHT, GLFW_KEY_1, GLFW_KEY_9, GLFW_KEY_0, GLFW_PRESS, GLFW_KEY_F1,
    GLFW_KEY_F2, GLFW_KEY_DELETE, GLFW_KEY_V, GLFW_KEY_LEFT, GLFW_KEY_UP, GLFW_KEY_DOWN,
    GLFW_KEY_Q, GLFW_KEY_E]

theorem key_callback_esquerda (lixo : Nat → Nat → Nat → Voxel) (s : Estado) :
    key_callback lixo s GLFW_KEY_LEFT GLFW_PRESS =
      if s.selecaoX - 1 ≥ 0 then
        moverSelecao s fun t => { t with selecaoX := t.selecaoX - 1 } else some s := by
  simp [key_callback, GLFW_KEY_RIGHT, GLFW_KEY_1, GLFW_KEY_9, GLFW_KEY_0, GLFW_PRESS, GLFW_KEY_F1,
    GLFW_KEY_F2, GLFW_KEY_DELETE, GLFW_KEY_V, GLFW_KEY_LEFT, GLFW_KEY_UP, GLFW_KEY_DOWN,
    GLFW_KEY_Q, GLFW_KEY_E]

theorem key_callback_cima (lixo : Nat → Nat → Nat → Voxel) (s : Estado) :
    key_callback lixo s GLFW_KEY_UP GLFW_PRESS =
      if s.selecaoY + 1 < s.TAM then
        moverSelecao s fun t => { t with selecaoY := t.selecaoY + 1 } else some s := by
  simp [key_callback, GLFW_KEY_RIGHT, GLFW_KEY_1, GLFW_KEY_9, GLFW_KEY_0, GLFW_PRESS, GLFW_KEY_F1,
    GLFW_KEY_F2, GLFW_KEY_DELETE, GLFW_KEY_V, GLFW_KEY_LEFT, GLFW_KEY_UP, GLFW_KEY_DOWN,
    GLFW_KEY_Q, GLFW_KEY_E]

theorem key_callback_baixo (lixo : Nat → Nat → Nat → Voxel) (s : Estado) :
    key_callback lixo s GLFW_KEY_DOWN GLFW_PRESS =
      if s.selecaoY - 1 ≥ 0 then
        moverSelecao s fun t => { t with selecaoY := t.selecaoY - 1 } else some s := by
  simp [key_callback, GLFW_KEY_RIGHT, GLFW_KEY_1, GLFW_KEY_9, GLFW_KEY_0, GLFW_PRESS, GLFW_KEY_F1,
    GLFW_KEY_F2, GLFW_KEY_DELETE, GLFW_KEY_V, GLFW_KEY_LEFT, GLFW_KEY_UP, GLFW_KEY_DOWN,
    GLFW_KEY_Q, GLFW_KEY_E]

theorem key_callback_q (lixo : Nat → Nat → Nat → Voxel) (s : Estado) :
    key_callback lixo s GLFW_KEY_Q GLFW_PRESS =
      if s.selecaoZ + 1 < s.TAM then
        moverSelecao s fun t => { t with selecaoZ := t.selecaoZ + 1 } else some s := by
  simp [key_callback, GLFW_KEY_RIGHT, GLFW_KEY_1, GLFW_KEY_9, GLFW_KEY_0, GLFW_PRESS, GLFW_KEY_F1,
    GLFW_KEY_F2, GLFW_KEY_DELETE, GLFW_KEY_V, GLFW_KEY_LEFT, GLFW_KEY_UP, GLFW_KEY_DOWN,
    GLFW_KEY_Q, GLFW_KEY_E]

theorem key_callback_e (lixo : Nat → Nat → Nat → Voxel) (s : Estado) :
    key_callback lixo s GLFW_KEY_E GLFW_PRESS =
      if s.selecaoZ - 1 ≥ 0 then
        moverSelecao s fun t => { t with selecaoZ := t.selecaoZ - 1 } else some s := by
  simp [key_callback, GLFW_KEY_RIGHT, GLFW_KEY_1, GLFW_KEY_9, GLFW_KEY_0, GLFW_PRESS, GLFW_KEY_F1,
    GLFW_KEY_F2, GLFW_KEY_DELETE, GLFW_KEY_V, GLFW_KEY_LEFT, GLFW_KEY_UP, GLFW_KEY_DOWN,
    GLFW_KEY_Q, GLFW_KEY_E]

theorem key_callback_delete (lixo : Nat → Nat → Nat → Voxel) (s : Estado) :
    key_callback lixo s GLFW_KEY_DELETE GLFW_PRESS =
      naSelecao s fun v => { v with visivel := false } := by
  simp [key_callback, GLFW_KEY_RIGHT, GLFW_KEY_1, GLFW_KEY_9, GLFW_KEY_0, GLFW_PRESS, GLFW_KEY_F1,
    GLFW_KEY_F2, GLFW_KEY_DELETE, GLFW_KEY_V, GLFW_KEY_LEFT, GLFW_KEY_UP, GLFW_KEY_DOWN,
    GLFW_KEY_Q, GLFW_KEY_E]

theorem key_callback_v (lixo : Nat → Nat → Nat → Voxel) (s : Estado) :
    key_callback lixo s GLFW_KEY_V GLFW_PRESS =
      naSelecao s fun v => { v with visivel := true } := by
  simp [key_callback, GLFW_KEY_RIGHT, GLFW_KEY_1, GLFW_KEY_9, GLFW_KEY_0, GLFW_PRESS, GLFW_KEY_F1,
    GLFW_KEY_F2, GLFW_KEY_DELETE, GLFW_KEY_V, GLFW_KEY_LEFT, GLFW_KEY_UP, GLFW_KEY_DOWN,
    GLFW_KEY_Q, GLFW_KEY_E]

theorem key_callback_cor (lixo : Nat → Nat → Nat → Voxel) (s : Estado) (c : Int) (h0 : 0 ≤ c)
    (h1 : c < 10) :
    key_callback lixo s (GLFW_KEY_0 + c) GLFW_PRESS =
      (naSelecao s fun v => { v with corPos := c }).bind fun s1 =>
        naSelecao s1 fun v => { v with visivel := true } := by
  have e : (if GLFW_KEY_0 + c ≥ GLFW_KEY_1 ∧ GLFW_KEY_0 + c ≤ GLFW_KEY_9 then
      GLFW_KEY_0 + c - GLFW_KEY_1 + 1 else if GLFW_KEY_0 + c = GLFW_KEY_0 then 0 else -1) = c := by
    simp only [GLFW_KEY_0, GLFW_KEY_1, GLFW_KEY_9]
    split_ifs <;> omega
  have n1 : GLFW_KEY_0 + c ≠ GLFW_KEY_F1 := by simp only [GLFW_KEY_0, GLFW_KEY_F1]; omega
  have n2 : GLFW_KEY_0 + c ≠ GLFW_KEY_F2 := by simp only [GLFW_KEY_0, GLFW_KEY_F2]; omega
  have n3 : GLFW_KEY_0 + c ≠ GLFW_KEY_DELETE := by
    simp only [GLFW_KEY_0, GLFW_KEY_DELETE]; omega
  have n4 : GLFW_KEY_0 + c ≠ GLFW_KEY_V := by simp only [GLFW_KEY_0, GLFW_KEY_V]; omega
  have n5 : GLFW_KEY_0 + c ≠ GLFW_KEY_RIGHT := by simp only [GLFW_KEY_0, GLFW_KEY_RIGHT]; omega
  have n6 : GLFW_KEY_0 + c ≠ GLFW_KEY_LEFT := by simp only [GLFW_KEY_0, GLFW_KEY_LEFT]; omega
  have n7 : GLFW_KEY_0 + c ≠ GLFW_KEY_UP := by simp only [GLFW_KEY_0, GLFW_KEY_UP]; omega
  have n8 : GLFW_KEY_0 + c ≠ GLFW_KEY_DOWN := by simp only [GLFW_KEY_0, GLFW_KEY_DOWN]; omega
  have n9 : GLFW_KEY_0 + c ≠ GLFW_KEY_Q := by simp only [GLFW_KEY_0, GLFW_KEY_Q]; omega
  have n10 : GLFW_KEY_0 + c ≠ GLFW_KEY_E := by simp only [GLFW_KEY_0, GLFW_KEY_E]; omega
  unfold key_callback
  simp only [n1, n2, n3, n4, n5, n6, n7, n8, n9, n10, false_and, if_false, e]
  simp [h0, h1]

theorem passoDaTecla_casos {key : Int} {d : Int × Int × Int} (h : passoDaTecla key = some d) :
    (key = GLFW_KEY_RIGHT ∧ d = (1, 0, 0)) ∨ (key = GLFW_KEY_LEFT ∧ d = (-1, 0, 0)) ∨
    (key = GLFW_KEY_UP ∧ d = (0, 1, 0)) ∨ (key = GLFW_KEY_DOWN ∧ d = (0, -1, 0)) ∨
    (key = GLFW_KEY_Q ∧ d = (0, 0, 1)) ∨ (key = GLFW_KEY_E ∧ d = (0, 0, -1)) := by
  unfold passoDaTecla at h
  split_ifs at h <;> simp_all

/-- A navigation key, in a state with the cursor inside the grid: the move is made
when the candidate is inside `[0, TAM)` and nothing happens otherwise. -/
theorem key_callback_navegacao (lixo : Nat → Nat → Nat → Voxel) (s : Estado) (hd : Dentro s)
    {key : Int} {d : Int × Int × Int} (h : passoDaTecla key = some d) :
    key_callback lixo s key GLFW_PRESS =
      if (0 ≤ s.selecaoX + d.1 ∧ s.selecaoX + d.1 < s.TAM) ∧
          (0 ≤ s.selecaoY + d.2.1 ∧ s.selecaoY + d.2.1 < s.TAM) ∧
          (0 ≤ s.selecaoZ + d.2.2 ∧ s.selecaoZ + d.2.2 < s.TAM) then
        moverSelecao s fun t =>
          { t with selecaoX := t.selecaoX + d.1, selecaoY := t.selecaoY + d.2.1,
                   selecaoZ := t.selecaoZ + d.2.2 }
      else some s := by
  obtain ⟨⟨hx0, hx1⟩, ⟨hy0, hy1⟩, ⟨hz0, hz1⟩⟩ := hd
  rcases passoDaTecla_casos h with ⟨rfl, rfl⟩ | ⟨rfl, rfl⟩ | ⟨rfl, rfl⟩ | ⟨rfl, rfl⟩ |
    ⟨rfl, rfl⟩ | ⟨rfl, rfl⟩
  · rw [key_callback_direita]
    by_cases hc : s.selecaoX + 1 < s.TAM
    · have : 0 ≤ s.selecaoX + 1 := by omega
      simp [hc, this, hy0, hy1, hz0, hz1]
    · simp [hc]
  · rw [key_callback_esquerda]
    by_cases hc : s.selecaoX - 1 ≥ 0
    · have h2 : 0 ≤ s.selecaoX + -1 := by omega
      have h3 : s.selecaoX + -1 < s.TAM := by omega
      have h4 : 0 ≤ s.selecaoX - 1 := hc
      simp [h2, h3, h4, hy0, hy1, hz0, hz1, sub_eq_add_neg]
    · have h2 : ¬ (0 ≤ s.selecaoX + -1) := by omega
      simp [hc, h2]
  · rw [key_callback_cima]
    by_cases hc : s.selecaoY + 1 < s.TAM
    · have : 0 ≤ s.selecaoY + 1 := by omega
      simp [hc, this, hx0, hx1, hz0, hz1]
    · simp [hc]
  · rw [key_callback_baixo]
    by_cases hc : s.selecaoY - 1 ≥ 0
    · have h2 : 0 ≤ s.selecaoY + -1 := by omega
      have h3 : s.selecaoY + -1 < s.TAM := by omega
      have h4 : 0 ≤ s.selecaoY - 1 := hc
      simp [h2, h3, h4, hx0, hx1, hz0, hz1, sub_eq_add_neg]
    · have h2 : ¬ (0 ≤ s.selecaoY + -1) := by omega
      simp [hc, h2]
  · rw [key_callback_q]
    by_cases hc : s.selecaoZ + 1 < s.TAM
    · have : 0 ≤ s.selecaoZ + 1 := by omega
      simp [hc, this, hx0, hx1, hy0, hy1]
    · simp [hc]
  · rw [key_callback_e]
    by_cases hc : s.selecaoZ - 1 ≥ 0
    · have h2 : 0 ≤ s.selecaoZ + -1 := by omega
      have h3 : s.selecaoZ + -1 < s.TAM := by omega
      have h4 : 0 ≤ s.selecaoZ - 1 := hc
      simp [h2, h3, h4, hx0, hx1, hy0, hy1, sub_eq_add_neg]
    · have h2 : ¬ (0 ≤ s.selecaoZ + -1) := by omega
      simp [hc, h2]

theorem passoDaTecla_of_mem {key : Int} (h : key ∈ teclasNavegacao) :
    ∃ d, passoDaTecla key = some d := by
  simp only [teclasNavegacao, List.mem_cons, List.mem_singleton, List.not_mem_nil,
    or_false] at h
  rcases h with rfl | rfl | rfl | rfl | rfl | rfl <;> exact ⟨_, rfl⟩

/-- An assignment through the cursor cell: it is defined, it keeps the shape of the
grid, and it changes that cell only. -/
theorem naSelecao_ponto {s : Estado} {v : Voxel}
    (h : celula s.grid s.selecaoY s.selecaoX s.selecaoZ = some v) (f : Voxel → Voxel) :
    ∃ g1, naSelecao s f = some { s with grid := g1 } ∧ (∀ n, Cubica s.grid n → Cubica g1 n) ∧
      ∀ a b c, celula g1 a b c =
        if a = s.selecaoY ∧ b = s.selecaoX ∧ c = s.selecaoZ then some (f v)
        else celula s.grid a b c := by
  obtain ⟨g1, hn, ha⟩ := naSelecao_spec h f
  refine ⟨g1, hn, fun n hc => cubica_alterar ha hc, ?_⟩
  intro a b c
  rw [celula_alterar ha a b c, h]
  rfl

/-- The cursor of a well-formed state addresses a cell. -/
theorem celula_da_selecao {s : Estado} (hc : Cubica s.grid s.TAM.toNat) (hd : Dentro s) :
    ∃ v, celula s.grid s.selecaoY s.selecaoX s.selecaoZ = some v := by
  obtain ⟨⟨hx0, hx1⟩, ⟨hy0, hy1⟩, ⟨hz0, hz1⟩⟩ := hd
  have hn : ((s.TAM.toNat : Nat) : Int) = s.TAM := Int.toNat_of_nonneg (by omega)
  exact celula_of_cubica hc ⟨hy0, by omega⟩ ⟨hx0, by omega⟩ ⟨hz0, by omega⟩

/-- An accepted navigation key press: the new state. -/
theorem navegacao_aceita (lixo : Nat → Nat → Nat → Voxel) (s : Estado)
    (hc : Cubica s.grid s.TAM.toNat) (hd : Dentro s) {key : Int} {d : Int × Int × Int}
    (hk : passoDaTecla key = some d)
    (hcand : (0 ≤ s.selecaoX + d.1 ∧ s.selecaoX + d.1 < s.TAM) ∧
      (0 ≤ s.selecaoY + d.2.1 ∧ s.selecaoY + d.2.1 < s.TAM) ∧
      (0 ≤ s.selecaoZ + d.2.2 ∧ s.selecaoZ + d.2.2 < s.TAM)) :
    ∃ g2, key_callback lixo s key GLFW_PRESS =
        some { s with grid := g2, selecaoX := s.selecaoX + d.1, selecaoY := s.selecaoY + d.2.1,
                      selecaoZ := s.selecaoZ + d.2.2 } ∧
      Cubica g2 s.TAM.toNat ∧
      ∀ a b c, celula g2 a b c = (celula s.grid a b c).map fun u =>
        { u with selecionado :=
            if a = s.selecaoY + d.2.1 ∧ b = s.selecaoX + d.1 ∧ c = s.selecaoZ + d.2.2 then true
            else if a = s.selecaoY ∧ b = s.selecaoX ∧ c = s.selecaoZ then false
            else u.selecionado } := by
  obtain ⟨v, hv⟩ := celula_da_selecao hc hd
  have hn : ((s.TAM.toNat : Nat) : Int) = s.TAM := Int.toNat_of_nonneg (by
    have := hd.1; omega)
  obtain ⟨w, hw⟩ := celula_of_cubica hc (a := s.selecaoY + d.2.1) (b := s.selecaoX + d.1)
    (c := s.selecaoZ + d.2.2) ⟨hcand.2.1.1, by have := hcand.2.1.2; omega⟩
    ⟨hcand.1.1, by have := hcand.1.2; omega⟩ ⟨hcand.2.2.1, by have := hcand.2.2.2; omega⟩
  rw [key_callback_navegacao lixo s hd hk, if_pos hcand]
  exact moverSelecao_spec hc hv _ _ _ hw _ (fun g => rfl)

/-- One navigation key press keeps the grid shape, the cursor inside the grid and
the selection on the cursor cell alone. -/
theorem navegacao_passo (lixo : Nat → Nat → Nat → Voxel) (s : Estado)
    (hc : Cubica s.grid s.TAM.toNat) (hd : Dentro s) (hs : SelecaoUnica s) {key : Int}
    (hk : key ∈ teclasNavegacao) :
    ∃ s1, key_callback lixo s key GLFW_PRESS = some s1 ∧ Cubica s1.grid s1.TAM.toNat ∧
      Dentro s1 ∧ SelecaoUnica s1 := by
  obtain ⟨d, hp⟩ := passoDaTecla_of_mem hk
  by_cases hcand : (0 ≤ s.selecaoX + d.1 ∧ s.selecaoX + d.1 < s.TAM) ∧
      (0 ≤ s.selecaoY + d.2.1 ∧ s.selecaoY + d.2.1 < s.TAM) ∧
      (0 ≤ s.selecaoZ + d.2.2 ∧ s.selecaoZ + d.2.2 < s.TAM)
  · obtain ⟨g2, hk2, hc2, hcel⟩ := navegacao_aceita lixo s hc hd hp hcand
    refine ⟨_, hk2, hc2, ⟨hcand.1, hcand.2.1, hcand.2.2⟩, ?_⟩
    intro a b c v hv
    simp only at hv ⊢
    rw [hcel a b c] at hv
    cases hu : celula s.grid a b c with
    | none => simp [hu] at hv
    | some u =>
      simp only [hu, Option.map_some', Option.some.injEq] at hv
      subst hv
      have hsu := hs a b c u hu
      by_cases h1 : a = s.selecaoY + d.2.1 ∧ b = s.selecaoX + d.1 ∧ c = s.selecaoZ + d.2.2
      · simp [h1]
      · by_cases h2 : a = s.selecaoY ∧ b = s.selecaoX ∧ c = s.selecaoZ
        · simp [h1, h2]
        · simp only [h1, h2, if_false]
          rw [hsu]
          exact iff_of_false h2 (fun h => h)
  · exact ⟨s, by rw [key_callback_navegacao lixo s hd hp, if_neg hcand], hc, hd, hs⟩

/-! ## The claims on initialisation and on key presses -/

/-- C3: for every size > 0, `inicializarGradeVoxel(size)` succeeds, sets `TAM = size`
and builds a `size x size x size` grid, so `size ^ 3` cells, each of them invisible,
unselected, of colour index 0 and with the scale factor `0.98f`. -/
theorem inicializarGradeVoxel_padrao (size : Int) (h : 0 < size) (s : Estado) :
    ∃ s1, inicializarGradeVoxel size s = some s1 ∧ s1.TAM = size ∧
      Cubica s1.grid size.toNat ∧ ((todasCelulas s1.grid).length : Int) = size ^ 3 ∧
      ∀ v ∈ todasCelulas s1.grid, v.visivel = false ∧ v.selecionado = false ∧
        v.corPos = 0 ∧ v.fatorEscala = roundF32 (98 / 100) := by
  refine ⟨{ s with TAM := size, grid := gradeInicial size }, ?_, rfl,
    cubica_gradeInicial size, ?_, fun v hv => mem_gradeInicial hv⟩
  · simp [inicializarGradeVoxel, not_lt.mpr h.le]
  · have hn : ((size.toNat : Nat) : Int) = size := Int.toNat_of_nonneg h.le
    simp only [cubica_total (cubica_gradeInicial size), Nat.cast_pow, hn]

theorem inicializarGradeVoxel_padrao_witness :
    (0 : Int) < 2 ∧ ∃ s1, inicializarGradeVoxel 2 estadoZero = some s1 ∧ s1.TAM = 2 ∧
      Cubica s1.grid (2 : Int).toNat ∧ ((todasCelulas s1.grid).length : Int) = 2 ^ 3 ∧
      ∀ v ∈ todasCelulas s1.grid, v.visivel = false ∧ v.selecionado = false ∧
        v.corPos = 0 ∧ v.fatorEscala = roundF32 (98 / 100) :=
  ⟨by decide, inicializarGradeVoxel_padrao 2 (by decide) estadoZero⟩

/-- C4: for every editor coordinate `(x, y, z)` inside `[0, size)` (so `size > 0`),
after `inicializarGradeVoxel(size)` the cell `grid[y][x][z]` has the position
`(x - size/2, y - size/2, z - size/2)` with the truncating division of C; the start
value `-TAM / 2` of the loops is `-(TAM / 2)`, which is `-1` for size 2 and `-12`
for size 25. -/
theorem inicializarGradeVoxel_posicao (size x y z : Int) (hx : 0 ≤ x ∧ x < size)
    (hy : 0 ≤ y ∧ y < size) (hz : 0 ≤ z ∧ z < size) (s : Estado) :
    (∃ s1 v, inicializarGradeVoxel size s = some s1 ∧ celula s1.grid y x z = some v ∧
      v.pos = ⟨((x - Int.tdiv size 2 : Int) : ℚ), ((y - Int.tdiv size 2 : Int) : ℚ),
               ((z - Int.tdiv size 2 : Int) : ℚ)⟩) ∧
    Int.tdiv (-size) 2 = -(Int.tdiv size 2) ∧
    (size = 2 → Int.tdiv (-size) 2 = -1) ∧ (size = 25 → Int.tdiv (-size) 2 = -12) := by
  have hneg : Int.tdiv (-size) 2 = -(Int.tdiv size 2) := Int.neg_tdiv size 2
  refine ⟨⟨{ s with TAM := size, grid := gradeInicial size }, _, ?_,
    celula_gradeInicial size y x z hy hx hz, ?_⟩, hneg, ?_, ?_⟩
  · have : ¬ size < 0 := by omega
    simp [inicializarGradeVoxel, this]
  · simp only [hneg, neg_add_eq_sub]
  · rintro rfl; decide
  · rintro rfl; decide

theorem inicializarGradeVoxel_posicao_witness :
    ((0 : Int) ≤ 1 ∧ (1 : Int) < 2) ∧ ((0 : Int) ≤ 0 ∧ (0 : Int) < 2) ∧
    ((0 : Int) ≤ 1 ∧ (1 : Int) < 2) ∧
    ((∃ s1 v, inicializarGradeVoxel 2 estadoZero = some s1 ∧ celula s1.grid 0 1 1 = some v ∧
      v.pos = ⟨(((1 : Int) - Int.tdiv 2 2 : Int) : ℚ), (((0 : Int) - Int.tdiv 2 2 : Int) : ℚ),
               (((1 : Int) - Int.tdiv 2 2 : Int) : ℚ)⟩) ∧
    Int.tdiv (-2) 2 = -(Int.tdiv 2 2) ∧
    ((2 : Int) = 2 → Int.tdiv (-2) 2 = -1) ∧ ((2 : Int) = 25 → Int.tdiv (-2) 2 = -12)) :=
  ⟨by decide, by decide, by decide,
    inicializarGradeVoxel_posicao 2 1 0 1 (by decide) (by decide) (by decide) estadoZero⟩

/-- C5: from a state whose cursor is inside `[0, TAM)^3` and whose cursor cell is the
only selected one, any finite sequence of presses of the six navigation keys runs to
a state in which again the cursor is inside the grid, the cursor cell is selected and
no other cell is. -/
theorem navegacao_selecao_unica (lixo : Nat → Nat → Nat → Voxel) (teclas : List Int)
    (hk : ∀ k ∈ teclas, k ∈ teclasNavegacao) (s : Estado)
    (hc : Cubica s.grid s.TAM.toNat) (hd : Dentro s) (hs : SelecaoUnica s) :
    ∃ s1, executar lixo s (teclas.map fun k => (k, GLFW_PRESS)) = some s1 ∧
      Cubica s1.grid s1.TAM.toNat ∧ Dentro s1 ∧ SelecaoUnica s1 ∧
      ∃ v, celula s1.grid s1.selecaoY s1.selecaoX s1.selecaoZ = some v ∧
        v.selecionado = true := by
  induction teclas generalizing s with
  | nil =>
    obtain ⟨v, hv⟩ := celula_da_selecao hc hd
    exact ⟨s, rfl, hc, hd, hs, v, hv, (hs _ _ _ v hv).mpr ⟨rfl, rfl, rfl⟩⟩
  | cons k ks ih =>
    obtain ⟨s1, h1, hc1, hd1, hs1⟩ :=
      navegacao_passo lixo s hc hd hs (hk k (List.mem_cons_self _ _))
    obtain ⟨s2, h2, r⟩ := ih (fun j hj => hk j (List.mem_cons_of_mem _ hj)) s1 hc1 hd1 hs1
    refine ⟨s2, ?_, r⟩
    unfold executar at h2 ⊢
    simp only [List.map_cons, List.foldlM_cons, h1]
    exact h2

/-- Selecting one cell of a grid without selected cells, with the cursor on it,
gives a state whose only selected cell is the cursor cell. -/
theorem selecaoUnica_selecionar {g g1 : Grade} {x y z : Int}
    (hg : ∀ v ∈ todasCelulas g, v.selecionado = false)
    (ha : alterar g y x z (fun v => { v with selecionado := true }) = some g1) (s : Estado) :
    SelecaoUnica { s with grid := g1, selecaoX := x, selecaoY := y, selecaoZ := z } := by
  intro a b c v hv
  simp only at hv ⊢
  rw [celula_alterar ha a b c] at hv
  by_cases h1 : a = y ∧ b = x ∧ c = z
  · simp only [h1, and_self, if_true] at hv
    cases hu : celula g y x z with
    | none => simp [hu] at hv
    | some u =>
      simp only [hu, Option.map_some', Option.some.injEq] at hv
      subst hv
      simp [h1]
  · simp only [h1, if_false] at hv
    have := hg v (celula_mem hv)
    simp [this, h1]

theorem alterar_estadoDois :
    alterar (gradeInicial 2) 0 0 1 (fun v => { v with selecionado := true }) =
      some estadoDois.grid := by
  obtain ⟨g1, hg⟩ := alterar_of_celula
    (celula_gradeInicial 2 0 0 1 (by decide) (by decide) (by decide))
    (fun v => { v with selecionado := true })
  simp [estadoDois, hg]

theorem cubica_estadoDois : Cubica estadoDois.grid estadoDois.TAM.toNat :=
  cubica_alterar alterar_estadoDois (cubica_gradeInicial 2)

theorem dentro_estadoDois : Dentro estadoDois := by
  simp [Dentro, estadoDois]

theorem selecaoUnica_estadoDois : SelecaoUnica estadoDois :=
  selecaoUnica_selecionar (fun _ hv => (mem_gradeInicial hv).2.1) alterar_estadoDois estadoDois

theorem navegacao_selecao_unica_witness :
    (∀ k ∈ [GLFW_KEY_Q, GLFW_KEY_RIGHT, GLFW_KEY_E, GLFW_KEY_UP], k ∈ teclasNavegacao) ∧
    Cubica estadoDois.grid estadoDois.TAM.toNat ∧ Dentro estadoDois ∧ SelecaoUnica estadoDois ∧
    ∃ s1, executar lixoZero estadoDois
        ([GLFW_KEY_Q, GLFW_KEY_RIGHT, GLFW_KEY_E, GLFW_KEY_UP].map fun k => (k, GLFW_PRESS)) =
          some s1 ∧
      Cubica s1.grid s1.TAM.toNat ∧ Dentro s1 ∧ SelecaoUnica s1 ∧
      ∃ v, celula s1.grid s1.selecaoY s1.selecaoX s1.selecaoZ = some v ∧
        v.selecionado = true :=
  ⟨by decide, cubica_estadoDois, dentro_estadoDois, selecaoUnica_estadoDois,
    navegacao_selecao_unica lixoZero _ (by decide) estadoDois cubica_estadoDois
      dentro_estadoDois selecaoUnica_estadoDois⟩

/-- C6 (amended): with the cursor inside `[0, TAM)` on the three axes, a navigation
key press whose candidate index is outside `[0, TAM)` changes nothing: the state after
the call is the state before it (cursor, `TAM` and every cell of the grid). -/
theorem navegacao_rejeitada (lixo : Nat → Nat → Nat → Voxel) (s : Estado) (hd : Dentro s)
    (key : Int) (d : Int × Int × Int) (hk : passoDaTecla key = some d)
    (hfora : ¬ ((0 ≤ s.selecaoX + d.1 ∧ s.selecaoX + d.1 < s.TAM) ∧
      (0 ≤ s.selecaoY + d.2.1 ∧ s.selecaoY + d.2.1 < s.TAM) ∧
      (0 ≤ s.selecaoZ + d.2.2 ∧ s.selecaoZ + d.2.2 < s.TAM))) :
    key_callback lixo s key GLFW_PRESS = some s := by
  rw [key_callback_navegacao lixo s hd hk, if_neg hfora]

theorem navegacao_rejeitada_witness :
    Dentro estadoDois ∧ passoDaTecla GLFW_KEY_Q = some (0, 0, 1) ∧
    ¬ ((0 ≤ estadoDois.selecaoX + 0 ∧ estadoDois.selecaoX + 0 < estadoDois.TAM) ∧
      (0 ≤ estadoDois.selecaoY + 0 ∧ estadoDois.selecaoY + 0 < estadoDois.TAM) ∧
      (0 ≤ estadoDois.selecaoZ + 1 ∧ estadoDois.selecaoZ + 1 < estadoDois.TAM)) ∧
    key_callback lixoZero estadoDois GLFW_KEY_Q GLFW_PRESS = some estadoDois :=
  ⟨dentro_estadoDois, rfl, by decide,
    navegacao_rejeitada lixoZero estadoDois dentro_estadoDois GLFW_KEY_Q (0, 0, 1) rfl
      (by decide)⟩

/-- C6 (as stated) fails when the cursor is not inside the grid.  After `main` has
started (`TAM = 25`, cursor `(0, 0, 24)`) a press of F2 loads a file that holds a grid
of edge 1 and leaves `TAM = 1` with the cursor at `(0, 0, 24)`.  The key E asks for the
candidate `z = 23`, outside `[0, 1)`, but the code only tests `selecaoZ - 1 >= 0`: the
press is not rejected, it assigns through `grid[0][0][24]`, which is no cell of the
grid, instead of leaving the state as it was. -/
theorem navegacao_rejeitada_contraexemplo :
    ((estadoDePartida estadoArquivoUm).bind fun s =>
      key_callback lixoZero s GLFW_KEY_F2 GLFW_PRESS) = some estadoForaUm ∧
    passoDaTecla GLFW_KEY_E = some (0, 0, -1) ∧
    ¬ ((0 ≤ estadoForaUm.selecaoX + 0 ∧ estadoForaUm.selecaoX + 0 < estadoForaUm.TAM) ∧
      (0 ≤ estadoForaUm.selecaoY + 0 ∧ estadoForaUm.selecaoY + 0 < estadoForaUm.TAM) ∧
      (0 ≤ estadoForaUm.selecaoZ + -1 ∧ estadoForaUm.selecaoZ + -1 < estadoForaUm.TAM)) ∧
    ¬ Dentro estadoForaUm ∧
    celula estadoForaUm.grid 0 0 24 = none ∧
    key_callback lixoZero estadoForaUm GLFW_KEY_E GLFW_PRESS = none ∧
    key_callback lixoZero estadoForaUm GLFW_KEY_E GLFW_PRESS ≠ some estadoForaUm := by
  refine ⟨by decide!, by decide, by decide, ?_, by decide, by decide!, by decide!⟩
  unfold Dentro
  decide

/-- C7: with the cursor inside the grid, a navigation key press whose candidate index
is inside `[0, TAM)` moves the cursor by the step of the key (one unit on the axis of
the key, nothing on the two others), leaves `TAM` and the file alone, and changes the
grid only in the `selecionado` flag of two cells: it becomes `false` in the cell the
cursor leaves and `true` in the cell the cursor reaches. -/
theorem navegacao_efeito (lixo : Nat → Nat → Nat → Voxel) (s : Estado)
    (hc : Cubica s.grid s.TAM.toNat) (hd : Dentro s) (key : Int) (d : Int × Int × Int)
    (hk : passoDaTecla key = some d)
    (hcand : (0 ≤ s.selecaoX + d.1 ∧ s.selecaoX + d.1 < s.TAM) ∧
      (0 ≤ s.selecaoY + d.2.1 ∧ s.selecaoY + d.2.1 < s.TAM) ∧
      (0 ≤ s.selecaoZ + d.2.2 ∧ s.selecaoZ + d.2.2 < s.TAM)) :
    ∃ s1, key_callback lixo s key GLFW_PRESS = some s1 ∧
      s1.selecaoX = s.selecaoX + d.1 ∧ s1.selecaoY = s.selecaoY + d.2.1 ∧
      s1.selecaoZ = s.selecaoZ + d.2.2 ∧ s1.TAM = s.TAM ∧ s1.arquivoTxt = s.arquivoTxt ∧
      s1.gravavel = s.gravavel ∧ Cubica s1.grid s.TAM.toNat ∧
      ∀ a b c, celula s1.grid a b c = (celula s.grid a b c).map fun u =>
        { u with selecionado :=
            if a = s1.selecaoY ∧ b = s1.selecaoX ∧ c = s1.selecaoZ then true
            else if a = s.selecaoY ∧ b = s.selecaoX ∧ c = s.selecaoZ then false
            else u.selecionado } := by
  obtain ⟨g2, h, hc2, hcel⟩ := navegacao_aceita lixo s hc hd hk hcand
  exact ⟨_, h, rfl, rfl, rfl, rfl, rfl, rfl, hc2, hcel⟩

theorem navegacao_efeito_witness :
    Cubica estadoDois.grid estadoDois.TAM.toNat ∧ Dentro estadoDois ∧
    passoDaTecla GLFW_KEY_E = some (0, 0, -1) ∧
    ((0 ≤ estadoDois.selecaoX + 0 ∧ estadoDois.selecaoX + 0 < estadoDois.TAM) ∧
      (0 ≤ estadoDois.selecaoY + 0 ∧ estadoDois.selecaoY + 0 < estadoDois.TAM) ∧
      (0 ≤ estadoDois.selecaoZ + -1 ∧ estadoDois.selecaoZ + -1 < estadoDois.TAM)) ∧
    ∃ s1, key_callback lixoZero estadoDois GLFW_KEY_E GLFW_PRESS = some s1 ∧
      s1.selecaoX = estadoDois.selecaoX + 0 ∧ s1.selecaoY = estadoDois.selecaoY + 0 ∧
      s1.selecaoZ = estadoDois.selecaoZ + -1 ∧ s1.TAM = estadoDois.TAM ∧
      s1.arquivoTxt = estadoDois.arquivoTxt ∧ s1.gravavel = estadoDois.gravavel ∧
      Cubica s1.grid estadoDois.TAM.toNat ∧
      ∀ a b c, celula s1.grid a b c = (celula estadoDois.grid a b c).map fun u =>
        { u with selecionado :=
            if a = s1.selecaoY ∧ b = s1.selecaoX ∧ c = s1.selecaoZ then true
            else if a = estadoDois.selecaoY ∧ b = estadoDois.selecaoX ∧
              c = estadoDois.selecaoZ then false
            else u.selecionado } :=
  ⟨cubica_estadoDois, dentro_estadoDois, rfl, by decide,
    navegacao_efeito lixoZero estadoDois cubica_estadoDois dentro_estadoDois GLFW_KEY_E
      (0, 0, -1) rfl (by decide)⟩

/-- C8: with the cursor inside the grid and a colour index `c` in `[0, 10)`, pressing
the digit key of `c` (key code `GLFW_KEY_0 + c`, so `GLFW_KEY_0` for 0 and
`GLFW_KEY_1 .. GLFW_KEY_9` for 1..9) gives the cursor cell the colour index `c` and
`visivel = true`, whatever it was, and changes nothing else: no other field of that
cell, no other cell, neither the cursor nor `TAM`. -/
theorem cor_efeito (lixo : Nat → Nat → Nat → Voxel) (s : Estado)
    (hc : Cubica s.grid s.TAM.toNat) (hd : Dentro s) (c : Int) (h0 : 0 ≤ c) (h1 : c < 10) :
    GLFW_KEY_1 = GLFW_KEY_0 + 1 ∧ GLFW_KEY_9 = GLFW_KEY_0 + 9 ∧
    ∃ s1, key_callback lixo s (GLFW_KEY_0 + c) GLFW_PRESS = some s1 ∧
      s1 = { s with grid := s1.grid } ∧ Cubica s1.grid s.TAM.toNat ∧
      ∀ a b k, celula s1.grid a b k =
        if a = s.selecaoY ∧ b = s.selecaoX ∧ k = s.selecaoZ then
          (celula s.grid a b k).map fun u => { u with corPos := c, visivel := true }
        else celula s.grid a b k := by
  refine ⟨rfl, rfl, ?_⟩
  obtain ⟨v, hv⟩ := celula_da_selecao hc hd
  obtain ⟨g1, hn1, hc1, hcel1⟩ := naSelecao_ponto hv fun u => { u with corPos := c }
  have hv1 : celula g1 s.selecaoY s.selecaoX s.selecaoZ = some { v with corPos := c } := by
    rw [hcel1]; simp
  obtain ⟨g2, hn2, hc2, hcel2⟩ := naSelecao_ponto (s := { s with grid := g1 }) hv1
    fun u => { u with visivel := true }
  refine ⟨{ s with grid := g2 }, ?_, rfl, hc2 _ (hc1 _ hc), ?_⟩
  · rw [key_callback_cor lixo s c h0 h1, hn1, Option.some_bind, hn2]
  · intro a b k
    have := hcel2 a b k
    simp only at this
    rw [this, hcel1 a b k]
    by_cases h : a = s.selecaoY ∧ b = s.selecaoX ∧ k = s.selecaoZ
    · obtain ⟨rfl, rfl, rfl⟩ := h
      simp [hv]
    · simp [h]

theorem cor_efeito_witness :
    Cubica estadoDois.grid estadoDois.TAM.toNat ∧ Dentro estadoDois ∧ (0 : Int) ≤ 3 ∧
    (3 : Int) < 10 ∧
    (GLFW_KEY_1 = GLFW_KEY_0 + 1 ∧ GLFW_KEY_9 = GLFW_KEY_0 + 9 ∧
    ∃ s1, key_callback lixoZero estadoDois (GLFW_KEY_0 + 3) GLFW_PRESS = some s1 ∧
      s1 = { estadoDois with grid := s1.grid } ∧ Cubica s1.grid estadoDois.TAM.toNat ∧
      ∀ a b k, celula s1.grid a b k =
        if a = estadoDois.selecaoY ∧ b = estadoDois.selecaoX ∧ k = estadoDois.selecaoZ then
          (celula estadoDois.grid a b k).map fun u => { u with corPos := 3, visivel := true }
        else celula estadoDois.grid a b k) :=
  ⟨cubica_estadoDois, dentro_estadoDois, by decide, by decide,
    cor_efeito lixoZero estadoDois cubica_estadoDois dentro_estadoDois 3 (by decide)
      (by decide)⟩

/-- C9: with the cursor inside the grid, the DELETE key sets `visivel` of the cursor
cell to `false` and the V key sets it to `true`; in both cases every other field of
that cell, every other cell, the cursor, `TAM` and the file are unchanged. -/
theorem visibilidade_efeito (lixo : Nat → Nat → Nat → Voxel) (s : Estado)
    (hc : Cubica s.grid s.TAM.toNat) (hd : Dentro s) :
    (∃ s1, key_callback lixo s GLFW_KEY_DELETE GLFW_PRESS = some s1 ∧
      s1 = { s with grid := s1.grid } ∧ Cubica s1.grid s.TAM.toNat ∧
      ∀ a b k, celula s1.grid a b k =
        if a = s.selecaoY ∧ b = s.selecaoX ∧ k = s.selecaoZ then
          (celula s.grid a b k).map fun u => { u with visivel := false }
        else celula s.grid a b k) ∧
    (∃ s1, key_callback lixo s GLFW_KEY_V GLFW_PRESS = some s1 ∧
      s1 = { s with grid := s1.grid } ∧ Cubica s1.grid s.TAM.toNat ∧
      ∀ a b k, celula s1.grid a b k =
        if a = s.selecaoY ∧ b = s.selecaoX ∧ k = s.selecaoZ then
          (celula s.grid a b k).map fun u => { u with visivel := true }
        else celula s.grid a b k) := by
  obtain ⟨v, hv⟩ := celula_da_selecao hc hd
  constructor
  · obtain ⟨g1, hn1, hc1, hcel1⟩ := naSelecao_ponto hv fun u => { u with visivel := false }
    refine ⟨{ s with grid := g1 }, ?_, rfl, hc1 _ hc, ?_⟩
    · rw [key_callback_delete, hn1]
    · intro a b k
      rw [hcel1 a b k]
      by_cases h : a = s.selecaoY ∧ b = s.selecaoX ∧ k = s.selecaoZ
      · obtain ⟨rfl, rfl, rfl⟩ := h
        simp [hv]
      · simp [h]
  · obtain ⟨g1, hn1, hc1, hcel1⟩ := naSelecao_ponto hv fun u => { u with visivel := true }
    refine ⟨{ s with grid := g1 }, ?_, rfl, hc1 _ hc, ?_⟩
    · rw [key_callback_v, hn1]
    · intro a b k
      rw [hcel1 a b k]
      by_cases h : a = s.selecaoY ∧ b = s.selecaoX ∧ k = s.selecaoZ
      · obtain ⟨rfl, rfl, rfl⟩ := h
        simp [hv]
      · simp [h]

theorem visibilidade_efeito_witness :
    Cubica estadoDois.grid estadoDois.TAM.toNat ∧ Dentro estadoDois ∧
    ((∃ s1, key_callback lixoZero estadoDois GLFW_KEY_DELETE GLFW_PRESS = some s1 ∧
      s1 = { estadoDois with grid := s1.grid } ∧ Cubica s1.grid estadoDois.TAM.toNat ∧
      ∀ a b k, celula s1.grid a b k =
        if a = estadoDois.selecaoY ∧ b = estadoDois.selecaoX ∧ k = estadoDois.selecaoZ then
          (celula estadoDois.grid a b k).map fun u => { u with visivel := false }
        else celula estadoDois.grid a b k) ∧
    (∃ s1, key_callback lixoZero estadoDois GLFW_KEY_V GLFW_PRESS = some s1 ∧
      s1 = { estadoDois with grid := s1.grid } ∧ Cubica s1.grid estadoDois.TAM.toNat ∧
      ∀ a b k, celula s1.grid a b k =
        if a = estadoDois.selecaoY ∧ b = estadoDois.selecaoX ∧ k = estadoDois.selecaoZ then
          (celula estadoDois.grid a b k).map fun u => { u with visivel := true }
        else celula estadoDois.grid a b k)) :=
  ⟨cubica_estadoDois, dentro_estadoDois,
    visibilidade_efeito lixoZero estadoDois cubica_estadoDois dentro_estadoDois⟩

/-! ## Decimal digits -/

theorem digChar_toNat {d : Nat} (h : d < 10) : (digChar d).toNat = 48 + d := by
  interval_cases d <;> rfl

theorem ehDigito_digChar {d : Nat} (h : d < 10) : ehDigito (digChar d) = true := by
  interval_cases d <;> rfl

theorem digitosFixos_length (k n : Nat) : (digitosFixos k n).length = k := by
  induction k generalizing n with
  | zero => rfl
  | succ k ih => simp [digitosFixos, ih]

theorem digitosFixos_digitos (k n : Nat) : ∀ c ∈ digitosFixos k n, ehDigito c = true := by
  induction k generalizing n with
  | zero => simp [digitosFixos]
  | succ k ih =>
    intro c hc
    simp only [digitosFixos, List.mem_append, List.mem_singleton] at hc
    rcases hc with hc | rfl
    · exact ih _ c hc
    · exact ehDigito_digChar (Nat.mod_lt _ (by decide))

theorem valorDigitos_snoc (a : List Char) (c : Char) :
    valorDigitos (a ++ [c]) = 10 * valorDigitos a + (c.toNat - 48) := by
  simp [valorDigitos, List.foldl_append]

theorem valorDigitos_append (a b : List Char) :
    valorDigitos (a ++ b) = valorDigitos a * 10 ^ b.length + valorDigitos b := by
  induction b using List.reverseRecOn with
  | nil => simp [valorDigitos]
  | append_singleton b c ih =>
    rw [← List.append_assoc, valorDigitos_snoc, valorDigitos_snoc, ih]
    simp only [List.length_append, List.length_singleton, pow_succ]
    ring

theorem valorDigitos_digitosFixos (k n : Nat) :
    valorDigitos (digitosFixos k n) = n % 10 ^ k := by
  induction k generalizing n with
  | zero => simp [digitosFixos, valorDigitos, Nat.mod_one]
  | succ k ih =>
    rw [digitosFixos, valorDigitos_snoc, ih, digChar_toNat (Nat.mod_lt n (by decide)),
      pow_succ, mul_comm (10 ^ k) 10, Nat.mod_mul]
    omega

theorem logPiso_lt (b : Nat) (hb : 2 ≤ b) (f n : Nat) (h : n ≤ f) :
    n < b ^ (logPiso b f n + 1) := by
  induction f generalizing n with
  | zero =>
    have : n = 0 := by omega
    subst this
    simp [logPiso]; omega
  | succ f ih =>
    unfold logPiso
    split
    · rename_i hlt
      simpa using hlt
    · rename_i hge
      have hdiv : n / b ≤ f := by
        have : n / b < n := Nat.div_lt_self (by omega) (by omega)
        omega
      have := ih (n / b) hdiv
      rw [pow_succ]
      exact (Nat.div_lt_iff_lt_mul (by omega)).mp this

theorem valorDigitos_digitosNat (n : Nat) : valorDigitos (digitosNat n) = n := by
  unfold digitosNat
  rw [valorDigitos_digitosFixos]
  exact Nat.mod_eq_of_lt (logPiso_lt 10 (by decide) n n le_rfl)

theorem digitosNat_digitos (n : Nat) : ∀ c ∈ digitosNat n, ehDigito c = true :=
  digitosFixos_digitos _ _

theorem digitosNat_ne_nil (n : Nat) : digitosNat n ≠ [] := by
  intro h
  have := congrArg List.length h
  simp [digitosNat, digitosFixos_length] at this

theorem semZerosFinais_spec (ds : List Char) :
    ∃ z, ds = semZerosFinais ds ++ List.replicate z '0' := by
  have h := List.takeWhile_append_dropWhile (fun c => decide (c = '0')) ds.reverse
  have h2 : ∀ c ∈ (ds.reverse.takeWhile fun c => decide (c = '0')), c = '0' := by
    intro c hc
    simpa using (List.mem_takeWhile_imp hc)
  have h3 : (ds.reverse.takeWhile fun c => decide (c = '0')).reverse =
      List.replicate (ds.reverse.takeWhile fun c => decide (c = '0')).length '0' := by
    rw [List.eq_replicate_iff]
    exact ⟨by simp, fun c hc => h2 c (List.mem_reverse.mp hc)⟩
  refine ⟨(ds.reverse.takeWhile fun c => decide (c = '0')).length, ?_⟩
  unfold semZerosFinais
  rw [← h3, ← List.reverse_append, h, List.reverse_reverse]

theorem semZerosFinais_digitos {ds : List Char} (h : ∀ c ∈ ds, ehDigito c = true) :
    ∀ c ∈ semZerosFinais ds, ehDigito c = true := by
  intro c hc
  obtain ⟨z, hz⟩ := semZerosFinais_spec ds
  exact h c (by rw [hz]; exact List.mem_append_left _ hc)

theorem valorDigitos_replicate_zero (z : Nat) : valorDigitos (List.replicate z '0') = 0 := by
  induction z with
  | zero => rfl
  | succ z ih =>
    rw [List.replicate_succ', valorDigitos_snoc, ih]
    rfl

/-- Dropping the trailing zeros of a fraction keeps the number it denotes. -/
theorem valor_semZerosFinais (ds : List Char) :
    ((valorDigitos (semZerosFinais ds) : Nat) : ℚ) / ((10 ^ (semZerosFinais ds).length : Nat) : ℚ)
      = ((valorDigitos ds : Nat) : ℚ) / ((10 ^ ds.length : Nat) : ℚ) := by
  obtain ⟨z, hz⟩ := semZerosFinais_spec ds
  have hv : valorDigitos ds = valorDigitos (semZerosFinais ds) * 10 ^ z := by
    conv_lhs => rw [hz]
    rw [valorDigitos_append, valorDigitos_replicate_zero]
    simp
  have hl : ds.length = (semZerosFinais ds).length + z := by
    conv_lhs => rw [hz]
    simp
  rw [hv, hl, pow_add]
  push_cast
  have : ((10 : ℚ) ^ z) ≠ 0 := by positivity
  field_simp
  ring

/-! ## Reading back what was written -/

theorem espaco_props {c : Char} (h : ehEspaco c = true) :
    ehDigito c = false ∧ c ≠ '.' ∧ c ≠ 'e' ∧ c ≠ 'E' ∧ c ≠ '-' ∧ c ≠ '+' := by
  refine ⟨?_, ?_, ?_, ?_, ?_, ?_⟩
  · simp only [ehEspaco, Bool.decide_or, Bool.or_eq_true, decide_eq_true_eq] at h
    simp only [ehDigito, Bool.decide_and, Bool.and_eq_false_iff, decide_eq_false_iff_not]
    rcases h with rfl | rfl | rfl | rfl | h | h
    · decide
    · decide
    · decide
    · decide
    · left; omega
    · left; omega
  all_goals
    rintro rfl
    exact absurd h (by decide)

theorem digito_props {c : Char} (h : ehDigito c = true) :
    ehEspaco c = false ∧ c ≠ '.' ∧ c ≠ 'e' ∧ c ≠ 'E' ∧ c ≠ '-' ∧ c ≠ '+' := by
  refine ⟨?_, ?_, ?_, ?_, ?_, ?_⟩
  · cases he : ehEspaco c with
    | false => rfl
    | true => rw [(espaco_props he).1] at h; cases h
  all_goals
    rintro rfl
    exact absurd h (by decide)

theorem takeWhile_digitos {ds : List Char} (h : ∀ c ∈ ds, ehDigito c = true) {x : Char}
    (hx : ehDigito x = false) (r : List Char) :
    (ds ++ x :: r).takeWhile ehDigito = ds := by
  induction ds with
  | nil => simp [List.takeWhile, hx]
  | cons d ds ih =>
    simp only [List.cons_append, List.takeWhile_cons, h d (List.mem_cons_self _ _), if_true]
    rw [ih (fun c hc => h c (List.mem_cons_of_mem _ hc))]

theorem dropWhile_digitos {ds : List Char} (h : ∀ c ∈ ds, ehDigito c = true) {x : Char}
    (hx : ehDigito x = false) (r : List Char) :
    (ds ++ x :: r).dropWhile ehDigito = x :: r := by
  induction ds with
  | nil => simp [List.dropWhile, hx]
  | cons d ds ih =>
    simp only [List.cons_append, List.dropWhile_cons, h d (List.mem_cons_self _ _), if_true]
    rw [ih (fun c hc => h c (List.mem_cons_of_mem _ hc))]

theorem dropWhile_espacos {ws : List Char} (h : ∀ c ∈ ws, ehEspaco c = true) {x : Char}
    (hx : ehEspaco x = false) (r : List Char) :
    (ws ++ x :: r).dropWhile ehEspaco = x :: r := by
  induction ws with
  | nil => simp [List.dropWhile, hx]
  | cons d ds ih =>
    simp only [List.cons_append, List.dropWhile_cons, h d (List.mem_cons_self _ _), if_true]
    rw [ih (fun c hc => h c (List.mem_cons_of_mem _ hc))]

theorem lerSinal_digito {x : Char} (hx : ehDigito x = true) (r : List Char) :
    lerSinal (x :: r) = (false, x :: r) := by
  obtain ⟨_, _, _, _, h1, h2⟩ := digito_props hx
  simp [lerSinal, h1, h2]

theorem lerSinal_digitos {ds : List Char} (hne : ds ≠ []) (h : ∀ c ∈ ds, ehDigito c = true)
    (r : List Char) : lerSinal (ds ++ r) = (false, ds ++ r) := by
  cases ds with
  | nil => exact absurd rfl hne
  | cons d ds => exact lerSinal_digito (h d (List.mem_cons_self _ _)) _

/-- The text after the digits before the point, for the pieces `fr` and `ex`. -/
theorem lerFracao_texto {fr : List Char} (hfr : ∀ c ∈ fr, ehDigito c = true) {x : Char}
    (hx : ehDigito x = false) (hp : x ≠ '.') (r : List Char) :
    lerFracao ((if fr = [] then [] else '.' :: fr) ++ x :: r) = (fr, x :: r) := by
  by_cases h : fr = []
  · subst h
    simp [lerFracao, hp]
  · simp only [h, if_false, List.cons_append, lerFracao, if_true]
    rw [takeWhile_digitos hfr hx, dropWhile_digitos hfr hx]

theorem lerExpoente_texto (ex : Option (Bool × List Char))
    (hex : ∀ e, ex = some e → e.2 ≠ [] ∧ ∀ c ∈ e.2, ehDigito c = true) {x : Char}
    (hx : ehEspaco x = true) (r : List Char) :
    lerExpoente (textoExpoente ex ++ x :: r) = (ex, x :: r) := by
  obtain ⟨hxd, _, he1, he2, _, _⟩ := espaco_props hx
  cases ex with
  | none => simp [textoExpoente, lerExpoente, he1, he2]
  | some e =>
    obtain ⟨en, ds⟩ := e
    obtain ⟨hne, hds⟩ := hex (en, ds) rfl
    have hs : lerSinal ((if en = true then '-' else '+') :: (ds ++ x :: r)) =
        (en, ds ++ x :: r) := by
      cases en <;> simp [lerSinal]
    simp only [textoExpoente, List.cons_append, lerExpoente, true_or, if_true, hs]
    rw [takeWhile_digitos hds hxd, dropWhile_digitos hds hxd]

/-- The scanner recovers the pieces of a written field that is followed by white
space, and stops in front of that white space. -/
theorem extrairDecimal_texto (d : Decimal) (hd : DecimalBem d) {x : Char}
    (hx : ehEspaco x = true) (r : List Char) :
    extrairDecimal (textoDecimal d ++ x :: r) = (d, x :: r) := by
  obtain ⟨neg, ip, fr, ex⟩ := d
  obtain ⟨hne, hip, hfr, hex⟩ := hd
  simp only at hne hip hfr hex
  obtain ⟨hxd, hxp, he1, he2, _, _⟩ := espaco_props hx
  -- the text after the sign
  have hcauda : ∃ y t, ehDigito y = false ∧ y ≠ '.' ∧
      textoExpoente ex ++ x :: r = y :: t := by
    cases ex with
    | none => exact ⟨x, r, hxd, hxp, rfl⟩
    | some e => exact ⟨'e', _, by decide, by decide, rfl⟩
  obtain ⟨y, t, hy, hyp, hyt⟩ := hcauda
  have hmeio : ∃ y2 t2, ehDigito y2 = false ∧
      (if fr = [] then [] else '.' :: fr) ++ (y :: t) = y2 :: t2 := by
    by_cases h : fr = []
    · exact ⟨y, t, hy, by simp [h]⟩
    · exact ⟨'.', fr ++ y :: t, by decide, by simp [h]⟩
  obtain ⟨y2, t2, hy2, hyt2⟩ := hmeio
  have htexto : textoDecimal ⟨neg, ip, fr, ex⟩ ++ x :: r =
      (if neg = true then ['-'] else []) ++ (ip ++ y2 :: t2) := by
    simp only [textoDecimal, List.append_assoc]
    rw [hyt, hyt2]
  have hsinal : lerSinal ((if neg = true then ['-'] else []) ++ (ip ++ y2 :: t2)) =
      (neg, ip ++ y2 :: t2) := by
    cases neg
    · simpa using lerSinal_digitos hne hip (y2 :: t2)
    · simp [lerSinal]
  unfold extrairDecimal
  simp only [htexto, hsinal]
  rw [takeWhile_digitos hip hy2, dropWhile_digitos hip hy2, ← hyt2,
    lerFracao_texto hfr hy hyp, ← hyt, lerExpoente_texto ex hex hx]
  simp [hne]

theorem digitosExpoente_bem (n : Nat) :
    (if n < 10 then '0' :: digitosNat n else digitosNat n) ≠ [] ∧
    (∀ c ∈ (if n < 10 then '0' :: digitosNat n else digitosNat n), ehDigito c = true) ∧
    valorDigitos (if n < 10 then '0' :: digitosNat n else digitosNat n) = n := by
  split
  · refine ⟨by simp, ?_, ?_⟩
    · intro c hc
      rcases List.mem_cons.mp hc with rfl | hc
      · decide
      · exact digitosNat_digitos n c hc
    · have := valorDigitos_append ['0'] (digitosNat n)
      simp only [List.singleton_append] at this
      rw [this, valorDigitos_digitosNat]
      simp [valorDigitos]
  · exact ⟨digitosNat_ne_nil n, digitosNat_digitos n, valorDigitos_digitosNat n⟩

/-- The field `%g` produces is well formed. -/
theorem decimalG6_bem (v : ℚ) : DecimalBem (decimalG6 v) := by
  unfold decimalG6
  split
  · refine ⟨by simp, ?_, by simp, by simp⟩
    intro c hc
    simp only [List.mem_singleton] at hc
    subst hc
    decide
  · simp only
    split
    · refine ⟨digitosNat_ne_nil _, digitosNat_digitos _,
        semZerosFinais_digitos (digitosFixos_digitos _ _), ?_⟩
      intro e he
      simp only [Option.some.injEq] at he
      subst he
      exact ⟨(digitosExpoente_bem _).1, (digitosExpoente_bem _).2.1⟩
    · refine ⟨digitosNat_ne_nil _, digitosNat_digitos _,
        semZerosFinais_digitos (digitosFixos_digitos _ _), ?_⟩
      intro e he
      cases he

/-- The mantissa a written field denotes. -/
theorem valor_mantissa (M nd : Nat) :
    ((valorDigitos (digitosNat (M / 10 ^ nd) ++
        semZerosFinais (digitosFixos nd (M % 10 ^ nd))) : Nat) : ℚ) /
      ((10 ^ (semZerosFinais (digitosFixos nd (M % 10 ^ nd))).length : Nat) : ℚ) =
    (M : ℚ) / ((10 ^ nd : Nat) : ℚ) := by
  have h1 := valor_semZerosFinais (digitosFixos nd (M % 10 ^ nd))
  rw [valorDigitos_digitosFixos, digitosFixos_length, Nat.mod_mod] at h1
  rw [valorDigitos_append, valorDigitos_digitosNat]
  have hM : (M : ℚ) = ((10 ^ nd : Nat) : ℚ) * ((M / 10 ^ nd : Nat) : ℚ) +
      ((M % 10 ^ nd : Nat) : ℚ) := by
    exact_mod_cast (Nat.div_add_mod M (10 ^ nd)).symm
  have hp : (((10 ^ (semZerosFinais (digitosFixos nd (M % 10 ^ nd))).length : Nat) : ℚ)) ≠ 0 := by
    positivity
  have hq : (((10 ^ nd : Nat) : ℚ)) ≠ 0 := by positivity
  rw [Nat.cast_add, add_div, h1, Nat.cast_mul, mul_div_assoc, div_self hp, mul_one]
  rw [hM]
  field_simp
  ring

/-- The number a field produced by `%g` denotes is the six-digit rounding. -/
theorem valorDecimal_decimalG6 (v : ℚ) : valorDecimal (decimalG6 v) = some (valor6 v) := by
  unfold decimalG6 valor6
  split
  · simp [valorDecimal, valorDigitos]
  · rename_i hv
    simp only
    generalize arred6 v.num.natAbs v.den = MX
    obtain ⟨M, X⟩ := MX
    simp only
    split
    · rename_i hsci
      have hbem := digitosExpoente_bem X.natAbs
      simp only [valorDecimal, digitosNat_ne_nil, false_and, if_false, valor_mantissa,
        hbem.1, hbem.2.2, Option.map_some']
      have hq5 : (((10 ^ 5 : Nat) : ℚ)) ≠ 0 := by positivity
      rcases hsci with hneg | hpos
      · have hX : X < 0 := by omega
        have h5 : ¬ (5 ≤ X) := by omega
        have e : (5 - X).toNat = 5 + X.natAbs := by omega
        simp only [hX, decide_True, if_true, Option.map_some', h5, if_false, e, pow_add]
        have hqa : (((10 ^ X.natAbs : Nat) : ℚ)) ≠ 0 := by positivity
        congr 1
        by_cases hvn : v < 0 <;> simp only [hvn, decide_True, decide_False, if_true,
          Bool.false_eq_true, if_false] <;> push_cast <;> field_simp
      · have hX : ¬ (X < 0) := by omega
        have h5 : 5 ≤ X := by omega
        have e : X.natAbs = (X - 5).toNat + 5 := by omega
        simp only [hX, decide_False, Bool.false_eq_true, if_false, Option.map_some', h5,
          if_true]
        rw [e, pow_add]
        congr 1
        by_cases hvn : v < 0 <;> simp only [hvn, decide_True, decide_False, if_true,
          Bool.false_eq_true, if_false] <;> push_cast <;> field_simp <;> ring
    · rename_i hfix
      simp only [valorDecimal, digitosNat_ne_nil, false_and, if_false, valor_mantissa,
        Option.map_some']
      congr 1
      by_cases h5 : 5 ≤ X
      · have hX : X = 5 := by omega
        subst hX
        by_cases hvn : v < 0 <;> simp [hvn]
      · by_cases hvn : v < 0 <;> simp [hvn, h5]

theorem textoDecimal_cabeca (d : Decimal) (hd : DecimalBem d) (r : List Char) :
    ∃ h t, textoDecimal d ++ r = h :: t ∧ ehEspaco h = false := by
  obtain ⟨neg, ip, fr, ex⟩ := d
  obtain ⟨hne, hip, _, _⟩ := hd
  simp only at hne hip
  cases neg
  · cases ip with
    | nil => exact absurd rfl hne
    | cons c cs =>
      exact ⟨c, cs ++ ((if fr = [] then [] else '.' :: fr) ++ (textoExpoente ex ++ r)),
        by simp [textoDecimal], (digito_props (hip c (List.mem_cons_self _ _))).1⟩
  · exact ⟨'-', ip ++ ((if fr = [] then [] else '.' :: fr) ++ (textoExpoente ex ++ r)),
      by simp [textoDecimal], by decide⟩

/-- Reading a `float` field that `<<` wrote: the stream stops in front of the white
space after the field and the value is the binary32 value nearest to the six-digit
decimal. -/
theorem lerFloat_escrito (v : ℚ)
    (hv : -FLT_MAX ≤ roundF32 (valor6 v) ∧ roundF32 (valor6 v) ≤ FLT_MAX)
    {ws : List Char} (hws : ∀ c ∈ ws, ehEspaco c = true) {x : Char} (hx : ehEspaco x = true)
    (r : List Char) (atual : ℚ) :
    lerFloat ⟨ws ++ (fmtG6 v ++ x :: r), false⟩ atual =
      (⟨x :: r, false⟩, roundF32 (valor6 v)) := by
  obtain ⟨h, t, hht, hh⟩ := textoDecimal_cabeca (decimalG6 v) (decimalG6_bem v) (x :: r)
  have hd : (ws ++ (fmtG6 v ++ x :: r)).dropWhile ehEspaco = fmtG6 v ++ x :: r := by
    unfold fmtG6
    rw [hht]
    exact dropWhile_espacos hws hh t
  have hne : fmtG6 v ++ x :: r ≠ [] := by simp
  unfold lerFloat
  simp only [Bool.false_eq_true, if_false, hd, hne]
  rw [show fmtG6 v = textoDecimal (decimalG6 v) from rfl,
    extrairDecimal_texto _ (decimalG6_bem v) hx]
  simp only [valorDecimal_decimalG6]
  rw [if_neg (not_lt.mpr hv.2), if_neg (not_lt.mpr hv.1)]

theorem lerFloat_estavel {v : ℚ} (hv : Estavel v) {ws : List Char}
    (hws : ∀ c ∈ ws, ehEspaco c = true) {x : Char} (hx : ehEspaco x = true)
    (r : List Char) (atual : ℚ) :
    lerFloat ⟨ws ++ (fmtG6 v ++ x :: r), false⟩ atual = (⟨x :: r, false⟩, v) := by
  have h := lerFloat_escrito v (by rw [hv.1]; exact hv.2) hws hx r atual
  rw [hv.1] at h
  exact h

theorem extrairInteiro_escrito (n : Int) {x : Char} (hx : ehDigito x = false) (r : List Char) :
    extrairInteiro (escreverInt n ++ x :: r) = (some n, x :: r) := by
  unfold extrairInteiro escreverInt
  by_cases hn : n < 0
  · have hs : lerSinal ('-' :: digitosNat n.natAbs ++ x :: r) =
        (true, digitosNat n.natAbs ++ x :: r) := by simp [lerSinal]
    simp only [hn, if_true, hs]
    rw [takeWhile_digitos (digitosNat_digitos _) hx, dropWhile_digitos (digitosNat_digitos _) hx]
    simp only [digitosNat_ne_nil, if_false, valorDigitos_digitosNat, if_true]
    congr 2
    omega
  · simp only [hn, if_false]
    rw [lerSinal_digitos (digitosNat_ne_nil _) (digitosNat_digitos _)]
    simp only
    rw [takeWhile_digitos (digitosNat_digitos _) hx, dropWhile_digitos (digitosNat_digitos _) hx]
    simp only [digitosNat_ne_nil, if_false, valorDigitos_digitosNat, Bool.false_eq_true]
    congr 2
    omega

theorem escreverInt_cabeca (n : Int) (r : List Char) :
    ∃ h t, escreverInt n ++ r = h :: t ∧ ehEspaco h = false := by
  unfold escreverInt
  split
  · exact ⟨'-', digitosNat n.natAbs ++ r, rfl, by decide⟩
  · cases hd : digitosNat n.natAbs with
    | nil => exact absurd hd (digitosNat_ne_nil _)
    | cons c cs =>
      refine ⟨c, cs ++ r, rfl, (digito_props ?_).1⟩
      exact digitosNat_digitos n.natAbs c (by rw [hd]; exact List.mem_cons_self _ _)

/-- Reading an `int` field that `<<` wrote gives the value back. -/
theorem lerInt_escrito {n : Int} (hn : EhInt32 n) {ws : List Char}
    (hws : ∀ c ∈ ws, ehEspaco c = true) {x : Char} (hx : ehEspaco x = true)
    (r : List Char) (atual : Int) :
    lerInt ⟨ws ++ (escreverInt n ++ x :: r), false⟩ atual = (⟨x :: r, false⟩, n) := by
  obtain ⟨h, t, hht, hh⟩ := escreverInt_cabeca n (x :: r)
  have hd : (ws ++ (escreverInt n ++ x :: r)).dropWhile ehEspaco = escreverInt n ++ x :: r := by
    rw [hht]
    exact dropWhile_espacos hws hh t
  have hne : escreverInt n ++ x :: r ≠ [] := by simp
  unfold lerInt
  simp only [Bool.false_eq_true, if_false, hd, hne, extrairInteiro_escrito n (espaco_props hx).1]
  rw [if_neg (not_lt.mpr hn.2), if_neg (not_lt.mpr hn.1)]

/-- Reading a `bool` field that `<<` wrote gives the value back. -/
theorem lerBool_escrito (b : Bool) {ws : List Char}
    (hws : ∀ c ∈ ws, ehEspaco c = true) {x : Char} (hx : ehEspaco x = true)
    (r : List Char) (atual : Bool) :
    lerBool ⟨ws ++ (escreverBool b ++ x :: r), false⟩ atual = (⟨x :: r, false⟩, b) := by
  have hxd := (espaco_props hx).1
  have e : escreverBool b = escreverInt (if b then 1 else 0) := by cases b <;> rfl
  obtain ⟨h, t, hht, hh⟩ := escreverInt_cabeca (if b then 1 else 0) (x :: r)
  have hd : (ws ++ (escreverBool b ++ x :: r)).dropWhile ehEspaco =
      escreverInt (if b then 1 else 0) ++ x :: r := by
    rw [e, hht]
    exact dropWhile_espacos hws hh t
  have hne : escreverInt (if b then 1 else 0) ++ x :: r ≠ [] := by rw [hht]; simp
  unfold lerBool
  simp only [Bool.false_eq_true, if_false, hd, hne, extrairInteiro_escrito _ hxd]
  cases b <;> simp

theorem escreverVoxel_append (v : Voxel) (r : List Char) :
    escreverVoxel v ++ r =
      fmtG6 v.pos.x ++ ' ' :: (fmtG6 v.pos.y ++ ' ' :: (fmtG6 v.pos.z ++ ' ' ::
        (fmtG6 v.fatorEscala ++ ' ' :: (escreverBool v.visivel ++ ' ' ::
          (escreverBool v.selecionado ++ ' ' :: (escreverInt v.corPos ++ '\n' :: r)))))) := by
  simp [escreverVoxel]

/-- Reading the record of a cell whose fields survive the text form gives the cell
back, whatever the target cell held, and leaves the stream on the end of the line. -/
theorem lerVoxel_escrito {v : Voxel} (hv : VoxelEstavel v) {ws : List Char}
    (hws : ∀ c ∈ ws, ehEspaco c = true) (r : List Char) (v0 : Voxel) :
    lerVoxel v0 ⟨ws ++ (escreverVoxel v ++ r), false⟩ = (v, ⟨'\n' :: r, false⟩) := by
  obtain ⟨hx, hy, hz, hs, hc⟩ := hv
  have sp : ehEspaco ' ' = true := by decide
  have nl : ehEspaco '\n' = true := by decide
  have w1 : ∀ c ∈ [' '], ehEspaco c = true := by
    intro c hc
    rw [List.mem_singleton.mp hc]
    exact sp
  have cons1 : ∀ (l : List Char), ' ' :: l = [' '] ++ l := fun _ => rfl
  unfold lerVoxel
  rw [escreverVoxel_append]
  simp only [lerFloat_estavel hx hws sp]
  rw [cons1]
  simp only [lerFloat_estavel hy w1 sp]
  rw [cons1]
  simp only [lerFloat_estavel hz w1 sp]
  rw [cons1]
  simp only [lerFloat_estavel hs w1 sp]
  rw [cons1]
  simp only [lerBool_escrito _ w1 sp]
  rw [cons1]
  simp only [lerBool_escrito _ w1 sp]
  rw [cons1]
  simp only [lerInt_escrito hc w1 nl]

/-- A read loop over the text of a list gives the list back, when each step reads
the text of one element back. -/
theorem repetir_escrito {α : Type} (passo : Nat → Fluxo → α × Fluxo) (txt : α → List Char)
    (P : α → Prop)
    (hp : ∀ i a r, P a → passo i ⟨'\n' :: (txt a ++ r), false⟩ = (a, ⟨'\n' :: r, false⟩))
    (l : List α) (hl : ∀ a ∈ l, P a) (i : Nat) (r : List Char) :
    repetir passo l.length i ⟨'\n' :: ((l.map txt).flatten ++ r), false⟩ =
      (l, ⟨'\n' :: r, false⟩) := by
  induction l generalizing i with
  | nil => rfl
  | cons a l ih =>
    simp only [List.length_cons, repetir, List.map_cons, List.flatten_cons, List.append_assoc]
    rw [hp i a _ (hl a (List.mem_cons_self _ _))]
    simp only
    rw [ih (fun b hb => hl b (List.mem_cons_of_mem _ hb))]

/-! ## The text of a whole grid -/

theorem lacoDe_lista {α : Type} (T : α → List Char) (l : List α) (i0 : Nat)
    (corpo : Nat → Option (List Char))
    (h : ∀ j (hj : j < l.length), corpo (i0 + j) = some (T l[j])) :
    lacoDe corpo l.length i0 = some (l.map T).flatten := by
  induction l generalizing i0 with
  | nil => rfl
  | cons a l ih =>
    have h0 := h 0 (by simp)
    simp only [Nat.add_zero, List.getElem_cons_zero] at h0
    have hr := ih (i0 + 1) (fun j hj => by
      have := h (j + 1) (by simp; omega)
      simpa [Nat.add_assoc, Nat.add_comm 1 j] using this)
    simp [lacoDe, h0, hr]

theorem idx_natCast {α : Type} (l : List α) (i : Nat) : idx l (i : Int) = l[i]? := by
  simp [idx]

/-- On a grid of edge `n` the three loops of `salvarGradeVoxel` write the records of
all the cells. -/
theorem lacos_cubica {g : Grade} {n : Nat} (hc : Cubica g n) :
    (laco n fun x => laco n fun y => laco n fun z =>
      (celula g x y z).map escreverVoxel) = some (corpoTexto g) := by
  obtain ⟨hlen, hall⟩ := hc
  subst hlen
  unfold laco corpoTexto
  apply lacoDe_lista (fun plano => (plano.map fun linha =>
    (linha.map escreverVoxel).flatten).flatten) g 0
  intro x hx
  have hp := hall g[x] (List.getElem_mem _)
  simp only [Nat.zero_add]
  have h2 := lacoDe_lista (fun linha => (linha.map escreverVoxel).flatten) g[x] 0
    (fun y => lacoDe (fun z => Option.map escreverVoxel (celula g x y z)) g.length 0)
    (by
      intro y hy
      have hl := hp.2 g[x][y] (List.getElem_mem _)
      simp only [Nat.zero_add]
      have h3 := lacoDe_lista escreverVoxel g[x][y] 0
        (fun z => Option.map escreverVoxel (celula g x y z))
        (by
          intro z hz
          simp only [Nat.zero_add]
          simp [celula, idx_natCast, List.getElem?_eq_getElem hx, List.getElem?_eq_getElem hy,
            List.getElem?_eq_getElem hz])
      rw [hl] at h3
      exact h3)
  rw [hp.1] at h2
  exact h2

theorem textoGrade_cubica {g : Grade} {tam : Int} (hc : Cubica g tam.toNat) :
    textoGrade tam g = some (escreverInt tam ++ '\n' :: corpoTexto g) := by
  unfold textoGrade
  rw [lacos_cubica hc]
  simp

theorem corpoTexto_eq (g : Grade) :
    corpoTexto g = ((todasCelulas g).map escreverVoxel).flatten := by
  unfold corpoTexto todasCelulas
  induction g with
  | nil => rfl
  | cons p g ih =>
    simp only [List.map_cons, List.flatten_cons, List.flatten_append, List.map_append, ih]
    congr 1
    induction p with
    | nil => rfl
    | cons l p ihp =>
      simp only [List.map_cons, List.flatten_cons, List.flatten_append, List.map_append, ihp]

theorem lerVoxel_linha {v : Voxel} (hv : VoxelEstavel v) (r : List Char) (v0 : Voxel) :
    lerVoxel v0 ⟨'\n' :: (escreverVoxel v ++ r), false⟩ = (v, ⟨'\n' :: r, false⟩) := by
  have hws : ∀ c ∈ ['\n'], ehEspaco c = true := by
    intro c hc
    rw [List.mem_singleton.mp hc]
    decide
  have h := lerVoxel_escrito hv hws r v0
  rw [List.singleton_append] at h
  exact h

/-- On the text of a grid of edge `n` whose cells survive the text form, the three
read loops of `carregarGradeVoxel` build the grid again. -/
theorem lerGrade_escrito (lixo : Nat → Nat → Nat → Voxel) {g : Grade} {n : Nat}
    (hc : Cubica g n) (hv : ∀ v ∈ todasCelulas g, VoxelEstavel v) (r : List Char) :
    lerGrade lixo n ⟨'\n' :: (corpoTexto g ++ r), false⟩ = (g, ⟨'\n' :: r, false⟩) := by
  obtain ⟨hlen, hall⟩ := hc
  unfold lerGrade corpoTexto
  have h3 : ∀ x y (linha : List Voxel) (r : List Char), (∀ v ∈ linha, VoxelEstavel v) →
      repetir (fun z => lerVoxel (voxelNovo (lixo x y z))) linha.length 0
        ⟨'\n' :: ((linha.map escreverVoxel).flatten ++ r), false⟩ =
        (linha, ⟨'\n' :: r, false⟩) := by
    intro x y linha r hl
    exact repetir_escrito (fun z => lerVoxel (voxelNovo (lixo x y z))) escreverVoxel
      VoxelEstavel (fun z a r ha => lerVoxel_linha ha r _) linha hl 0 r
  have h2 : ∀ x (plano : List (List Voxel)) (r : List Char),
      (∀ linha ∈ plano, linha.length = n ∧ ∀ v ∈ linha, VoxelEstavel v) →
      repetir (fun y => repetir (fun z => lerVoxel (voxelNovo (lixo x y z))) n 0) plano.length 0
        ⟨'\n' :: ((plano.map fun linha => (linha.map escreverVoxel).flatten).flatten ++ r),
          false⟩ = (plano, ⟨'\n' :: r, false⟩) := by
    intro x plano r hp
    exact repetir_escrito
      (fun y => repetir (fun z => lerVoxel (voxelNovo (lixo x y z))) n 0)
      (fun linha => (linha.map escreverVoxel).flatten)
      (fun linha => linha.length = n ∧ ∀ v ∈ linha, VoxelEstavel v)
      (fun y a r ha => by
        have := h3 x y a r ha.2
        rw [ha.1] at this
        exact this) plano hp 0 r
  have h1 := repetir_escrito
    (fun x => repetir (fun y => repetir (fun z => lerVoxel (voxelNovo (lixo x y z))) n 0) n 0)
    (fun plano => (plano.map fun linha => (linha.map escreverVoxel).flatten).flatten)
    (fun plano => plano.length = n ∧
      ∀ linha ∈ plano, linha.length = n ∧ ∀ v ∈ linha, VoxelEstavel v)
    (fun x a r ha => by
      have := h2 x a r ha.2
      rw [ha.1] at this
      exact this) g
    (fun plano hp => ⟨(hall plano hp).1, fun linha hl => ⟨(hall plano hp).2 linha hl,
      fun v hvm => hv v (by
        unfold todasCelulas
        simp only [List.mem_flatten]
        exact ⟨linha, ⟨plano, hp, hl⟩, hvm⟩)⟩⟩) 0 r
  rw [hlen] at h1
  exact h1

/-! ## Saving and loading -/

theorem repetir_length {α : Type} (passo : Nat → Fluxo → α × Fluxo) (n i : Nat) (f : Fluxo) :
    (repetir passo n i f).1.length = n := by
  induction n generalizing i f with
  | zero => rfl
  | succ n ih => simp [repetir, ih]

theorem mem_repetir {α : Type} {passo : Nat → Fluxo → α × Fluxo} {n i : Nat} {f : Fluxo}
    {a : α} (h : a ∈ (repetir passo n i f).1) : ∃ j f1, a = (passo j f1).1 := by
  induction n generalizing i f with
  | zero => simp [repetir] at h
  | succ n ih =>
    simp only [repetir, List.mem_cons] at h
    rcases h with rfl | h
    · exact ⟨i, f, rfl⟩
    · exact ih h

/-- The grid a load allocates has the edge that was read, whatever the text holds. -/
theorem cubica_lerGrade (lixo : Nat → Nat → Nat → Voxel) (n : Nat) (f : Fluxo) :
    Cubica (lerGrade lixo n f).1 n := by
  unfold lerGrade
  refine ⟨repetir_length _ _ _ _, ?_⟩
  intro plano hp
  obtain ⟨x, f1, rfl⟩ := mem_repetir hp
  refine ⟨repetir_length _ _ _ _, ?_⟩
  intro linha hl
  obtain ⟨y, f2, rfl⟩ := mem_repetir hl
  exact repetir_length _ _ _ _

/-- C1 (amended): for every grid of edge `TAM`, `0 ≤ TAM ≤ INT_MAX`, whose cells
hold values that survive the text form (each `float` field is finite and is the
binary32 value nearest to its own six-significant-digit decimal, each colour index
is an `int`), `salvarGradeVoxel` writes a text from which `carregarGradeVoxel`,
started in any state, rebuilds the same `TAM` and the same grid: the same cells with
the same seven fields at the same raw indices. -/
theorem salvar_carregar (lixo : Nat → Nat → Nat → Voxel) (s : Estado)
    (hc : Cubica s.grid s.TAM.toNat) (ht : 0 ≤ s.TAM ∧ s.TAM ≤ 2 ^ 31 - 1)
    (hg : s.gravavel = true) (hv : ∀ v ∈ todasCelulas s.grid, VoxelEstavel v) :
    ∃ txt, salvarGradeVoxel s = some { s with arquivoTxt := some txt } ∧
      ∀ s0 : Estado, s0.arquivoTxt = some txt →
        carregarGradeVoxel lixo s0 = some { s0 with TAM := s.TAM, grid := s.grid } := by
  refine ⟨escreverInt s.TAM ++ '\n' :: corpoTexto s.grid, ?_, ?_⟩
  · simp [salvarGradeVoxel, hg, textoGrade_cubica hc]
  · intro s0 hs0
    have hi : lerInt ⟨escreverInt s.TAM ++ '\n' :: corpoTexto s.grid, false⟩ s0.TAM =
        (⟨'\n' :: corpoTexto s.grid, false⟩, s.TAM) := by
      have := lerInt_escrito (n := s.TAM) ⟨by omega, ht.2⟩
        (show ∀ c ∈ ([] : List Char), ehEspaco c = true by simp)
        (x := '\n') (by decide) (corpoTexto s.grid) s0.TAM
      rwa [List.nil_append] at this
    have hgr := lerGrade_escrito lixo hc hv []
    rw [List.append_nil] at hgr
    unfold carregarGradeVoxel
    simp only [hs0, hi, not_lt.mpr ht.1, if_false, hgr]

/-- C1 (as stated) fails: the grid of edge 1 whose cell has the position
`x = 100000.25f`, a binary32 value, is written as `100000 0 0 0.98 1 0 0` and loaded
back with `x = 100000`. -/
theorem salvar_carregar_contraexemplo :
    Cubica estadoFino.grid estadoFino.TAM.toNat ∧
    (celula estadoFino.grid 0 0 0).map (fun v => v.pos.x) = some 100000.25 ∧
    roundF32 100000.25 = 100000.25 ∧
    (salvarGradeVoxel estadoFino).map (fun s => s.arquivoTxt) =
      some (some "1\n100000 0 0 0.98 1 0 0\n".toList) ∧
    (((salvarGradeVoxel estadoFino).bind (carregarGradeVoxel lixoZero)).bind
      fun s => celula s.grid 0 0 0).map (fun v => v.pos.x) = some 100000 := by
  refine ⟨⟨rfl, ?_⟩, by decide!, by decide!, by decide!, by decide!⟩
  intro plano hp
  simp only [estadoFino, List.mem_singleton] at hp
  subst hp
  refine ⟨rfl, ?_⟩
  intro linha hl
  simp only [List.mem_singleton] at hl
  subst hl
  rfl

theorem voxelEstavel_estadoDois : ∀ v ∈ todasCelulas estadoDois.grid, VoxelEstavel v := by
  decide!

theorem salvar_carregar_witness :
    Cubica estadoDois.grid estadoDois.TAM.toNat ∧
    (0 ≤ estadoDois.TAM ∧ estadoDois.TAM ≤ 2 ^ 31 - 1) ∧ estadoDois.gravavel = true ∧
    (∀ v ∈ todasCelulas estadoDois.grid, VoxelEstavel v) ∧
    ∃ txt, salvarGradeVoxel estadoDois = some { estadoDois with arquivoTxt := some txt } ∧
      ∀ s0 : Estado, s0.arquivoTxt = some txt →
        carregarGradeVoxel lixoZero s0 =
          some { s0 with TAM := estadoDois.TAM, grid := estadoDois.grid } :=
  ⟨cubica_estadoDois, by decide, rfl, voxelEstavel_estadoDois,
    salvar_carregar lixoZero estadoDois cubica_estadoDois (by decide) rfl
      voxelEstavel_estadoDois⟩

/-! ## A load from a text that ends early -/

theorem repetir_lerLista {α : Type} (passo : Nat → Fluxo → α × Fluxo) (n i : Nat) (f : Fluxo) :
    repetir passo n i f = lerLista ((List.range' i n).map passo) f := by
  induction n generalizing i f with
  | zero => rfl
  | succ n ih => simp [repetir, lerLista, List.range'_succ, ih]

theorem repetir_zero_lerLista {α : Type} (passo : Nat → Fluxo → α × Fluxo) (n : Nat) :
    repetir passo n 0 = lerLista ((List.range n).map passo) := by
  funext f
  rw [repetir_lerLista, List.range_eq_range']

theorem lerLista_append {α : Type} (ps qs : List (Fluxo → α × Fluxo)) (f : Fluxo) :
    lerLista (ps ++ qs) f =
      ((lerLista ps f).1 ++ (lerLista qs (lerLista ps f).2).1,
        (lerLista qs (lerLista ps f).2).2) := by
  induction ps generalizing f with
  | nil => rfl
  | cons p ps ih => simp [lerLista, ih]

/-- Reading list after list is reading the elements of all the lists in a row. -/
theorem lerLista_flatten {α : Type} (pss : List (List (Fluxo → α × Fluxo))) (f : Fluxo) :
    ((lerLista (pss.map lerLista) f).1.flatten, (lerLista (pss.map lerLista) f).2) =
      lerLista pss.flatten f := by
  induction pss generalizing f with
  | nil => rfl
  | cons ps pss ih =>
    have h := ih (lerLista ps f).2
    rw [Prod.ext_iff] at h
    simp only [List.map_cons, lerLista, List.flatten_cons, lerLista_append]
    rw [← h.1, ← h.2]

/-- The three read loops of `carregarGradeVoxel` visit the allocated cells in raw
index order. -/
theorem lerGrade_lerLista (lixo : Nat → Nat → Nat → Voxel) (n : Nat) (f : Fluxo) :
    (todasCelulas (lerGrade lixo n f).1, (lerGrade lixo n f).2) =
      lerLista ((todasCelulas (gradeAlocada lixo n)).map lerVoxel) f := by
  have e1 : lerGrade lixo n f =
      lerLista (((List.range n).map fun x => ((List.range n).map fun y =>
        (List.range n).map fun z => lerVoxel (voxelNovo (lixo x y z))).map lerLista).map
          lerLista) f := by
    unfold lerGrade
    simp only [repetir_zero_lerLista, List.map_map, Function.comp_def]
  have e4 : (todasCelulas (gradeAlocada lixo n)).map lerVoxel =
      (((List.range n).map fun x => (List.range n).map fun y =>
        (List.range n).map fun z => lerVoxel (voxelNovo (lixo x y z))).flatten).flatten := by
    unfold todasCelulas gradeAlocada
    simp only [List.map_flatten, List.map_map, Function.comp_def]
  rw [e1, e4, ← lerLista_flatten, List.map_flatten, ← lerLista_flatten]
  simp only [List.map_map, Function.comp_def, todasCelulas]

theorem lerFloat_falhou {f : Fluxo} (h : f.falhou = true) (a : ℚ) : lerFloat f a = (f, a) := by
  simp [lerFloat, h]

theorem lerBool_falhou {f : Fluxo} (h : f.falhou = true) (a : Bool) : lerBool f a = (f, a) := by
  simp [lerBool, h]

theorem lerInt_falhou {f : Fluxo} (h : f.falhou = true) (a : Int) : lerInt f a = (f, a) := by
  simp [lerInt, h]

/-- On a stream that has failed the read statement of a cell changes nothing. -/
theorem lerVoxel_falhou {f : Fluxo} (h : f.falhou = true) (v : Voxel) : lerVoxel v f = (v, f) := by
  unfold lerVoxel
  simp only [lerFloat_falhou h, lerBool_falhou h, lerInt_falhou h]

/-- At the end of the text (only the last newline is left) the read statement of a
cell changes no field and sets the `failbit`. -/
theorem lerVoxel_fim (v : Voxel) : lerVoxel v ⟨['\n'], false⟩ = (v, ⟨[], true⟩) := by
  have h1 : lerFloat ⟨['\n'], false⟩ v.pos.x = (⟨[], true⟩, v.pos.x) := by
    simp [lerFloat, ehEspaco]
  have ht : (⟨[], true⟩ : Fluxo).falhou = true := rfl
  unfold lerVoxel
  simp only [h1, lerFloat_falhou ht, lerBool_falhou ht, lerInt_falhou ht]

theorem lerLista_falhou {f : Fluxo} (h : f.falhou = true) (cs : List Voxel) :
    lerLista (cs.map lerVoxel) f = (cs, f) := by
  induction cs with
  | nil => rfl
  | cons c cs ih => simp [lerLista, lerVoxel_falhou h, ih]

/-- Reading a list of cells from a text that holds the records of `vs` and nothing
more: the cells that have a record get it, the others stay as they were, and the
stream has failed when a cell was left without a record. -/
theorem lerLista_registros (vs : List Voxel) (hv : ∀ v ∈ vs, VoxelEstavel v) (cs : List Voxel) :
    (lerLista (cs.map lerVoxel) ⟨'\n' :: (vs.map escreverVoxel).flatten, false⟩).1 =
        vs.take cs.length ++ cs.drop vs.length ∧
      (vs.length < cs.length →
        (lerLista (cs.map lerVoxel) ⟨'\n' :: (vs.map escreverVoxel).flatten, false⟩).2.falhou =
          true) := by
  induction vs generalizing cs with
  | nil =>
    cases cs with
    | nil => simp [lerLista]
    | cons c cs =>
      have ht : (⟨[], true⟩ : Fluxo).falhou = true := rfl
      simp [lerLista, lerVoxel_fim, lerLista_falhou ht]
  | cons v vs ih =>
    cases cs with
    | nil => simp [lerLista]
    | cons c cs =>
      have h := lerVoxel_linha (hv v (List.mem_cons_self _ _))
        ((vs.map escreverVoxel).flatten) c
      have ih2 := ih (fun w hw => hv w (List.mem_cons_of_mem _ hw)) cs
      simp only [List.map_cons, List.flatten_cons, lerLista, h, List.length_cons,
        List.take_succ_cons, List.drop_succ_cons, List.cons_append, List.cons.injEq, true_and,
        Nat.add_lt_add_iff_right]
      exact ih2

/-- Reading a list of cells from a text that starts with the records of `vs`: the
cells that have one of these records get it, whatever the text holds after them. -/
theorem lerLista_cabeca (vs : List Voxel) (hv : ∀ v ∈ vs, VoxelEstavel v) (r : List Char)
    (cs : List Voxel) :
    (lerLista (cs.map lerVoxel) ⟨'\n' :: ((vs.map escreverVoxel).flatten ++ r), false⟩).1.take
      vs.length = vs.take cs.length := by
  induction vs generalizing cs with
  | nil => simp
  | cons v vs ih =>
    cases cs with
    | nil => simp [lerLista]
    | cons c cs =>
      have h := lerVoxel_linha (hv v (List.mem_cons_self _ _))
        ((vs.map escreverVoxel).flatten ++ r) c
      have ih2 := ih (fun w hw => hv w (List.mem_cons_of_mem _ hw)) cs
      simp only [List.map_cons, List.flatten_cons, List.append_assoc, lerLista, h,
        List.length_cons, List.take_succ_cons, List.cons.injEq, true_and]
      exact ih2

theorem take_cabeca {α : Type} (X c a : List α) (k : Nat) (hX : X.length = c.length)
    (ha : a.length = c.length) (h : X.take (c.take k).length = (c.take k).take a.length) :
    X.take k = c.take k := by
  have h1 : (c.take k).take a.length = c.take k :=
    List.take_of_length_le (by rw [List.length_take, ha]; exact Nat.min_le_right _ _)
  rw [h1, List.length_take] at h
  by_cases hk : k ≤ c.length
  · rw [Nat.min_eq_left hk] at h
    exact h
  · have hk2 : c.length ≤ k := by omega
    rw [Nat.min_eq_right hk2, List.take_of_length_le (le_of_eq hX)] at h
    rw [List.take_of_length_le (by omega)]
    exact h

theorem repetir_parado {α : Type} (passo : Nat → Fluxo → α × Fluxo) (h : Nat → α) (f : Fluxo)
    (hp : ∀ i, passo i f = (h i, f)) (n : Nat) :
    repetir passo n 0 f = ((List.range n).map h, f) := by
  have e : ∀ i, repetir passo n i f = ((List.range' i n).map h, f) := by
    induction n with
    | zero => intro i; rfl
    | succ n ih => intro i; simp [repetir, hp, ih, List.range'_succ]
  rw [e 0, List.range_eq_range']

/-- On a stream that has failed the read loops leave every cell as allocated. -/
theorem lerGrade_falhou (lixo : Nat → Nat → Nat → Voxel) (n : Nat) {f : Fluxo}
    (h : f.falhou = true) : lerGrade lixo n f = (gradeAlocada lixo n, f) := by
  unfold lerGrade gradeAlocada
  apply repetir_parado
  intro x
  apply repetir_parado
  intro y
  apply repetir_parado
  intro z
  exact lerVoxel_falhou h _

theorem length_todasCelulas_gradeAlocada (lixo : Nat → Nat → Nat → Voxel) (n : Nat) :
    (todasCelulas (gradeAlocada lixo n)).length = n ^ 3 := by
  have hc : Cubica (gradeAlocada lixo n) n := by
    unfold gradeAlocada
    refine ⟨by simp, ?_⟩
    intro plano hp
    simp only [List.mem_map] at hp
    obtain ⟨x, _, rfl⟩ := hp
    refine ⟨by simp, ?_⟩
    intro linha hl
    simp only [List.mem_map] at hl
    obtain ⟨y, _, rfl⟩ := hl
    simp
  exact cubica_total hc

/-- C10 (amended): a load that cannot open the file leaves the whole state as it
was.  A load that opens the file never tests the stream and keeps nothing of the old
grid.  `TAM` becomes the first field read (what a failed read leaves, when there is
none); a negative `TAM` ends the program through the exception of `new[]`; otherwise
the grid is replaced by a newly allocated one of edge `TAM`, the cursor and the file
being left alone.  When the read of `TAM` has failed, every cell of the new grid is as
allocated (the memory it got, with `visivel = true` and `selecionado = false`).  When
the file starts with the text a save writes for a grid `g0` of edge `tam`, cut after
its first `k` records, the new grid has edge `tam` and its first `k` cells in file
order are those of `g0`, whatever the file holds after them.  When the file ends there,
every later cell is as allocated, and the stream has failed when `k` is less than the
number of cells. -/
theorem carregar_efeito (lixo : Nat → Nat → Nat → Voxel) (s : Estado) :
    (s.arquivoTxt = none → carregarGradeVoxel lixo s = some s) ∧
    (∀ txt, s.arquivoTxt = some txt →
      ((lerInt ⟨txt, false⟩ s.TAM).2 < 0 → carregarGradeVoxel lixo s = none) ∧
      (0 ≤ (lerInt ⟨txt, false⟩ s.TAM).2 →
        ∃ g, carregarGradeVoxel lixo s =
            some { s with TAM := (lerInt ⟨txt, false⟩ s.TAM).2, grid := g } ∧
          Cubica g (lerInt ⟨txt, false⟩ s.TAM).2.toNat ∧
          ((lerInt ⟨txt, false⟩ s.TAM).1.falhou = true →
            g = gradeAlocada lixo (lerInt ⟨txt, false⟩ s.TAM).2.toNat))) ∧
    (∀ (g0 : Grade) (tam : Int) (k : Nat) (resto : List Char), Cubica g0 tam.toNat →
      0 ≤ tam ∧ tam ≤ 2 ^ 31 - 1 → (∀ v ∈ todasCelulas g0, VoxelEstavel v) →
      s.arquivoTxt = some (textoCortado tam g0 k ++ resto) →
      ∃ g, carregarGradeVoxel lixo s = some { s with TAM := tam, grid := g } ∧
        Cubica g tam.toNat ∧ (todasCelulas g).take k = (todasCelulas g0).take k) ∧
    (∀ (g0 : Grade) (tam : Int) (k : Nat), Cubica g0 tam.toNat → 0 ≤ tam ∧ tam ≤ 2 ^ 31 - 1 →
      (∀ v ∈ todasCelulas g0, VoxelEstavel v) →
      s.arquivoTxt = some (textoCortado tam g0 k) →
      (∃ resto, textoGrade tam g0 = some (textoCortado tam g0 k ++ resto)) ∧
      ∃ g, carregarGradeVoxel lixo s = some { s with TAM := tam, grid := g } ∧
        Cubica g tam.toNat ∧
        todasCelulas g =
          (todasCelulas g0).take k ++ (todasCelulas (gradeAlocada lixo tam.toNat)).drop k ∧
        (k < (todasCelulas g0).length →
          (lerGrade lixo tam.toNat (lerInt ⟨textoCortado tam g0 k, false⟩ s.TAM).1).2.falhou =
            true)) := by
  have hi : ∀ (g0 : Grade) (tam : Int) (k : Nat) (resto : List Char), 0 ≤ tam ∧ tam ≤ 2 ^ 31 - 1 →
      lerInt ⟨textoCortado tam g0 k ++ resto, false⟩ s.TAM =
        (⟨'\n' :: ((((todasCelulas g0).take k).map escreverVoxel).flatten ++ resto), false⟩,
          tam) := by
    intro g0 tam k resto ht
    have := lerInt_escrito (n := tam) ⟨by omega, ht.2⟩
      (show ∀ c ∈ ([] : List Char), ehEspaco c = true by simp)
      (x := '\n') (by decide)
      ((((todasCelulas g0).take k).map escreverVoxel).flatten ++ resto) s.TAM
    rw [List.nil_append] at this
    unfold textoCortado
    rw [List.append_assoc, List.cons_append]
    exact this
  refine ⟨?_, ?_, ?_, ?_⟩
  · intro h
    simp [carregarGradeVoxel, h]
  · intro txt h
    refine ⟨?_, ?_⟩
    · intro hneg
      simp [carregarGradeVoxel, h, hneg]
    · intro h0
      refine ⟨(lerGrade lixo (lerInt ⟨txt, false⟩ s.TAM).2.toNat (lerInt ⟨txt, false⟩ s.TAM).1).1,
        ?_, cubica_lerGrade _ _ _, ?_⟩
      · simp [carregarGradeVoxel, h, not_lt.mpr h0]
      · intro hf
        rw [lerGrade_falhou lixo _ hf]
  · intro g0 tam k resto hc ht hv h
    have hl := lerGrade_lerLista lixo tam.toNat
      ⟨'\n' :: ((((todasCelulas g0).take k).map escreverVoxel).flatten ++ resto), false⟩
    rw [Prod.ext_iff] at hl
    have hr := lerLista_cabeca ((todasCelulas g0).take k)
      (fun v hvm => hv v (List.mem_of_mem_take hvm)) resto
      (todasCelulas (gradeAlocada lixo tam.toNat))
    have hn0 : (todasCelulas g0).length = tam.toNat ^ 3 := cubica_total hc
    have hn1 := length_todasCelulas_gradeAlocada lixo tam.toNat
    have hn2 : (todasCelulas (lerGrade lixo tam.toNat
        ⟨'\n' :: ((((todasCelulas g0).take k).map escreverVoxel).flatten ++ resto),
          false⟩).1).length = tam.toNat ^ 3 := cubica_total (cubica_lerGrade _ _ _)
    refine ⟨(lerGrade lixo tam.toNat
        ⟨'\n' :: ((((todasCelulas g0).take k).map escreverVoxel).flatten ++ resto), false⟩).1,
      ?_, cubica_lerGrade _ _ _, ?_⟩
    · simp only [carregarGradeVoxel, h, hi g0 tam k resto ht, not_lt.mpr ht.1, if_false]
    · simp only at hl
      rw [← hl.1] at hr
      exact take_cabeca _ _ _ k (by rw [hn2, hn0]) (by rw [hn1, hn0]) hr
  · intro g0 tam k hc ht hv h
    have hi0 := hi g0 tam k [] ht
    rw [List.append_nil, List.append_nil] at hi0
    have hl := lerGrade_lerLista lixo tam.toNat
      ⟨'\n' :: (((todasCelulas g0).take k).map escreverVoxel).flatten, false⟩
    rw [Prod.ext_iff] at hl
    have hr := lerLista_registros ((todasCelulas g0).take k)
      (fun v hvm => hv v (List.mem_of_mem_take hvm)) (todasCelulas (gradeAlocada lixo tam.toNat))
    have hn0 : (todasCelulas g0).length = tam.toNat ^ 3 := cubica_total hc
    have hn1 := length_todasCelulas_gradeAlocada lixo tam.toNat
    refine ⟨⟨(((todasCelulas g0).drop k).map escreverVoxel).flatten, ?_⟩,
      (lerGrade lixo tam.toNat
        ⟨'\n' :: (((todasCelulas g0).take k).map escreverVoxel).flatten, false⟩).1, ?_,
      cubica_lerGrade _ _ _, ?_, ?_⟩
    · rw [textoGrade_cubica hc, corpoTexto_eq]
      unfold textoCortado
      rw [List.append_assoc, List.cons_append, ← List.flatten_append, ← List.map_append,
        List.take_append_drop]
    · simp only [carregarGradeVoxel, h, hi0, not_lt.mpr ht.1, if_false]
    · simp only at hl ⊢
      rw [hl.1, hr.1, hn1, ← hn0]
      congr 1
      · exact List.take_of_length_le (by rw [List.length_take]; exact Nat.min_le_right _ _)
      · rw [List.length_take]
        by_cases hk : k ≤ (todasCelulas g0).length
        · rw [Nat.min_eq_left hk]
        · rw [Nat.min_eq_right (by omega), List.drop_of_length_le (by omega),
            List.drop_of_length_le (by omega)]
    · intro hk
      rw [hi0]
      simp only
      rw [hl.2]
      apply hr.2
      rw [List.length_take, hn1, ← hn0, Nat.min_eq_left (le_of_lt hk)]
      exact hk

/-- C10 (as stated) fails: with a grid of edge 2 in memory, loading a text that
announces edge 2 and is cut after its first record sets the `failbit` and still
replaces the grid; the cell `grid[0][0][0]`, invisible with colour 0 at `(-1, -1, -1)`
before the call, is visible with colour 7 at `(5, 5, 5)` after it. -/
theorem carregar_truncado_contraexemplo :
    (lerGrade lixoZero 2 (lerInt ⟨"2\n5 5 5 1 1 0 7\n".toList, false⟩ 2).1).2.falhou = true ∧
    (celula estadoTruncado.grid 0 0 0).map (fun v => (v.pos, v.visivel, v.corPos)) =
      some (⟨-1, -1, -1⟩, false, 0) ∧
    ((carregarGradeVoxel lixoZero estadoTruncado).bind fun s => celula s.grid 0 0 0).map
      (fun v => (v.pos, v.visivel, v.corPos)) = some (⟨5, 5, 5⟩, true, 7) := by
  refine ⟨by decide!, by decide!, by decide!⟩

theorem carregar_efeito_witness :
    (estadoDois.arquivoTxt = none ∧ carregarGradeVoxel lixoZero estadoDois = some estadoDois) ∧
    (carregarGradeVoxel lixoZero { estadoDois with arquivoTxt := some ['-', '1'] } = none) ∧
    (∃ g, carregarGradeVoxel lixoZero { estadoDois with arquivoTxt := some [] } =
        some { estadoDois with arquivoTxt := some [], TAM := 2, grid := g } ∧
      Cubica g 2 ∧ g = gradeAlocada lixoZero 2) ∧
    (Cubica estadoDois.grid (2 : Int).toNat ∧ ((0 : Int) ≤ 2 ∧ (2 : Int) ≤ 2 ^ 31 - 1) ∧
      (∀ v ∈ todasCelulas estadoDois.grid, VoxelEstavel v) ∧
      estadoCortado.arquivoTxt = some (textoCortado 2 estadoDois.grid 3) ∧
      (∃ resto, textoGrade 2 estadoDois.grid =
        some (textoCortado 2 estadoDois.grid 3 ++ resto)) ∧
      ∃ g, carregarGradeVoxel lixoZero estadoCortado =
          some { estadoCortado with TAM := 2, grid := g } ∧
        Cubica g (2 : Int).toNat ∧
        todasCelulas g = (todasCelulas estadoDois.grid).take 3 ++
          (todasCelulas (gradeAlocada lixoZero (2 : Int).toNat)).drop 3 ∧
        (3 < (todasCelulas estadoDois.grid).length →
          (lerGrade lixoZero (2 : Int).toNat
            (lerInt ⟨textoCortado 2 estadoDois.grid 3, false⟩ estadoCortado.TAM).1).2.falhou =
            true)) ∧
    (estadoRuido.arquivoTxt = some (textoCortado 2 estadoDois.grid 3 ++ "0 x".toList) ∧
      ∃ g, carregarGradeVoxel lixoZero estadoRuido = some { estadoRuido with TAM := 2, grid := g } ∧
        Cubica g (2 : Int).toNat ∧
        (todasCelulas g).take 3 = (todasCelulas estadoDois.grid).take 3) :=
  ⟨⟨rfl, (carregar_efeito lixoZero estadoDois).1 rfl⟩,
    ((carregar_efeito lixoZero { estadoDois with arquivoTxt := some ['-', '1'] }).2.1
      ['-', '1'] rfl).1 (by decide),
    (((carregar_efeito lixoZero { estadoDois with arquivoTxt := some [] }).2.1 [] rfl).2
      (by decide)).imp fun _ h => ⟨h.1, h.2.1, h.2.2 rfl⟩,
    ⟨cubica_estadoDois, by decide, voxelEstavel_estadoDois, rfl,
      (carregar_efeito lixoZero estadoCortado).2.2.2 estadoDois.grid 2 3 cubica_estadoDois
        (by decide) voxelEstavel_estadoDois rfl⟩,
    rfl,
    (carregar_efeito lixoZero estadoRuido).2.2.1 estadoDois.grid 2 3 "0 x".toList
      cubica_estadoDois (by decide) voxelEstavel_estadoDois rfl⟩

/-! ## The layout of the file -/

theorem separar_cons (sep c : Char) (cs : List Char) :
    separar sep (c :: cs) =
      if c = sep then [] :: separar sep cs
      else
        match separar sep cs with
        | [] => [[c]]
        | p :: ps => (c :: p) :: ps := rfl

theorem separar_campo {sep : Char} {a : List Char} (h : ∀ c ∈ a, c ≠ sep) (r : List Char) :
    separar sep (a ++ sep :: r) = a :: separar sep r := by
  induction a with
  | nil => rw [List.nil_append, separar_cons, if_pos rfl]
  | cons c a ih =>
    have hc : c ≠ sep := h c (List.mem_cons_self _ _)
    rw [List.cons_append, separar_cons, if_neg hc,
      ih (fun d hd => h d (List.mem_cons_of_mem _ hd))]

theorem separar_fim {sep : Char} {a : List Char} (h : ∀ c ∈ a, c ≠ sep) :
    separar sep a = [a] := by
  induction a with
  | nil => rfl
  | cons c a ih =>
    have hc : c ≠ sep := h c (List.mem_cons_self _ _)
    rw [separar_cons, if_neg hc, ih (fun d hd => h d (List.mem_cons_of_mem _ hd))]

theorem sem_espaco_fmtG6 (v : ℚ) : ∀ c ∈ fmtG6 v, ehEspaco c = false := by
  obtain ⟨hne, hip, hfr, hex⟩ := decimalG6_bem v
  intro c hc
  unfold fmtG6 textoDecimal at hc
  simp only [List.mem_append] at hc
  rcases hc with ((hc | hc) | hc) | hc
  · split at hc
    · rw [List.mem_singleton.mp hc]; decide
    · cases hc
  · exact (digito_props (hip c hc)).1
  · split at hc
    · cases hc
    · rcases List.mem_cons.mp hc with rfl | hc
      · decide
      · exact (digito_props (hfr c hc)).1
  · cases he : (decimalG6 v).expo with
    | none => simp [he, textoExpoente] at hc
    | some e =>
      obtain ⟨en, ds⟩ := e
      simp only [he, textoExpoente, List.mem_cons] at hc
      rcases hc with rfl | rfl | hc
      · decide
      · cases en <;> decide
      · exact (digito_props ((hex _ he).2 c hc)).1

theorem sem_espaco_escreverInt (n : Int) : ∀ c ∈ escreverInt n, ehEspaco c = false := by
  intro c hc
  unfold escreverInt at hc
  split at hc
  · rcases List.mem_cons.mp hc with rfl | hc
    · decide
    · exact (digito_props (digitosNat_digitos _ c hc)).1
  · exact (digito_props (digitosNat_digitos _ c hc)).1

theorem sem_espaco_escreverBool (b : Bool) : ∀ c ∈ escreverBool b, ehEspaco c = false := by
  intro c hc
  cases b <;> simp only [escreverBool, if_true, if_false, Bool.false_eq_true,
    List.mem_singleton] at hc <;> subst hc <;> decide

theorem ne_of_sem_espaco {l : List Char} (h : ∀ c ∈ l, ehEspaco c = false) {sep : Char}
    (hs : ehEspaco sep = true) : ∀ c ∈ l, c ≠ sep := by
  intro c hc he
  have := h c hc
  rw [he, hs] at this
  cases this

theorem escreverVoxel_linha (v : Voxel) : escreverVoxel v = linhaDoVoxel v ++ ['\n'] := by
  simp [escreverVoxel, linhaDoVoxel]

theorem separar_linhaDoVoxel (v : Voxel) : separar ' ' (linhaDoVoxel v) = camposDoVoxel v := by
  have sp : ehEspaco ' ' = true := by decide
  unfold linhaDoVoxel camposDoVoxel
  rw [separar_campo (ne_of_sem_espaco (sem_espaco_fmtG6 _) sp),
    separar_campo (ne_of_sem_espaco (sem_espaco_fmtG6 _) sp),
    separar_campo (ne_of_sem_espaco (sem_espaco_fmtG6 _) sp),
    separar_campo (ne_of_sem_espaco (sem_espaco_fmtG6 _) sp),
    separar_campo (ne_of_sem_espaco (sem_espaco_escreverBool _) sp),
    separar_campo (ne_of_sem_espaco (sem_espaco_escreverBool _) sp),
    separar_fim (ne_of_sem_espaco (sem_espaco_escreverInt _) sp)]
  cases v.visivel <;> cases v.selecionado <;> rfl

theorem sem_newline_linhaDoVoxel (v : Voxel) : ∀ c ∈ linhaDoVoxel v, c ≠ '\n' := by
  have nl : ehEspaco '\n' = true := by decide
  intro c hc
  unfold linhaDoVoxel at hc
  simp only [List.mem_append, List.mem_cons] at hc
  rcases hc with h | rfl | h | rfl | h | rfl | h | rfl | h | rfl | h | rfl | h
  · exact ne_of_sem_espaco (sem_espaco_fmtG6 _) nl c h
  · decide
  · exact ne_of_sem_espaco (sem_espaco_fmtG6 _) nl c h
  · decide
  · exact ne_of_sem_espaco (sem_espaco_fmtG6 _) nl c h
  · decide
  · exact ne_of_sem_espaco (sem_espaco_fmtG6 _) nl c h
  · decide
  · exact ne_of_sem_espaco (sem_espaco_escreverBool _) nl c h
  · decide
  · exact ne_of_sem_espaco (sem_espaco_escreverBool _) nl c h
  · decide
  · exact ne_of_sem_espaco (sem_espaco_escreverInt _) nl c h

theorem separar_registros (vs : List Voxel) :
    separar '\n' (vs.map escreverVoxel).flatten = vs.map linhaDoVoxel ++ [[]] := by
  induction vs with
  | nil => rfl
  | cons v vs ih =>
    simp only [List.map_cons, List.flatten_cons, escreverVoxel_linha, List.append_assoc,
      List.singleton_append, List.cons_append]
    rw [separar_campo (sem_newline_linhaDoVoxel v), List.nil_append, ih]

/-- C2: for every grid of edge `TAM ≥ 0`, `salvarGradeVoxel` writes a text whose
lines are: the digits of `TAM`, then exactly `TAM ^ 3` records, one per cell in raw
index order, and nothing after the last newline.  Each record is made of seven
fields separated by single spaces, `pos.x pos.y pos.z fatorEscala visivel selecionado
corPos`, the two flags as `0` or `1`.  The grid of edge 1 whose cell is at the origin
with scale `0.98f`, visible, not selected, of colour 3 is written as
`"1\n0 0 0 0.98 1 0 3\n"`. -/
theorem salvar_formato (s : Estado) (hc : Cubica s.grid s.TAM.toNat) (h0 : 0 ≤ s.TAM)
    (hg : s.gravavel = true) :
    (∃ txt linhas, salvarGradeVoxel s = some { s with arquivoTxt := some txt } ∧
      separar '\n' txt = escreverInt s.TAM :: (linhas ++ [[]]) ∧
      (linhas.length : Int) = s.TAM ^ 3 ∧
      linhas.map (separar ' ') = (todasCelulas s.grid).map camposDoVoxel) ∧
    (salvarGradeVoxel { estadoZero with TAM := 1, grid := [[[voxelExemplo]]] }).map
      (fun t => t.arquivoTxt) = some (some "1\n0 0 0 0.98 1 0 3\n".toList) := by
  refine ⟨⟨escreverInt s.TAM ++ '\n' :: corpoTexto s.grid,
    (todasCelulas s.grid).map linhaDoVoxel, ?_, ?_, ?_, ?_⟩, by decide!⟩
  · simp [salvarGradeVoxel, hg, textoGrade_cubica hc]
  · rw [separar_campo (ne_of_sem_espaco (sem_espaco_escreverInt _) (by decide)),
      corpoTexto_eq, separar_registros]
  · have hn : ((s.TAM.toNat : Nat) : Int) = s.TAM := Int.toNat_of_nonneg h0
    rw [List.length_map, cubica_total hc, Nat.cast_pow, hn]
  · rw [List.map_map]
    apply List.map_congr_left
    intro v _
    exact separar_linhaDoVoxel v

theorem salvar_formato_witness :
    Cubica estadoDois.grid estadoDois.TAM.toNat ∧ 0 ≤ estadoDois.TAM ∧
    estadoDois.gravavel = true ∧
    ((∃ txt linhas, salvarGradeVoxel estadoDois =
        some { estadoDois with arquivoTxt := some txt } ∧
      separar '\n' txt = escreverInt estadoDois.TAM :: (linhas ++ [[]]) ∧
      (linhas.length : Int) = estadoDois.TAM ^ 3 ∧
      linhas.map (separar ' ') = (todasCelulas estadoDois.grid).map camposDoVoxel) ∧
    (salvarGradeVoxel { estadoZero with TAM := 1, grid := [[[voxelExemplo]]] }).map
      (fun t => t.arquivoTxt) = some (some "1\n0 0 0 0.98 1 0 3\n".toList)) :=
  ⟨cubica_estadoDois, by decide, rfl, salvar_formato estadoDois cubica_estadoDois (by decide) rfl⟩

/-! ## Values that survive the text form -/

theorem logPiso_le (b : Nat) (hb : 2 ≤ b) (f n : Nat) (h : n ≤ f) (h1 : 1 ≤ n) :
    b ^ logPiso b f n ≤ n := by
  induction f generalizing n with
  | zero => omega
  | succ f ih =>
    unfold logPiso
    split
    · simpa using h1
    · rename_i hge
      have hdiv : n / b ≤ f := by
        have : n / b < n := Nat.div_lt_self (by omega) (by omega)
        omega
      have hpos : 1 ≤ n / b := (Nat.one_le_div_iff (by omega)).mpr (by omega)
      have := ih (n / b) hdiv hpos
      rw [pow_succ]
      calc b ^ logPiso b f (n / b) * b ≤ n / b * b := Nat.mul_le_mul_right b this
        _ ≤ n := Nat.div_mul_le_self n b

theorem arredPar_um (p : Nat) : arredPar p 1 = p := by
  simp [arredPar, Nat.mod_one]

/-- The six-digit decimal of a natural number below `10 ^ 6` is the number. -/
theorem arred6_nat {n : Nat} (h1 : 1 ≤ n) (h6 : n < 10 ^ 6) :
    ∃ L : Nat, L ≤ 5 ∧ arred6 n 1 = (n * 10 ^ (5 - L), (L : Int)) := by
  have hL := logPiso_le 10 (by decide) n n le_rfl h1
  have hU := logPiso_lt 10 (by decide) n n le_rfl
  have hL5 : logPiso 10 n n ≤ 5 := by
    by_contra hc
    have : 10 ^ 6 ≤ 10 ^ logPiso 10 n n := Nat.pow_le_pow_right (by decide) (by omega)
    omega
  refine ⟨logPiso 10 n n, hL5, ?_⟩
  have hM : n * 10 ^ (5 - logPiso 10 n n) < 10 ^ 6 := by
    calc n * 10 ^ (5 - logPiso 10 n n)
        < 10 ^ (logPiso 10 n n + 1) * 10 ^ (5 - logPiso 10 n n) :=
          Nat.mul_lt_mul_of_pos_right hU (by positivity)
      _ = 10 ^ 6 := by rw [← pow_add]; congr 1; omega
  have hk : (5 - (logPiso 10 n n : Int)).toNat = 5 - logPiso 10 n n := by omega
  have h0 : (0 : Int) ≤ 5 - (logPiso 10 n n : Int) := by omega
  simp only [arred6, expoente, h1, if_true, Nat.div_one, h0, hk, arredPar_um]
  rw [if_neg (by omega)]

theorem valor6_int (n : Int) (h : n.natAbs < 10 ^ 6) : valor6 (n : ℚ) = n := by
  unfold valor6
  by_cases h0 : n = 0
  · simp [h0]
  · have hq : ((n : ℚ) = 0) = False := by simp [h0]
    have h1 : 1 ≤ n.natAbs := by omega
    obtain ⟨L, hL, ha⟩ := arred6_nat h1 h
    simp only [hq, if_false, Rat.num_intCast, Rat.den_intCast, ha]
    have hp : ((10 ^ (5 - L) : Nat) : ℚ) ≠ 0 := by positivity
    have habs : ((n.natAbs : Nat) : ℚ) = |(n : ℚ)| := by
      rw [Nat.cast_natAbs, Int.cast_abs]
    have hval : (if (5 : Int) ≤ (L : Int) then
        ((n.natAbs * 10 ^ (5 - L) * 10 ^ ((L : Int) - 5).toNat : Nat) : ℚ)
        else ((n.natAbs * 10 ^ (5 - L) : Nat) : ℚ) / ((10 ^ (5 - (L : Int)).toNat : Nat) : ℚ)) =
        |(n : ℚ)| := by
      split
      · have e1 : 5 - L = 0 := by omega
        have e2 : ((L : Int) - 5).toNat = 0 := by omega
        simp [e1, e2, habs]
      · have e1 : (5 - (L : Int)).toNat = 5 - L := by omega
        rw [e1, Nat.cast_mul, mul_div_assoc, div_self hp, mul_one, habs]
    rw [hval]
    by_cases hn : (n : ℚ) < 0
    · simp only [hn, if_true]
      rw [abs_of_neg hn, neg_neg]
    · simp only [hn, if_false]
      exact abs_of_nonneg (not_lt.mp hn)

/-- An integer below `2 ^ 24` in magnitude is a binary32 value. -/
theorem roundF32_int (n : Int) (h : n.natAbs < 2 ^ 24) : roundF32 (n : ℚ) = n := by
  unfold roundF32
  by_cases h0 : n = 0
  · simp [h0]
  · have hq : ((n : ℚ) = 0) = False := by simp [h0]
    have h1 : 1 ≤ n.natAbs := by omega
    have hL := logPiso_le 2 (by decide) n.natAbs n.natAbs le_rfl h1
    have hE : logPiso 2 n.natAbs n.natAbs ≤ 23 := by
      by_contra hc
      have : 2 ^ 24 ≤ 2 ^ logPiso 2 n.natAbs n.natAbs :=
        Nat.pow_le_pow_right (by decide) (by omega)
      omega
    have habs : ((n.natAbs : Nat) : ℚ) = |(n : ℚ)| := by
      rw [Nat.cast_natAbs, Int.cast_abs]
    have hpos : arredF32Pos n.natAbs 1 = |(n : ℚ)| := by
      unfold arredF32Pos
      simp only [expoente, h1, if_true, Nat.div_one]
      have hmax : max (logPiso 2 n.natAbs n.natAbs : Int) (-126) =
          (logPiso 2 n.natAbs n.natAbs : Int) := max_eq_left (by omega)
      rw [hmax]
      by_cases hj : (0 : Int) ≤ (logPiso 2 n.natAbs n.natAbs : Int) - 23
      · have e : ((logPiso 2 n.natAbs n.natAbs : Int) - 23).toNat = 0 := by omega
        simp [hj, e, arredPar_um, habs]
      · simp only [hj, if_false, arredPar_um]
        have hp : ((2 ^ (-((logPiso 2 n.natAbs n.natAbs : Int) - 23)).toNat : Nat) : ℚ) ≠ 0 := by
          positivity
        rw [Nat.cast_mul, mul_div_assoc, div_self hp, mul_one, habs]
    simp only [hq, if_false, Rat.num_intCast, Rat.den_intCast, hpos]
    by_cases hn : (n : ℚ) < 0
    · simp only [hn, if_true]
      rw [abs_of_neg hn, neg_neg]
    · simp only [hn, if_false]
      exact abs_of_nonneg (not_lt.mp hn)

/-- Every integer of magnitude below `10 ^ 6`, as a `float`, survives the text form. -/
theorem estavel_int (n : Int) (h : n.natAbs < 10 ^ 6) : Estavel (n : ℚ) := by
  have h24 : n.natAbs < 2 ^ 24 := by
    have : (10 : Nat) ^ 6 < 2 ^ 24 := by decide
    omega
  refine ⟨by rw [valor6_int n h, roundF32_int n h24], ?_, ?_⟩
  · have : (-(10 : ℚ) ^ 6) ≤ (n : ℚ) := by
      have : -(10 : Int) ^ 6 ≤ n := by omega
      exact_mod_cast this
    have hm : -FLT_MAX ≤ -(10 : ℚ) ^ 6 := by
      unfold FLT_MAX
      norm_num
    linarith
  · have : (n : ℚ) ≤ (10 : ℚ) ^ 6 := by
      have : n ≤ (10 : Int) ^ 6 := by omega
      exact_mod_cast this
    have hm : (10 : ℚ) ^ 6 ≤ FLT_MAX := by
      unfold FLT_MAX
      norm_num
    linarith

/-- The scale `0.98f` survives the text form. -/
theorem estavel_escalaPadrao : Estavel escalaPadrao := by decide!

theorem mem_lacoPos_lt {α : Type} {f : Int → α} {n : Nat} {p : Int} {x : α}
    (h : x ∈ lacoPos f n p) : ∃ q, p ≤ q ∧ q < p + n ∧ x = f q := by
  induction n generalizing p with
  | zero => simp [lacoPos] at h
  | succ n ih =>
    simp only [lacoPos, List.mem_cons] at h
    rcases h with rfl | h
    · exact ⟨p, le_rfl, by push_cast; omega, rfl⟩
    · obtain ⟨q, h1, h2, h3⟩ := ih h
      exact ⟨q, by omega, by push_cast; omega, h3⟩

/-- Every cell that `inicializarGradeVoxel` builds for a size up to `10 ^ 6` survives
the text form. -/
theorem voxelEstavel_gradeInicial (tam : Int) (h : tam ≤ 10 ^ 6) :
    ∀ v ∈ todasCelulas (gradeInicial tam), VoxelEstavel v := by
  intro v hv
  unfold todasCelulas gradeInicial at hv
  simp only [List.mem_flatten] at hv
  obtain ⟨linha, ⟨plano, hp, hl⟩, hv⟩ := hv
  obtain ⟨y, hy1, hy2, rfl⟩ := mem_lacoPos_lt hp
  obtain ⟨x, hx1, hx2, rfl⟩ := mem_lacoPos_lt hl
  obtain ⟨z, hz1, hz2, rfl⟩ := mem_lacoPos_lt hv
  have hpos : 0 < tam := by
    by_contra hc
    have : tam.toNat = 0 := by omega
    rw [this] at hy2
    omega
  have hn : ((tam.toNat : Nat) : Int) = tam := Int.toNat_of_nonneg hpos.le
  rw [hn] at hy2 hx2 hz2
  have hini : Int.tdiv (-tam) 2 = -(tam / 2) := by
    rw [Int.neg_tdiv, Int.tdiv_eq_ediv hpos.le (by decide)]
  rw [hini] at hy1 hy2 hx1 hx2 hz1 hz2
  refine ⟨estavel_int x ?_, estavel_int y ?_, estavel_int z ?_, estavel_escalaPadrao, ?_⟩
  · omega
  · omega
  · omega
  · exact ⟨by simp, by simp⟩

/-! ## Every key event -/

theorem key_callback_f1 (lixo : Nat → Nat → Nat → Voxel) (s : Estado) :
    key_callback lixo s GLFW_KEY_F1 GLFW_PRESS = salvarGradeVoxel s := by
  simp [key_callback, GLFW_KEY_RIGHT, GLFW_KEY_1, GLFW_KEY_9, GLFW_KEY_0, GLFW_PRESS, GLFW_KEY_F1,
    GLFW_KEY_F2, GLFW_KEY_DELETE, GLFW_KEY_V, GLFW_KEY_LEFT, GLFW_KEY_UP, GLFW_KEY_DOWN,
    GLFW_KEY_Q, GLFW_KEY_E]

theorem key_callback_f2 (lixo : Nat → Nat → Nat → Voxel) (s : Estado) :
    key_callback lixo s GLFW_KEY_F2 GLFW_PRESS = carregarGradeVoxel lixo s := by
  simp [key_callback, GLFW_KEY_RIGHT, GLFW_KEY_1, GLFW_KEY_9, GLFW_KEY_0, GLFW_PRESS, GLFW_KEY_F1,
    GLFW_KEY_F2, GLFW_KEY_DELETE, GLFW_KEY_V, GLFW_KEY_LEFT, GLFW_KEY_UP, GLFW_KEY_DOWN,
    GLFW_KEY_Q, GLFW_KEY_E]

/-- An event that is not a key press changes nothing. -/
theorem key_callback_sem_press (lixo : Nat → Nat → Nat → Voxel) (s : Estado) (key action : Int)
    (h : action ≠ GLFW_PRESS) : key_callback lixo s key action = some s := by
  simp [key_callback, h]

/-- A press of a key the editor does not know changes nothing. -/
theorem key_callback_outra (lixo : Nat → Nat → Nat → Voxel) (s : Estado) (key : Int)
    (h1 : key ≠ GLFW_KEY_F1) (h2 : key ≠ GLFW_KEY_F2) (h3 : key ≠ GLFW_KEY_DELETE)
    (h4 : key ≠ GLFW_KEY_V) (h5 : passoDaTecla key = none)
    (h6 : ¬ (GLFW_KEY_0 ≤ key ∧ key ≤ GLFW_KEY_9)) :
    key_callback lixo s key GLFW_PRESS = some s := by
  have n5 : key ≠ GLFW_KEY_RIGHT ∧ key ≠ GLFW_KEY_LEFT ∧ key ≠ GLFW_KEY_UP ∧
      key ≠ GLFW_KEY_DOWN ∧ key ≠ GLFW_KEY_Q ∧ key ≠ GLFW_KEY_E := by
    unfold passoDaTecla at h5
    split_ifs at h5
    exact ⟨‹_›, ‹_›, ‹_›, ‹_›, ‹_›, ‹_›⟩
  obtain ⟨a1, a2, a3, a4, a5, a6⟩ := n5
  have hc : (if key ≥ GLFW_KEY_1 ∧ key ≤ GLFW_KEY_9 then key - GLFW_KEY_1 + 1
      else if key = GLFW_KEY_0 then 0 else -1) = -1 := by
    simp only [GLFW_KEY_0, GLFW_KEY_1, GLFW_KEY_9] at h6 ⊢
    split_ifs <;> omega
  unfold key_callback
  simp only [h1, h2, h3, h4, a1, a2, a3, a4, a5, a6, false_and, if_false, hc]
  simp
theorem idx_of_mem {α : Type} {l : List α} {x : α} (h : x ∈ l) : ∃ i : Int, idx l i = some x := by
  obtain ⟨i, hi, rfl⟩ := List.mem_iff_getElem.mp h
  exact ⟨(i : Int), by rw [idx_natCast, List.getElem?_eq_getElem hi]⟩

/-- Every one of `todasCelulas` is the cell of some index triple. -/
theorem celula_of_mem {g : Grade} {v : Voxel} (h : v ∈ todasCelulas g) :
    ∃ a b c, celula g a b c = some v := by
  unfold todasCelulas at h
  simp only [List.mem_flatten] at h
  obtain ⟨linha, ⟨plano, hp, hl⟩, hv⟩ := h
  obtain ⟨a, ha⟩ := idx_of_mem hp
  obtain ⟨b, hb⟩ := idx_of_mem hl
  obtain ⟨c, hc⟩ := idx_of_mem hv
  exact ⟨a, b, c, by simp [celula, ha, hb, hc]⟩

theorem coresValidas_iff (g : Grade) :
    CoresValidas g ↔ ∀ v ∈ todasCelulas g, 0 ≤ v.corPos ∧ v.corPos < 10 := by
  constructor
  · intro h v hv
    obtain ⟨a, b, c, hc⟩ := celula_of_mem hv
    exact h a b c v hc
  · intro h a b c v hv
    exact h v (celula_mem hv)

/-- An assignment through the cursor cell that gives it a colour of the palette, or
keeps its colour, keeps all colours inside the palette. -/
theorem coresValidas_naSelecao {s : Estado} {g1 : Grade} {w : Voxel}
    (hv : CoresValidas s.grid)
    (hcel : ∀ a b c, celula g1 a b c =
      if a = s.selecaoY ∧ b = s.selecaoX ∧ c = s.selecaoZ then some w
      else celula s.grid a b c)
    (hf : 0 ≤ w.corPos ∧ w.corPos < 10) : CoresValidas g1 := by
  intro a b c u hu
  rw [hcel a b c] at hu
  split at hu
  · simp only [Option.some.injEq] at hu
    subst hu
    exact hf
  · exact hv a b c u hu

/-- One key event other than a press of F2, in a state with a well-formed grid, the
cursor inside it and all colours inside the palette, leads to such a state. -/
theorem passo_cores (lixo : Nat → Nat → Nat → Voxel) (s : Estado)
    (hc : Cubica s.grid s.TAM.toNat) (hd : Dentro s) (hv : CoresValidas s.grid)
    (key action : Int) (hno : ¬ (key = GLFW_KEY_F2 ∧ action = GLFW_PRESS)) :
    ∃ s1, key_callback lixo s key action = some s1 ∧ Cubica s1.grid s1.TAM.toNat ∧
      Dentro s1 ∧ CoresValidas s1.grid := by
  by_cases hact : action = GLFW_PRESS
  swap
  · exact ⟨s, key_callback_sem_press lixo s key action hact, hc, hd, hv⟩
  subst hact
  have h2 : key ≠ GLFW_KEY_F2 := fun h => hno ⟨h, rfl⟩
  obtain ⟨v, hcur⟩ := celula_da_selecao hc hd
  by_cases h1 : key = GLFW_KEY_F1
  · subst h1
    rw [key_callback_f1]
    unfold salvarGradeVoxel
    split
    · exact ⟨s, rfl, hc, hd, hv⟩
    · rw [textoGrade_cubica hc]
      exact ⟨_, rfl, hc, hd, hv⟩
  by_cases h3 : key = GLFW_KEY_DELETE
  · subst h3
    obtain ⟨g1, hn1, hc1, hcel1⟩ := naSelecao_ponto hcur fun u => { u with visivel := false }
    rw [key_callback_delete, hn1]
    exact ⟨_, rfl, hc1 _ hc, hd, coresValidas_naSelecao hv hcel1 (hv _ _ _ v hcur)⟩
  by_cases h4 : key = GLFW_KEY_V
  · subst h4
    obtain ⟨g1, hn1, hc1, hcel1⟩ := naSelecao_ponto hcur fun u => { u with visivel := true }
    rw [key_callback_v, hn1]
    exact ⟨_, rfl, hc1 _ hc, hd, coresValidas_naSelecao hv hcel1 (hv _ _ _ v hcur)⟩
  cases h5 : passoDaTecla key with
  | some d =>
    by_cases hcand : (0 ≤ s.selecaoX + d.1 ∧ s.selecaoX + d.1 < s.TAM) ∧
        (0 ≤ s.selecaoY + d.2.1 ∧ s.selecaoY + d.2.1 < s.TAM) ∧
        (0 ≤ s.selecaoZ + d.2.2 ∧ s.selecaoZ + d.2.2 < s.TAM)
    · obtain ⟨g2, hk2, hc2, hcel⟩ := navegacao_aceita lixo s hc hd h5 hcand
      refine ⟨_, hk2, hc2, ⟨hcand.1, hcand.2.1, hcand.2.2⟩, ?_⟩
      intro a b c u hu
      simp only at hu
      rw [hcel a b c] at hu
      cases hw : celula s.grid a b c with
      | none => simp [hw] at hu
      | some w =>
        simp only [hw, Option.map_some', Option.some.injEq] at hu
        subst hu
        exact hv a b c w hw
    · exact ⟨s, by rw [key_callback_navegacao lixo s hd h5, if_neg hcand], hc, hd, hv⟩
  | none =>
    by_cases h6 : GLFW_KEY_0 ≤ key ∧ key ≤ GLFW_KEY_9
    · have hk : key = GLFW_KEY_0 + (key - GLFW_KEY_0) := by ring
      have c0 : 0 ≤ key - GLFW_KEY_0 := by have := h6.1; omega
      have c1 : key - GLFW_KEY_0 < 10 := by
        have := h6.2
        simp only [GLFW_KEY_0, GLFW_KEY_9] at this ⊢
        omega
      obtain ⟨g1, hn1, hc1, hcel1⟩ :=
        naSelecao_ponto hcur fun u => { u with corPos := key - GLFW_KEY_0 }
      have hv1 : celula g1 s.selecaoY s.selecaoX s.selecaoZ =
          some { v with corPos := key - GLFW_KEY_0 } := by
        rw [hcel1]; simp
      obtain ⟨g2, hn2, hc2, hcel2⟩ := naSelecao_ponto (s := { s with grid := g1 }) hv1
        fun u => { u with visivel := true }
      have hcv1 : CoresValidas g1 := coresValidas_naSelecao hv hcel1 ⟨c0, c1⟩
      have hcv2 : CoresValidas g2 :=
        coresValidas_naSelecao (s := { s with grid := g1 }) hcv1 hcel2 ⟨c0, c1⟩
      refine ⟨{ s with grid := g2 }, ?_, hc2 _ (hc1 _ hc), hd, hcv2⟩
      rw [hk, key_callback_cor lixo s _ c0 c1, hn1, Option.some_bind, hn2]
    · exact ⟨s, key_callback_outra lixo s key h1 h2 h3 h4 h5 h6, hc, hd, hv⟩
/-- C15: from a state with a well-formed grid, the cursor inside it and every colour
index in `[0, 10)` (so from every grid built by `inicializarGradeVoxel`, whose cells
have colour 0, with the cursor inside it and any cell selected), any finite sequence
of key events, of any key code and any action, that holds no press of F2 runs to a
state in which the cursor is inside the grid and every colour index is in `[0, 10)`:
the lookup `colorList[corPos]` of the render loop stays inside the palette. -/
theorem cores_na_paleta (lixo : Nat → Nat → Nat → Voxel) (evs : List (Int × Int))
    (hev : ∀ e ∈ evs, ¬ (e.1 = GLFW_KEY_F2 ∧ e.2 = GLFW_PRESS)) (s : Estado)
    (hc : Cubica s.grid s.TAM.toNat) (hd : Dentro s)
    (hv : ∀ v ∈ todasCelulas s.grid, 0 ≤ v.corPos ∧ v.corPos < 10) :
    (∀ size, ∀ v ∈ todasCelulas (gradeInicial size), 0 ≤ v.corPos ∧ v.corPos < 10) ∧
    ∃ s1, executar lixo s evs = some s1 ∧ Cubica s1.grid s1.TAM.toNat ∧ Dentro s1 ∧
      ∀ v ∈ todasCelulas s1.grid, 0 ≤ v.corPos ∧ v.corPos < 10 := by
  constructor
  · intro size v hm
    rw [(mem_gradeInicial hm).2.2.1]
    exact ⟨le_rfl, by decide⟩
  · rw [← coresValidas_iff] at hv
    induction evs generalizing s with
    | nil => exact ⟨s, rfl, hc, hd, (coresValidas_iff _).mp hv⟩
    | cons e es ih =>
      obtain ⟨s1, h1, hc1, hd1, hv1⟩ :=
        passo_cores lixo s hc hd hv e.1 e.2 (hev e (List.mem_cons_self _ _))
      obtain ⟨s2, h2, r⟩ := ih (fun j hj => hev j (List.mem_cons_of_mem _ hj)) s1 hc1 hd1 hv1
      refine ⟨s2, ?_, r⟩
      unfold executar at h2 ⊢
      simp only [List.foldlM_cons, h1]
      exact h2

theorem cores_estadoDois : ∀ v ∈ todasCelulas estadoDois.grid, 0 ≤ v.corPos ∧ v.corPos < 10 := by
  decide!

theorem cores_na_paleta_witness :
    (∀ e ∈ [(GLFW_KEY_0 + 5, GLFW_PRESS), (GLFW_KEY_F1, GLFW_PRESS), (GLFW_KEY_E, GLFW_PRESS),
        (GLFW_KEY_F2, 0), (GLFW_KEY_9, GLFW_PRESS), (1000, GLFW_PRESS)],
      ¬ (e.1 = GLFW_KEY_F2 ∧ e.2 = GLFW_PRESS)) ∧
    Cubica estadoDois.grid estadoDois.TAM.toNat ∧ Dentro estadoDois ∧
    (∀ v ∈ todasCelulas estadoDois.grid, 0 ≤ v.corPos ∧ v.corPos < 10) ∧
    ((∀ size, ∀ v ∈ todasCelulas (gradeInicial size), 0 ≤ v.corPos ∧ v.corPos < 10) ∧
    ∃ s1, executar lixoZero estadoDois
        [(GLFW_KEY_0 + 5, GLFW_PRESS), (GLFW_KEY_F1, GLFW_PRESS), (GLFW_KEY_E, GLFW_PRESS),
          (GLFW_KEY_F2, 0), (GLFW_KEY_9, GLFW_PRESS), (1000, GLFW_PRESS)] = some s1 ∧
      Cubica s1.grid s1.TAM.toNat ∧ Dentro s1 ∧
      ∀ v ∈ todasCelulas s1.grid, 0 ≤ v.corPos ∧ v.corPos < 10) :=
  ⟨by decide, cubica_estadoDois, dentro_estadoDois, cores_estadoDois,
    cores_na_paleta lixoZero _ (by decide) estadoDois cubica_estadoDois dentro_estadoDois
      cores_estadoDois⟩

/-- C12 at the failing input: `main` starts with `TAM = 25` and the cursor at
`(0, 0, 24)`; a press of F2 then loads a file that holds a grid of edge 1 (the text
`salvarGradeVoxel` writes for that grid), which sets `TAM = 1`, builds the grid of
the file and leaves the cursor where it was: `selecaoZ = 24` is outside `[0, TAM)`,
`grid[selecaoY][selecaoX][selecaoZ]` is no cell of the grid, and the next DELETE
press writes outside the grid. -/
theorem cursor_fora_apos_carga :
    (salvarGradeVoxel { estadoZero with TAM := 1, grid := [[[voxelExemplo]]] }).map
      (fun s => s.arquivoTxt) = some estadoArquivoUm.arquivoTxt ∧
    (estadoDePartida estadoArquivoUm).map
      (fun s => (s.TAM, s.selecaoX, s.selecaoY, s.selecaoZ)) = some (25, 0, 0, 24) ∧
    ((estadoDePartida estadoArquivoUm).bind fun s =>
      key_callback lixoZero s GLFW_KEY_F2 GLFW_PRESS).map
      (fun s => (s.TAM, s.selecaoX, s.selecaoY, s.selecaoZ,
        celula s.grid s.selecaoY s.selecaoX s.selecaoZ)) = some (1, 0, 0, 24, none) ∧
    ((estadoDePartida estadoArquivoUm).bind fun s =>
      key_callback lixoZero s GLFW_KEY_F2 GLFW_PRESS).map (fun s => s.grid) =
      some [[[voxelExemplo]]] ∧
    (((estadoDePartida estadoArquivoUm).bind fun s =>
      key_callback lixoZero s GLFW_KEY_F2 GLFW_PRESS).bind fun s =>
      key_callback lixoZero s GLFW_KEY_DELETE GLFW_PRESS) = none := by
  refine ⟨by decide!, by decide!, by decide!, by decide!, by decide!⟩

/-- Loading the text of a grid whose cells survive the text form: `TAM` and the
grid become those of the text, from any state. -/
theorem carregar_do_texto (lixo : Nat → Nat → Nat → Voxel) {g : Grade} {tam : Int}
    (hc : Cubica g tam.toNat) (ht : 0 ≤ tam ∧ tam ≤ 2 ^ 31 - 1)
    (hv : ∀ v ∈ todasCelulas g, VoxelEstavel v) (s : Estado)
    (hs : s.arquivoTxt = some (escreverInt tam ++ '\n' :: corpoTexto g)) :
    carregarGradeVoxel lixo s = some { s with TAM := tam, grid := g } := by
  have hi : lerInt ⟨escreverInt tam ++ '\n' :: corpoTexto g, false⟩ s.TAM =
      (⟨'\n' :: corpoTexto g, false⟩, tam) := by
    have := lerInt_escrito (n := tam) ⟨by omega, ht.2⟩
      (show ∀ c ∈ ([] : List Char), ehEspaco c = true by simp)
      (x := '\n') (by decide) (corpoTexto g) s.TAM
    rwa [List.nil_append] at this
  have hgr := lerGrade_escrito lixo hc hv []
  rw [List.append_nil] at hgr
  unfold carregarGradeVoxel
  simp only [hs, hi, not_lt.mpr ht.1, if_false, hgr]

/-- The state `main` sets up: the grid of `inicializarGradeVoxel(25)` with the cell
`grid[0][0][24]` selected, and the cursor on that cell. -/
theorem estadoDePartida_spec (s : Estado) :
    ∃ g, estadoDePartida s =
        some { s with TAM := 25, grid := g, selecaoX := 0, selecaoY := 0, selecaoZ := 24 } ∧
      Cubica g 25 ∧
      alterar (gradeInicial 25) 0 0 24 (fun v => { v with selecionado := true }) = some g := by
  have hcel := celula_gradeInicial 25 0 0 24 (by decide) (by decide) (by decide)
  obtain ⟨g, hn, ha⟩ := naSelecao_spec
    (s := { s with TAM := 25, grid := gradeInicial 25, selecaoX := 0, selecaoY := 0,
                   selecaoZ := 24 }) hcel fun v => { v with selecionado := true }
  refine ⟨g, ?_, cubica_alterar ha (cubica_gradeInicial 25), ha⟩
  unfold estadoDePartida inicializarGradeVoxel
  simp only [show ¬ ((25 : Int) < 0) by decide, if_false, Option.some_bind,
    show (25 : Int) - 1 = 24 by decide]
  exact hn
/-- Changing the `selecionado` flag of a cell does not touch the fields whose text
form matters. -/
theorem voxelEstavel_alterar {g g1 : Grade} {a b c : Int} {x : Bool}
    (hv : ∀ v ∈ todasCelulas g, VoxelEstavel v)
    (ha : alterar g a b c (fun v => { v with selecionado := x }) = some g1) :
    ∀ v ∈ todasCelulas g1, VoxelEstavel v := by
  intro v hm
  obtain ⟨i, j, k, hc⟩ := celula_of_mem hm
  rw [celula_alterar ha i j k] at hc
  split at hc
  · cases hu : celula g a b c with
    | none => simp [hu] at hc
    | some u =>
      simp only [hu, Option.map_some', Option.some.injEq] at hc
      subst hc
      exact hv u (celula_mem hu)
  · exact hv v (celula_mem hc)

theorem executar_nil (lixo : Nat → Nat → Nat → Voxel) (s : Estado) :
    executar lixo s [] = some s := rfl

theorem executar_cons (lixo : Nat → Nat → Nat → Voxel) (s : Estado) (e : Int × Int)
    (es : List (Int × Int)) :
    executar lixo s (e :: es) = (key_callback lixo s e.1 e.2).bind fun t => executar lixo t es := by
  simp only [executar, List.foldlM_cons]
  rfl

/-- C13 at the failing input: from the state `main` sets up, the presses F1 (save),
RIGHT (the cursor moves from `x = 0` to `x = 1`) and F2 (load of the saved file)
lead to a state whose grid is the saved one: the cell `grid[0][0][24]` the cursor
was on when saving is selected, the cell `grid[0][1][24]` the cursor addresses is
not.  One more press of RIGHT then leaves two selected cells, `grid[0][0][24]` and
the cursor cell `grid[0][2][24]`. -/
theorem selecao_fora_do_cursor_apos_carga :
    ∃ s0 s3 s4, estadoDePartida estadoZero = some s0 ∧
      executar lixoZero s0 [(GLFW_KEY_F1, GLFW_PRESS), (GLFW_KEY_RIGHT, GLFW_PRESS),
        (GLFW_KEY_F2, GLFW_PRESS)] = some s3 ∧
      s3.TAM = 25 ∧ s3.selecaoX = 1 ∧ s3.selecaoY = 0 ∧ s3.selecaoZ = 24 ∧
      (celula s3.grid 0 1 24).map (fun v => v.selecionado) = some false ∧
      (celula s3.grid 0 0 24).map (fun v => v.selecionado) = some true ∧
      key_callback lixoZero s3 GLFW_KEY_RIGHT GLFW_PRESS = some s4 ∧
      s4.selecaoX = 2 ∧ s4.selecaoY = 0 ∧ s4.selecaoZ = 24 ∧
      (celula s4.grid 0 0 24).map (fun v => v.selecionado) = some true ∧
      (celula s4.grid 0 2 24).map (fun v => v.selecionado) = some true := by
  obtain ⟨gP, hP, hcP, haP⟩ := estadoDePartida_spec estadoZero
  have hcelP := celula_alterar haP
  have hvP : ∀ v ∈ todasCelulas gP, VoxelEstavel v :=
    voxelEstavel_alterar (voxelEstavel_gradeInicial 25 (by decide)) haP
  -- the cells of the saved grid that matter
  have c0 : (celula gP 0 0 24).map (fun v => v.selecionado) = some true := by
    rw [hcelP 0 0 24, celula_gradeInicial 25 0 0 24 (by decide) (by decide) (by decide)]
    rfl
  have c1 : (celula gP 0 1 24).map (fun v => v.selecionado) = some false := by
    rw [hcelP 0 1 24, celula_gradeInicial 25 0 1 24 (by decide) (by decide) (by decide)]
    rfl
  have c2 : ∃ w, celula gP 0 2 24 = some w := by
    rw [hcelP 0 2 24, celula_gradeInicial 25 0 2 24 (by decide) (by decide) (by decide)]
    exact ⟨_, rfl⟩
  -- F1
  have h1 : key_callback lixoZero
      { estadoZero with TAM := 25, grid := gP, selecaoX := 0, selecaoY := 0, selecaoZ := 24 }
      GLFW_KEY_F1 GLFW_PRESS =
      some { estadoZero with TAM := 25, grid := gP, selecaoX := 0, selecaoY := 0,
                             selecaoZ := 24,
                             arquivoTxt := some (escreverInt 25 ++ '\n' :: corpoTexto gP) } := by
    rw [key_callback_f1]
    have hg : estadoZero.gravavel = true := rfl
    simp only [salvarGradeVoxel, hg, Bool.true_eq_false, if_false]
    rw [textoGrade_cubica (show Cubica gP (25 : Int).toNat from hcP)]
    rfl
  -- RIGHT
  obtain ⟨g2, h2, -, -⟩ := navegacao_aceita lixoZero
    { estadoZero with TAM := 25, grid := gP, selecaoX := 0, selecaoY := 0, selecaoZ := 24,
                      arquivoTxt := some (escreverInt 25 ++ '\n' :: corpoTexto gP) }
    hcP (by simp [Dentro]) (show passoDaTecla GLFW_KEY_RIGHT = some (1, 0, 0) from rfl) (by simp)
  -- RIGHT again
  obtain ⟨g4, h4, -, hcel4⟩ := navegacao_aceita lixoZero
    { estadoZero with TAM := 25, grid := gP, selecaoX := 0 + 1, selecaoY := 0 + 0,
                      selecaoZ := 24 + 0,
                      arquivoTxt := some (escreverInt 25 ++ '\n' :: corpoTexto gP) }
    hcP (by simp [Dentro]) (show passoDaTecla GLFW_KEY_RIGHT = some (1, 0, 0) from rfl) (by simp)
  refine ⟨_, _, _, hP, ?_, rfl, by simp, by simp, by simp, c1, c0, h4, by simp, by simp,
    by simp, ?_, ?_⟩
  · rw [executar_cons, h1, Option.some_bind, executar_cons, h2, Option.some_bind,
      executar_cons, key_callback_f2,
      carregar_do_texto lixoZero (show Cubica gP (25 : Int).toNat from hcP) (by decide) hvP _ rfl, Option.some_bind,
      executar_nil]
  · simp only at hcel4 ⊢
    rw [hcel4 0 0 24]
    cases hu : celula gP 0 0 24 with
    | none => simp [hu] at c0
    | some u =>
      simp only [hu, Option.map_some', Option.some.injEq] at c0
      simp [c0]
  · simp only at hcel4 ⊢
    rw [hcel4 0 2 24]
    obtain ⟨w, hw⟩ := c2
    simp [hw]

/-! ## The order of the records -/

theorem flatten_getElem? {α : Type} (L : List (List α)) (n : Nat)
    (hL : ∀ l ∈ L, l.length = n) (i j : Nat) (hj : j < n) :
    L.flatten[i * n + j]? = (L[i]?).bind fun l => l[j]? := by
  induction L generalizing i with
  | nil => simp
  | cons l L ih =>
    have hl : l.length = n := hL l (List.mem_cons_self _ _)
    cases i with
    | zero =>
      simp only [Nat.zero_mul, Nat.zero_add, List.flatten_cons, List.getElem?_cons_zero,
        Option.some_bind]
      exact List.getElem?_append_left (by omega)
    | succ i =>
      simp only [List.flatten_cons, List.getElem?_cons_succ]
      rw [List.getElem?_append_right (by rw [hl, Nat.succ_mul]; omega)]
      have e : (i + 1) * n + j - l.length = i * n + j := by
        rw [hl, Nat.succ_mul]; omega
      rw [e]
      exact ih (fun m hm => hL m (List.mem_cons_of_mem _ hm)) i

/-- In a grid of edge `n`, cell number `a * n ^ 2 + b * n + c` of `todasCelulas` is
`grid[a][b][c]`. -/
theorem todasCelulas_getElem? {g : Grade} {n : Nat} (hc : Cubica g n) (a b c : Nat)
    (hb : b < n) (hcn : c < n) :
    (todasCelulas g)[a * n ^ 2 + b * n + c]? = celula g a b c := by
  obtain ⟨_, hall⟩ := hc
  have h1 : ∀ l ∈ g.flatten, l.length = n := by
    intro l hl
    obtain ⟨p, hp, hlp⟩ := List.mem_flatten.mp hl
    exact (hall p hp).2 l hlp
  have e : a * n ^ 2 + b * n + c = (a * n + b) * n + c := by ring
  unfold todasCelulas
  rw [e, flatten_getElem? g.flatten n h1 (a * n + b) c hcn,
    flatten_getElem? g n (fun p hp => (hall p hp).1) a b hb]
  simp only [celula, idx_natCast]
  cases g[a]? <;> rfl

/-- C11 (amended): `inicializarGradeVoxel(size)` has no check of its argument.  It
succeeds exactly for `size ≥ 0`: a negative size ends the call in the exception of
the array allocation, and size 0 succeeds with `TAM = 0` and a grid without cells. -/
theorem inicializarGradeVoxel_tamanho (size : Int) (s : Estado) :
    ((inicializarGradeVoxel size s).isSome = true ↔ 0 ≤ size) ∧
    (size < 0 → inicializarGradeVoxel size s = none) ∧
    inicializarGradeVoxel 0 s = some { s with TAM := 0, grid := [] } := by
  refine ⟨?_, ?_, ?_⟩
  · unfold inicializarGradeVoxel
    split
    · simp; omega
    · simp; omega
  · intro h
    simp [inicializarGradeVoxel, h]
  · rfl

/-- C11 (as stated) fails: for size 0 no error is signalled, the call returns with
`TAM = 0` and an empty grid. -/
theorem inicializarGradeVoxel_zero_contraexemplo :
    (0 : Int) ≤ 0 ∧
    inicializarGradeVoxel 0 estadoZero = some { estadoZero with TAM := 0, grid := [] } ∧
    (inicializarGradeVoxel 0 estadoZero).isSome = true :=
  ⟨le_rfl, rfl, rfl⟩

theorem inicializarGradeVoxel_tamanho_witness :
    (-3 : Int) < 0 ∧ inicializarGradeVoxel (-3) estadoZero = none :=
  ⟨by decide, (inicializarGradeVoxel_tamanho (-3) estadoZero).2.1 (by decide)⟩
/-- C14 (amended): the saved records follow the raw index order of `grid`, whose
first index is the editor's `y`: for every `(x, y, z)` in `[0, size)^3`, in the
output of `salvarGradeVoxel` on the grid built by `inicializarGradeVoxel(size)` the
record number `y * size ^ 2 + x * size + z` (counting from 0 after the `TAM` line)
is the record of the cell `grid[y][x][z]` that the cursor addresses as `(x, y, z)`,
whose position is `(x - size/2, y - size/2, z - size/2)`: the editor's `y` is
outermost, `x` in the middle and `z` innermost. -/
theorem salvar_ordem (size x y z : Int) (hx : 0 ≤ x ∧ x < size) (hy : 0 ≤ y ∧ y < size)
    (hz : 0 ≤ z ∧ z < size) (s : Estado) (hg : s.gravavel = true) :
    ∃ s1 txt linhas v, inicializarGradeVoxel size s = some s1 ∧
      salvarGradeVoxel s1 = some { s1 with arquivoTxt := some txt } ∧
      separar '\n' txt = escreverInt size :: (linhas ++ [[]]) ∧
      linhas[(y * size ^ 2 + x * size + z).toNat]? = some (linhaDoVoxel v) ∧
      separar ' ' (linhaDoVoxel v) = camposDoVoxel v ∧
      v.pos = ⟨((x - Int.tdiv size 2 : Int) : ℚ), ((y - Int.tdiv size 2 : Int) : ℚ),
               ((z - Int.tdiv size 2 : Int) : ℚ)⟩ ∧
      celula s1.grid y x z = some v := by
  have hn : ((size.toNat : Nat) : Int) = size := Int.toNat_of_nonneg (by omega)
  have hc := cubica_gradeInicial size
  have hcel := celula_gradeInicial size y x z hy hx hz
  have hk : (y * size ^ 2 + x * size + z).toNat =
      y.toNat * size.toNat ^ 2 + x.toNat * size.toNat + z.toNat := by
    have e : y * size ^ 2 + x * size + z =
        ((y.toNat * size.toNat ^ 2 + x.toNat * size.toNat + z.toNat : Nat) : Int) := by
      push_cast
      rw [hn, Int.toNat_of_nonneg hx.1, Int.toNat_of_nonneg hy.1, Int.toNat_of_nonneg hz.1]
    rw [e, Int.toNat_natCast]
  refine ⟨{ s with TAM := size, grid := gradeInicial size },
    escreverInt size ++ '\n' :: corpoTexto (gradeInicial size),
    (todasCelulas (gradeInicial size)).map linhaDoVoxel, _, ?_, ?_, ?_, ?_,
    separar_linhaDoVoxel _, ?_, hcel⟩
  · have : ¬ size < 0 := by omega
    simp [inicializarGradeVoxel, this]
  · simp [salvarGradeVoxel, hg, textoGrade_cubica hc]
  · rw [separar_campo (ne_of_sem_espaco (sem_espaco_escreverInt _) (by decide)),
      corpoTexto_eq, separar_registros]
  · rw [List.getElem?_map, hk, todasCelulas_getElem? hc y.toNat x.toNat z.toNat (by omega)
      (by omega), Int.toNat_of_nonneg hx.1, Int.toNat_of_nonneg hy.1,
      Int.toNat_of_nonneg hz.1, hcel]
    rfl
  · simp only [Int.neg_tdiv, neg_add_eq_sub]

theorem salvar_ordem_witness :
    ((0 : Int) ≤ 1 ∧ (1 : Int) < 2) ∧ ((0 : Int) ≤ 0 ∧ (0 : Int) < 2) ∧
    ((0 : Int) ≤ 0 ∧ (0 : Int) < 2) ∧ estadoZero.gravavel = true ∧
    ∃ s1 txt linhas v, inicializarGradeVoxel 2 estadoZero = some s1 ∧
      salvarGradeVoxel s1 = some { s1 with arquivoTxt := some txt } ∧
      separar '\n' txt = escreverInt 2 :: (linhas ++ [[]]) ∧
      linhas[((0 : Int) * 2 ^ 2 + 1 * 2 + 0).toNat]? = some (linhaDoVoxel v) ∧
      separar ' ' (linhaDoVoxel v) = camposDoVoxel v ∧
      v.pos = ⟨(((1 : Int) - Int.tdiv 2 2 : Int) : ℚ), (((0 : Int) - Int.tdiv 2 2 : Int) : ℚ),
               (((0 : Int) - Int.tdiv 2 2 : Int) : ℚ)⟩ ∧
      celula s1.grid 0 1 0 = some v :=
  ⟨by decide, by decide, by decide, rfl,
    salvar_ordem 2 1 0 0 (by decide) (by decide) (by decide) estadoZero rfl⟩

/-- C14 (as stated) fails: for size 2 and the editor coordinate `(x, y, z) = (1, 0, 0)`
the record number `1 * 2 ^ 2 + 0 * 2 + 0 = 4` of the saved text is
`-1 0 -1 0.98 0 0 0`, the cell at position `(-1, 0, -1)`; the cell the cursor
addresses as `(1, 0, 0)`, at position `(0, -1, -1)`, is record number 2. -/
theorem salvar_ordem_contraexemplo :
    (((inicializarGradeVoxel 2 estadoZero).bind salvarGradeVoxel).bind
      fun s => s.arquivoTxt).map (fun t => ((separar '\n' t).drop 1)[4]?) =
      some (some "-1 0 -1 0.98 0 0 0".toList) ∧
    (((inicializarGradeVoxel 2 estadoZero).bind salvarGradeVoxel).bind
      fun s => s.arquivoTxt).map (fun t => ((separar '\n' t).drop 1)[2]?) =
      some (some "0 -1 -1 0.98 0 0 0".toList) ∧
    ((inicializarGradeVoxel 2 estadoZero).bind fun s => celula s.grid 0 1 0).map
      (fun v => v.pos) = some ⟨0, -1, -1⟩ ∧
    (((1 : Int) - Int.tdiv 2 2 : Int), ((0 : Int) - Int.tdiv 2 2 : Int),
      ((0 : Int) - Int.tdiv 2 2 : Int)) = (0, -1, -1) := by
  refine ⟨by decide!, by decide!, by decide!, by decide⟩

end GB

namespace Game

theorem abs_lt_metade (p q w v : ℚ) :
    |p - q| < (w + v) / 2 ↔ p - w / 2 < q + v / 2 ∧ q - v / 2 < p + w / 2 := by
  rw [abs_lt]
  constructor
  · rintro ⟨h1, h2⟩
    constructor <;> linarith
  · rintro ⟨h1, h2⟩
    constructor <;> linarith

theorem roundF32_neg (v : ℚ) : GB.roundF32 (-v) = -GB.roundF32 v := by
  unfold GB.roundF32
  by_cases h0 : v = 0
  · simp [h0]
  · have h0n : -v ≠ 0 := neg_ne_zero.mpr h0
    simp only [h0, h0n, if_false, Rat.neg_num, Rat.neg_den, Int.natAbs_neg, neg_lt_zero]
    rcases lt_or_gt_of_ne h0 with h | h
    · simp [h, not_lt.mpr (le_of_lt h)]
    · simp [h, not_lt.mpr (le_of_lt h)]

theorem FLT_MAX_pos : (0 : ℚ) < GB.FLT_MAX := by decide!

theorem abs_arred_neg (v : ℚ) : F32.abs (F32.arred (-v)) = F32.abs (F32.arred v) := by
  have hp := FLT_MAX_pos
  unfold F32.arred
  rw [roundF32_neg]
  split_ifs <;> first | rfl | (exfalso; linarith) | simp [F32.abs]

theorem abs_sub_troca (a b : F32) : F32.abs (F32.sub a b) = F32.abs (F32.sub b a) := by
  cases a with
  | fin p =>
    cases b with
    | fin q =>
      show F32.abs (F32.arred (p - q)) = F32.abs (F32.arred (q - p))
      rw [← neg_sub q p, abs_arred_neg]
    | inf n => rfl
    | nan => rfl
  | inf n =>
    cases b with
    | fin q => rfl
    | inf m => cases n <;> cases m <;> rfl
    | nan => rfl
  | nan => cases b <;> rfl

theorem add_troca (a b : F32) : F32.add a b = F32.add b a := by
  cases a with
  | fin p =>
    cases b with
    | fin q =>
      show F32.arred (p + q) = F32.arred (q + p)
      rw [add_comm]
    | inf n => rfl
    | nan => rfl
  | inf n =>
    cases b with
    | fin q => rfl
    | inf m => cases n <;> cases m <;> rfl
    | nan => rfl
  | nan => cases b <;> rfl

theorem arred_exato {v : ℚ} (h : EhF32 v) : F32.arred v = F32.fin v := by
  unfold F32.arred
  rw [h.1, if_neg (not_lt.mpr h.2.2), if_neg (not_lt.mpr h.2.1)]

/-- On an axis where nothing is rounded the comparison of `Rect::intersects` is the
overlap of the open extents. -/
theorem eixo_exato {p q w v : ℚ} (h : SemArredondar (p - q) (w + v)) :
    F32.lt (F32.abs (F32.sub (F32.fin p) (F32.fin q)))
      (F32.metade (F32.add (F32.fin w) (F32.fin v))) = true ↔
      p - w / 2 < q + v / 2 ∧ q - v / 2 < p + w / 2 := by
  obtain ⟨hd, hs, hm⟩ := h
  show F32.lt (F32.abs (F32.arred (p - q))) (F32.metade (F32.arred (w + v))) = true ↔ _
  rw [arred_exato hd, arred_exato hs]
  show F32.lt (F32.fin |p - q|) (F32.arred ((w + v) / 2)) = true ↔ _
  rw [arred_exato hm]
  show decide (|p - q| < (w + v) / 2) = true ↔ _
  rw [decide_eq_true_iff, abs_lt_metade]

/-- C16 (amended): `Rect::intersects` computes in binary32.  It is symmetric for all
values.  For rectangles with finite fields for which, on both axes, the difference of
the centres, the sum of the sizes and half of that sum are finite binary32 values (no
operation rounds or overflows), `a.intersects(b)` holds exactly when the open extents
overlap on both axes, `a.pos - a.size/2 < b.pos + b.size/2` and
`b.pos - b.size/2 < a.pos + a.size/2` for `x` and for `y`; so two such rectangles of
which one ends on an axis where the other begins (they touch along an edge) do not
intersect. -/
theorem Rect.intersects_extensoes (ax ay aw ah bx by1 bw bh : ℚ)
    (hx : SemArredondar (ax - bx) (aw + bw)) (hy : SemArredondar (ay - by1) (ah + bh)) :
    (∀ a b : Rect, a.intersects b = b.intersects a) ∧
    ((retangulo ax ay aw ah).intersects (retangulo bx by1 bw bh) = true ↔
      (ax - aw / 2 < bx + bw / 2 ∧ bx - bw / 2 < ax + aw / 2) ∧
      (ay - ah / 2 < by1 + bh / 2 ∧ by1 - bh / 2 < ay + ah / 2)) ∧
    (ax + aw / 2 = bx - bw / 2 →
      (retangulo ax ay aw ah).intersects (retangulo bx by1 bw bh) = false) ∧
    (bx + bw / 2 = ax - aw / 2 →
      (retangulo ax ay aw ah).intersects (retangulo bx by1 bw bh) = false) ∧
    (ay + ah / 2 = by1 - bh / 2 →
      (retangulo ax ay aw ah).intersects (retangulo bx by1 bw bh) = false) ∧
    (by1 + bh / 2 = ay - ah / 2 →
      (retangulo ax ay aw ah).intersects (retangulo bx by1 bw bh) = false) := by
  have hiff : (retangulo ax ay aw ah).intersects (retangulo bx by1 bw bh) = true ↔
      (ax - aw / 2 < bx + bw / 2 ∧ bx - bw / 2 < ax + aw / 2) ∧
      (ay - ah / 2 < by1 + bh / 2 ∧ by1 - bh / 2 < ay + ah / 2) := by
    unfold Rect.intersects retangulo
    rw [Bool.and_eq_true, eixo_exato hx, eixo_exato hy]
  have hfalse : ¬ ((ax - aw / 2 < bx + bw / 2 ∧ bx - bw / 2 < ax + aw / 2) ∧
      (ay - ah / 2 < by1 + bh / 2 ∧ by1 - bh / 2 < ay + ah / 2)) →
      (retangulo ax ay aw ah).intersects (retangulo bx by1 bw bh) = false := by
    intro h
    cases hi : (retangulo ax ay aw ah).intersects (retangulo bx by1 bw bh) with
    | false => rfl
    | true => exact absurd (hiff.mp hi) h
  refine ⟨?_, hiff, ?_, ?_, ?_, ?_⟩
  · intro a b
    unfold Rect.intersects
    rw [abs_sub_troca a.pos.x b.pos.x, abs_sub_troca a.pos.y b.pos.y,
      add_troca a.size.x b.size.x, add_troca a.size.y b.size.y]
  · intro h
    apply hfalse
    rintro ⟨⟨_, h2⟩, _⟩
    linarith
  · intro h
    apply hfalse
    rintro ⟨⟨h1, _⟩, _⟩
    linarith
  · intro h
    apply hfalse
    rintro ⟨_, _, h2⟩
    linarith
  · intro h
    apply hfalse
    rintro ⟨_, h1, _⟩
    linarith

/-- C16 (as stated) fails: the rectangles of size `1 x 1` centred at `(1, 0)` and at
`(2 ^ (-25), 0)` have binary32 fields and open extents that overlap on both axes (by
`2 ^ (-25)` on `x`), and `intersects` is false: the difference of the centres,
`1 - 2 ^ (-25)`, is rounded to `1`, which is not below half the sum of the sizes. -/
theorem Rect.intersects_contraexemplo :
    (EhF32 1 ∧ EhF32 0 ∧ EhF32 (1 / 2 ^ 25)) ∧
    (((1 : ℚ) - 1 / 2 < 1 / 2 ^ 25 + 1 / 2 ∧ (1 : ℚ) / 2 ^ 25 - 1 / 2 < 1 + 1 / 2) ∧
      ((0 : ℚ) - 1 / 2 < 0 + 1 / 2 ∧ (0 : ℚ) - 1 / 2 < 0 + 1 / 2)) ∧
    F32.sub (F32.fin 1) (F32.fin (1 / 2 ^ 25)) = F32.fin 1 ∧
    (retangulo 1 0 1 1).intersects (retangulo (1 / 2 ^ 25) 0 1 1) = false := by
  refine ⟨by decide!, by norm_num, by decide!, by decide!⟩

theorem Rect.intersects_extensoes_witness :
    SemArredondar (0 - 1) (1 + 1) ∧ SemArredondar (0 - 0) (1 + 1) ∧
    (0 : ℚ) + 1 / 2 = 1 - 1 / 2 ∧
    (retangulo 0 0 1 1).intersects (retangulo 1 0 1 1) = false ∧
    (retangulo 0 0 1 1).intersects (retangulo 0 0 1 1) = true :=
  ⟨by decide!, by decide!, by norm_num,
    (Rect.intersects_extensoes 0 0 1 1 1 0 1 1 (by decide!) (by decide!)).2.2.1 (by norm_num),
    ((Rect.intersects_extensoes 0 0 1 1 0 0 1 1 (by decide!) (by decide!)).2.1).mpr
      (by norm_num)⟩

end Game
